import Mathlib

/-!
# pion: HTTP message transfer and cookie authentication

A shallow embedding of two parts of the pion sources:

* `HTTPMessage::receive` and `HTTPMessage::concatenateChunks`
  (`src/HTTPMessage.cpp`), in namespace `pion.net`;
* `cookie_auth` (`src/http_cookie_auth.cpp`), in namespace `pion.http`.

Stateful C++ code is written as explicit state passing.  Classes whose
sources are not part of the tree (the parser, the connection, the message
base class) are either taken as parameters or modelled from the
specification; each such definition says so in its doc comment.
-/

namespace pion
namespace net

/-! ## Basic types -/

/-- One `char` of a buffer. -/
abbrev Byte := UInt8

/-- The modulus of `std::size_t` arithmetic (64-bit build). -/
def SIZE_T_MODULUS : Nat := 2 ^ 64

/-- The three values of `boost::tribool`. -/
inductive tribool where
  | false_value
  | true_value
  | indeterminate_value
  deriving DecidableEq, Repr

/-- The value of a `boost::system::error_code` as far as `receive` can tell
them apart: clear, set by a socket operation, or assigned from
`RECEIVE_ERROR` (`ec.assign(1, RECEIVE_ERROR)`). -/
inductive error_code where
  | success
  | socket_error
  | receive_error
  deriving DecidableEq, Repr

/-- The type `TCPConnection::LifecycleType`. -/
inductive LifecycleType where
  | LIFECYCLE_CLOSE
  | LIFECYCLE_KEEPALIVE
  | LIFECYCLE_PIPELINED
  deriving DecidableEq, Repr

/-- A pair of `const char*` into the connection's read buffer, each kept as
its offset from `getReadBuffer().data()`. -/
structure ReadPosition where
  read_ptr : Nat
  read_end_ptr : Nat
  deriving DecidableEq, Repr

/-- The expression `(read_end_ptr - read_ptr)` stored into a `std::size_t`. -/
def ptrDiff (read_end_ptr read_ptr : Nat) : Nat :=
  (((read_end_ptr : Int) - (read_ptr : Int)) % (SIZE_T_MODULUS : Int)).toNat

/-- Subtraction of two `std::size_t` values. -/
def subSizeT (a b : Nat) : Nat :=
  (((a : Int) - (b : Int)) % (SIZE_T_MODULUS : Int)).toNat

/-! ## HTTPMessage -/

/-- The state of an `HTTPMessage` object that `receive` and `send` touch.
The fields `status_code` and `request_method` belong to the `HTTPResponse`
subclass; whether the object is a request or a response is its dynamic type
and is passed separately as `is_request`. -/
structure HTTPMessage where
  version_major : Nat
  version_minor : Nat
  headers : List (String × String)
  status_code : Nat
  request_method : String
  is_valid : Bool
  is_chunked : Bool
  chunks_supported : Bool
  content_length : Nat
  content_buf : Option (List Byte)
  chunk_buffers : List (List Byte)
  deriving DecidableEq, Repr

/-- Modelled from the spec: the constant `HTTPTypes::HEADER_CONTENT_LENGTH`
(the header `Content-Length`). -/
def HEADER_CONTENT_LENGTH : String := "Content-Length"

/-- Modelled from the spec: the constant `HTTPTypes::HEADER_TRANSFER_ENCODING`
(the header `Transfer-Encoding`). -/
def HEADER_TRANSFER_ENCODING : String := "Transfer-Encoding"

/-- Modelled from the spec: the constant `HTTPTypes::HEADER_CONNECTION` (the
header `Connection`). -/
def HEADER_CONNECTION : String := "Connection"

/-- Modelled from the spec: the constant `HTTPTypes::REQUEST_METHOD_HEAD`. -/
def REQUEST_METHOD_HEAD : String := "HEAD"

/-- Case-insensitive comparison of two header names. -/
def iequals (a b : String) : Bool :=
  a.data.map Char.toLower == b.data.map Char.toLower

/-- Whether `needle` occurs in `hay`. -/
def containsChars (needle hay : List Char) : Bool :=
  hay.tails.any (fun t => needle.isPrefixOf t)

/-- Modelled from the spec: `HTTPMessage::hasHeader` (the class header is not
in the tree); "headers: ordered multimap of case-insensitive name → value". -/
def HTTPMessage.hasHeader (m : HTTPMessage) (key : String) : Bool :=
  m.headers.any (fun h => iequals h.1 key)

/-- Modelled from the spec: `HTTPMessage::getHeader`, the first value stored
under a case-insensitive name, or the empty string. -/
def HTTPMessage.getHeader (m : HTTPMessage) (key : String) : String :=
  match m.headers.find? (fun h => iequals h.1 key) with
  | some h => h.2
  | none => ""

/-- Modelled from the spec: whether the `Transfer-Encoding` header matches the
pattern `REGEX_ICASE_CHUNKED("chunked", boost::regex::icase)`.  The use of the
pattern is in the class header, which is not in the tree; "If
`Transfer-Encoding` contains `chunked` (case-insensitive), parse chunks". -/
def HTTPMessage.hasChunkedTransferEncoding (m : HTTPMessage) : Bool :=
  containsChars "chunked".data ((m.getHeader HEADER_TRANSFER_ENCODING).data.map Char.toLower)

/-- Modelled from the spec: `HTTPMessage::updateTransferCodingUsingHeader`,
which sets the chunked flag from the `Transfer-Encoding` header. -/
def HTTPMessage.updateTransferCodingUsingHeader (m : HTTPMessage) : HTTPMessage :=
  { m with is_chunked := m.hasChunkedTransferEncoding }

/-- Modelled from the spec: the accessor `HTTPMessage::isChunked`. -/
def HTTPMessage.isChunked (m : HTTPMessage) : Bool := m.is_chunked

/-- Modelled from the spec: `HTTPMessage::checkKeepAlive`; "`keep_alive()` is
true ⇔ (version ≥ 1.1 AND `Connection` header does not equal `close`) OR
(version < 1.1 AND `Connection` contains `keep-alive`)". -/
def HTTPMessage.checkKeepAlive (m : HTTPMessage) : Bool :=
  let at_least_1_1 : Bool :=
    decide (1 < m.version_major) || (m.version_major == 1 && decide (1 ≤ m.version_minor))
  (at_least_1_1 && (m.getHeader HEADER_CONNECTION != "close"))
    || (!at_least_1_1 && containsChars "keep-alive".data (m.getHeader HEADER_CONNECTION).data)

/-- Modelled from the spec: the virtual `isContentLengthImplied`; "Status ∈
[100,199] ∪ {204, 304} → no body.  Response to HEAD → no body."  A request
never has an implied content length. -/
def HTTPMessage.isContentLengthImplied (is_request : Bool) (m : HTTPMessage) : Bool :=
  !is_request &&
    (m.request_method == REQUEST_METHOD_HEAD
      || (decide (100 ≤ m.status_code) && decide (m.status_code ≤ 199))
      || m.status_code == 204
      || m.status_code == 304)

/-- Modelled from the spec: the accessor `HTTPMessage::setContentLength`. -/
def HTTPMessage.setContentLength (m : HTTPMessage) (n : Nat) : HTTPMessage :=
  { m with content_length := n }

/-- Modelled from the spec: `HTTPMessage::createContentBuffer`, a fresh buffer
of `content_length` bytes followed by a terminating NUL ("owned byte buffer of
known length").  Bytes not yet written are shown as 0. -/
def HTTPMessage.createContentBuffer (m : HTTPMessage) : HTTPMessage :=
  { m with content_buf := some (List.replicate m.content_length 0 ++ [0]) }

/-- Modelled from the spec: the accessor `HTTPMessage::getContentLength`. -/
def HTTPMessage.getContentLength (m : HTTPMessage) : Nat := m.content_length

/-- Modelled from the spec: the payload that `HTTPMessage::getContent` points
to, the first `getContentLength()` bytes of the content buffer (nothing when
the buffer is `NULL`). -/
def HTTPMessage.getContent (m : HTTPMessage) : List Byte :=
  match m.content_buf with
  | some buf => buf.take m.content_length
  | none => []

/-- The call `memcpy(buf + off, src, src.size())` on a buffer held as a list. -/
def memcpy (buf : List Byte) (off : Nat) (src : List Byte) : List Byte :=
  buf.take off ++ src ++ buf.drop (off + src.length)

/-- The second loop of `concatenateChunks`: copies each chunk at
`post_buffer` and advances `post_buffer` by the chunk's size. -/
def copyChunks : List (List Byte) → Nat → List Byte → List Byte
  | [], _, buf => buf
  | c :: cs, post_buffer, buf => copyChunks cs (post_buffer + c.length) (memcpy buf post_buffer c)

/-- The first loop of `concatenateChunks`: `sumOfChunkSizes += i->size()`.
The chunks are buffers in memory, so the sum stays below `SIZE_T_MODULUS`. -/
def sumOfChunkSizes (chunks : List (List Byte)) : Nat :=
  chunks.foldl (fun s c => s + c.length) 0

/-- The function `HTTPMessage::concatenateChunks`. -/
def HTTPMessage.concatenateChunks (m : HTTPMessage) : HTTPMessage :=
  let total := sumOfChunkSizes m.chunk_buffers
  let m1 := m.setContentLength total
  if 0 < total then
    let m2 := m1.createContentBuffer
    { m2 with content_buf := m2.content_buf.map (copyChunks m2.chunk_buffers 0) }
  else
    m1

/-- Modelled from the spec: `HTTPMessage::clear` followed by
`HTTPResponse::clear`, which "clears all response data" (`HTTPResponse.hpp`
lines 58-63 reset every member of the response); the caller's comment is
"make sure that we start out with an empty message".  Headers, content,
chunk cache and flags are reset; a response gets status code 200 again and
no longer knows the method of the request it answers. -/
def HTTPMessage.clear (is_request : Bool) (m : HTTPMessage) : HTTPMessage :=
  { m with
    headers := []
    is_valid := false
    is_chunked := false
    chunks_supported := false
    content_length := 0
    content_buf := none
    chunk_buffers := []
    status_code := if is_request then m.status_code else 200
    request_method := if is_request then m.request_method else "" }

/-- Modelled from the spec: `HTTPParser::finishRequest` ("is_valid flag set
only after a successful parse").  The caller's comment is "the message is
valid: finish it (sets valid flag)"; of the fields kept here only the valid
flag is touched. -/
def finishRequest (m : HTTPMessage) : HTTPMessage := { m with is_valid := true }

/-- Modelled from the spec: `HTTPParser::finishResponse`, see `finishRequest`. -/
def finishResponse (m : HTTPMessage) : HTTPMessage := { m with is_valid := true }

/-! ## TCPConnection -/

/-- What the peer delivers to one read call on the socket: some bytes (at most
the capacity of the read buffer), or an error (which includes end of file). -/
inductive SocketEvent where
  | data (bytes : List Byte)
  | error
  deriving DecidableEq, Repr

/-- Modelled from the spec: `TCPConnection` (its header is not in the tree);
"read_buffer; read_bookmark (optional slice within read_buffer marking
unconsumed bytes after a parsed message); lifecycle ∈ {Close, KeepAlive,
Pipelined}".  `read_buffer` holds the bytes stored by the last read.  The
bytes still to arrive on the socket are passed next to the connection, as a
list of `SocketEvent`; a read on an exhausted list fails (end of file). -/
structure TCPConnection where
  lifecycle : LifecycleType
  read_buffer : List Byte
  read_position : Option ReadPosition
  deriving DecidableEq, Repr

/-- Modelled from the spec: `TCPConnection::getPipelined`, "`pipelined() -> bool`". -/
def TCPConnection.getPipelined (c : TCPConnection) : Bool :=
  c.lifecycle == LifecycleType.LIFECYCLE_PIPELINED

/-- Modelled from the spec: `TCPConnection::getKeepAlive`, "`keep_alive() -> bool`":
the connection is not to be closed. -/
def TCPConnection.getKeepAlive (c : TCPConnection) : Bool :=
  c.lifecycle != LifecycleType.LIFECYCLE_CLOSE

/-- Modelled from the spec: `TCPConnection::setLifecycle`. -/
def TCPConnection.setLifecycle (c : TCPConnection) (t : LifecycleType) : TCPConnection :=
  { c with lifecycle := t }

/-- Modelled from the spec: `TCPConnection::saveReadPosition`, "save bookmark
(start, end)". -/
def TCPConnection.saveReadPosition (c : TCPConnection) (pos : ReadPosition) : TCPConnection :=
  { c with read_position := some pos }

/-- Modelled from the spec: `TCPConnection::loadReadPosition`; two null
pointers when no bookmark was ever saved. -/
def TCPConnection.loadReadPosition (c : TCPConnection) : ReadPosition :=
  c.read_position.getD { read_ptr := 0, read_end_ptr := 0 }

/-- Modelled from the spec: `TCPConnection::read` with
`transfer_at_least(n)` into a buffer of exactly `n` bytes: takes bytes from
the socket until `n` have arrived or a read fails.  Returns the bytes stored,
whether the error code is set, and what is left on the socket. -/
def readExactly : Nat → List SocketEvent → List Byte × Bool × List SocketEvent
  | _, [] => ([], true, [])
  | _, SocketEvent.error :: rest => ([], true, rest)
  | n, SocketEvent.data bytes :: rest =>
    if n ≤ bytes.length then
      (bytes.take n, false,
        if bytes.length = n then rest else SocketEvent.data (bytes.drop n) :: rest)
    else
      let r := readExactly (n - bytes.length) rest
      (bytes ++ r.1, r.2.1, r.2.2)

/-! ## HTTPParser -/

/-- The operations of `HTTPParser` that `receive` calls.  The parser's source
is not in the tree, so it is a parameter: `σ` is the parser object's state and
every theorem about `receive` holds for every choice of these operations.
`setReadBuffer p mem ptr len` is `setReadBuffer(ptr, len)` where `mem` is the
content of the connection's read buffer that `ptr` points into.
`consumeContent` sets the content length and the content buffer of the
message ("set content length & consume any payload content left in the read
buffers") and returns the number of bytes it consumed. -/
structure HTTPParser (σ : Type) where
  create : Bool → σ
  setReadBuffer : σ → List Byte → Nat → Nat → σ
  parseHTTPHeaders : σ → HTTPMessage → tribool × σ × HTTPMessage
  parseChunks : σ → List (List Byte) → tribool × σ × List (List Byte)
  consumeContent : σ → HTTPMessage → Nat × σ × Nat × Option (List Byte)
  consumeContentAsNextChunk : σ → List (List Byte) → σ × List (List Byte)
  eof : σ → Bool
  loadReadPosition : σ → ReadPosition
  getTotalBytesRead : σ → Nat

/-! ## HTTPMessage::receive -/

/-- Everything `receive` leaves behind: its return value, the error code, the
connection, the bytes still to arrive on the socket, the message, and (for
reference in theorems) the local parser object and the local flag
`force_connection_closed` at the point of return.  The local variable
`http_parser` of the source is written `httpParser`. -/
structure ReceiveResult (σ : Type) where
  bytes : Nat
  ec : error_code
  tcp_conn : TCPConnection
  socket : List SocketEvent
  msg : HTTPMessage
  httpParser : σ
  force_connection_closed : Bool

/-- Lines 172-200 of `receive`: finish the message, set the connection's
lifecycle, return the byte count. -/
def receiveFinish {σ : Type} (P : HTTPParser σ) (is_request : Bool)
    (force_connection_closed : Bool) (content_bytes_to_read : Nat)
    (httpParser : σ) (msg : HTTPMessage) (tcp_conn : TCPConnection)
    (ec : error_code) (socket : List SocketEvent) : ReceiveResult σ :=
  let msg1 := if is_request then finishRequest msg else finishResponse msg
  let conn1 :=
    if !force_connection_closed && msg1.checkKeepAlive then
      if P.eof httpParser then
        tcp_conn.setLifecycle LifecycleType.LIFECYCLE_KEEPALIVE
      else
        (tcp_conn.setLifecycle LifecycleType.LIFECYCLE_PIPELINED).saveReadPosition
          (P.loadReadPosition httpParser)
    else
      tcp_conn.setLifecycle LifecycleType.LIFECYCLE_CLOSE
  { bytes := (P.getTotalBytesRead httpParser + content_bytes_to_read) % SIZE_T_MODULUS
    ec := ec
    tcp_conn := conn1
    socket := socket
    msg := msg1
    httpParser := httpParser
    force_connection_closed := force_connection_closed }

/-- An early `return http_parser.getTotalBytesRead()` with the error code set. -/
def receiveAbort {σ : Type} (P : HTTPParser σ) (e : error_code)
    (httpParser : σ) (msg : HTTPMessage) (tcp_conn : TCPConnection)
    (socket : List SocketEvent) (force_connection_closed : Bool) : ReceiveResult σ :=
  { bytes := P.getTotalBytesRead httpParser
    ec := e
    tcp_conn := tcp_conn
    socket := socket
    msg := msg
    httpParser := httpParser
    force_connection_closed := force_connection_closed }

/-- Lines 97-112: the loop over `parseChunks`, then `concatenateChunks`. -/
def receiveChunks {σ : Type} (P : HTTPParser σ) (is_request : Bool) :
    σ → HTTPMessage → TCPConnection → error_code → List SocketEvent → ReceiveResult σ
  | httpParser, msg, tcp_conn, ec, socket =>
    let r := P.parseChunks httpParser msg.chunk_buffers
    let msg1 : HTTPMessage := { msg with chunk_buffers := r.2.2 }
    if r.1 = tribool.false_value then
      receiveAbort P error_code.receive_error r.2.1 msg1 tcp_conn socket false
    else if r.1 = tribool.true_value then
      receiveFinish P is_request false 0 r.2.1 msg1.concatenateChunks tcp_conn ec socket
    else
      match socket with
      | [] => receiveAbort P error_code.socket_error r.2.1 msg1 tcp_conn [] false
      | SocketEvent.error :: rest =>
        receiveAbort P error_code.socket_error r.2.1 msg1 tcp_conn rest false
      | SocketEvent.data bytes :: rest =>
        receiveChunks P is_request (P.setReadBuffer r.2.1 bytes 0 bytes.length) msg1
          { tcp_conn with read_buffer := bytes } error_code.success rest

/-- Lines 142-157: read until the peer closes, collecting every buffer as a
chunk, then `concatenateChunks`.  A failed read and a read of zero bytes both
clear the error code and leave the loop. -/
def receiveUntilClose {σ : Type} (P : HTTPParser σ) (is_request : Bool) :
    σ → HTTPMessage → TCPConnection → Nat → List SocketEvent → ReceiveResult σ
  | httpParser, msg, tcp_conn, content_bytes_to_read, socket =>
    let r := P.consumeContentAsNextChunk httpParser msg.chunk_buffers
    let msg1 : HTTPMessage := { msg with chunk_buffers := r.2 }
    match socket with
    | [] =>
      receiveFinish P is_request true content_bytes_to_read r.1 msg1.concatenateChunks
        tcp_conn error_code.success []
    | SocketEvent.error :: rest =>
      receiveFinish P is_request true content_bytes_to_read r.1 msg1.concatenateChunks
        tcp_conn error_code.success rest
    | SocketEvent.data bytes :: rest =>
      if bytes.length = 0 then
        receiveFinish P is_request true content_bytes_to_read r.1 msg1.concatenateChunks
          tcp_conn error_code.success rest
      else
        receiveUntilClose P is_request (P.setReadBuffer r.1 bytes 0 bytes.length) msg1
          { tcp_conn with read_buffer := bytes }
          ((content_bytes_to_read + bytes.length) % SIZE_T_MODULUS) rest

/-- Lines 117-128: the message has a `Content-Length` header. -/
def receiveContentLength {σ : Type} (P : HTTPParser σ) (is_request : Bool)
    (httpParser : σ) (msg : HTTPMessage) (tcp_conn : TCPConnection)
    (ec : error_code) (socket : List SocketEvent) : ReceiveResult σ :=
  let r := P.consumeContent httpParser msg
  let last_bytes_read := r.1
  let msg1 : HTTPMessage := { msg with content_length := r.2.2.1, content_buf := r.2.2.2 }
  let content_bytes_to_read := subSizeT msg1.getContentLength last_bytes_read
  if 0 < content_bytes_to_read then
    let rd := readExactly content_bytes_to_read socket
    let msg2 : HTTPMessage :=
      { msg1 with content_buf := msg1.content_buf.map (fun buf => memcpy buf last_bytes_read rd.1) }
    if rd.2.1 then
      receiveAbort P error_code.socket_error r.2.1 msg2 tcp_conn rd.2.2 false
    else
      receiveFinish P is_request false content_bytes_to_read r.2.1 msg2 tcp_conn
        error_code.success rd.2.2
  else
    receiveFinish P is_request false content_bytes_to_read r.2.1 msg1 tcp_conn ec socket

/-- Lines 90-170: after the headers have been accepted, choose how the
content is read. -/
def receiveContent {σ : Type} (P : HTTPParser σ) (is_request : Bool)
    (httpParser : σ) (msg0 : HTTPMessage) (tcp_conn : TCPConnection)
    (ec : error_code) (socket : List SocketEvent) : ReceiveResult σ :=
  let msg := msg0.updateTransferCodingUsingHeader
  if msg.isChunked then
    receiveChunks P is_request httpParser msg tcp_conn ec socket
  else if !msg.isContentLengthImplied is_request then
    if msg.hasHeader HEADER_CONTENT_LENGTH then
      receiveContentLength P is_request httpParser msg tcp_conn ec socket
    else if !is_request then
      receiveUntilClose P is_request httpParser { msg with chunk_buffers := [] } tcp_conn 0 socket
    else
      receiveFinish P is_request false 0 httpParser
        (msg.setContentLength 0).createContentBuffer tcp_conn ec socket
  else
    receiveFinish P is_request false 0 httpParser
      (msg.setContentLength 0).createContentBuffer tcp_conn ec socket

/-- Lines 71-88: the loop over `parseHTTPHeaders`; on acceptance the content
is read by `receiveContent`. -/
def receiveHeaders {σ : Type} (P : HTTPParser σ) (is_request : Bool) :
    σ → HTTPMessage → TCPConnection → error_code → List SocketEvent → ReceiveResult σ
  | httpParser, msg, tcp_conn, ec, socket =>
    let r := P.parseHTTPHeaders httpParser msg
    if r.1 = tribool.indeterminate_value then
      match socket with
      | [] => receiveAbort P error_code.socket_error r.2.1 r.2.2 tcp_conn [] false
      | SocketEvent.error :: rest =>
        receiveAbort P error_code.socket_error r.2.1 r.2.2 tcp_conn rest false
      | SocketEvent.data bytes :: rest =>
        receiveHeaders P is_request (P.setReadBuffer r.2.1 bytes 0 bytes.length) r.2.2
          { tcp_conn with read_buffer := bytes } error_code.success rest
    else if r.1 = tribool.false_value then
      receiveAbort P error_code.receive_error r.2.1 r.2.2 tcp_conn socket false
    else
      receiveContent P is_request r.2.1 r.2.2 tcp_conn ec socket

/-- The function `HTTPMessage::receive`.  `is_request` is the outcome of
`dynamic_cast<HTTPRequest*>(this) != NULL`; `ec` is the caller's error code
object and `socket` the bytes still to arrive on the connection. -/
def receive {σ : Type} (P : HTTPParser σ) (is_request : Bool) (msg : HTTPMessage)
    (tcp_conn : TCPConnection) (ec : error_code) (socket : List SocketEvent) :
    ReceiveResult σ :=
  let httpParser := P.create is_request
  let msg0 := msg.clear is_request
  if tcp_conn.getPipelined then
    let pos := tcp_conn.loadReadPosition
    let last_bytes_read := ptrDiff pos.read_end_ptr pos.read_ptr
    receiveHeaders P is_request
      (P.setReadBuffer httpParser tcp_conn.read_buffer pos.read_ptr last_bytes_read)
      msg0 tcp_conn ec socket
  else
    match socket with
    | [] =>
      { bytes := 0, ec := error_code.socket_error, tcp_conn := tcp_conn, socket := [],
        msg := msg0, httpParser := httpParser, force_connection_closed := false }
    | SocketEvent.error :: rest =>
      { bytes := 0, ec := error_code.socket_error, tcp_conn := tcp_conn, socket := rest,
        msg := msg0, httpParser := httpParser, force_connection_closed := false }
    | SocketEvent.data bytes :: rest =>
      receiveHeaders P is_request (P.setReadBuffer httpParser bytes 0 bytes.length)
        msg0 { tcp_conn with read_buffer := bytes } error_code.success rest

/-- The condition under which `receive` reads the content until the peer
closes (the tests of lines 94, 114, 117 and 135 taken together): the message
is a response, is not chunked, has no implied content length and has no
`Content-Length` header.  This is when `force_connection_closed` is set. -/
def readsUntilClose (is_request : Bool) (m : HTTPMessage) : Bool :=
  !is_request && !m.isChunked && !m.isContentLengthImplied is_request
    && !m.hasHeader HEADER_CONTENT_LENGTH

/-- The two ways `receive` returns.  Either the error code is set and the
connection's lifecycle and bookmark are as they were (`lc`, `rp`), or the call
ran to the end through `receiveFinish` on a message `m` whose body was read as
its headers and status require. -/
def ReceiveOutcome {σ : Type} (P : HTTPParser σ) (is_request : Bool)
    (lc : LifecycleType) (rp : Option ReadPosition) (r : ReceiveResult σ) : Prop :=
  (r.ec ≠ error_code.success ∧ r.tcp_conn.lifecycle = lc ∧ r.tcp_conn.read_position = rp)
  ∨ ∃ (n : Nat) (p : σ) (m : HTTPMessage) (c : TCPConnection) (e : error_code)
      (s : List SocketEvent),
      r = receiveFinish P is_request (readsUntilClose is_request m) n p m c e s
      ∧ c.lifecycle = lc ∧ c.read_position = rp
      ∧ m.is_chunked = m.hasChunkedTransferEncoding
      ∧ (m.is_chunked = false →
          (m.isContentLengthImplied is_request = true
            ∨ (is_request = true ∧ m.hasHeader HEADER_CONTENT_LENGTH = false)) →
          m.content_length = 0 ∧ m.content_buf = some [0])

/-! ## A scripted parser, for running `receive` on concrete inputs -/

/-- State of the scripted parser: the read buffer it was given and how far it
has read. -/
structure ScriptState where
  mem : List Byte
  read_ptr : Nat
  read_end_ptr : Nat
  total_bytes_read : Nat
  deriving DecidableEq, Repr

/-- What the scripted parser answers: how many bytes the header section
takes and what it stores in the message, how many bytes the chunked body
takes and which chunks it decodes, and the content length that
`consumeContent` finds in the headers. -/
structure Script where
  header_bytes : Nat
  parsed : HTTPMessage → HTTPMessage
  chunk_bytes : Nat
  chunks : List (List Byte)
  content_length : Nat

/-- Moves the scripted parser forward by `n` bytes. -/
def ScriptState.advance (p : ScriptState) (n : Nat) : ScriptState :=
  { p with read_ptr := p.read_ptr + n, total_bytes_read := p.total_bytes_read + n }

/-- The bytes between the read pointer and the end pointer. -/
def ScriptState.available (p : ScriptState) : List Byte :=
  (p.mem.drop p.read_ptr).take (p.read_end_ptr - p.read_ptr)

/-- An `HTTPParser` that accepts the header section and the chunked body at
once, with the answers given by the script; content is taken from the bytes
actually present in the read buffer. -/
def scriptedParser (sc : Script) : HTTPParser ScriptState where
  create := fun _ => { mem := [], read_ptr := 0, read_end_ptr := 0, total_bytes_read := 0 }
  setReadBuffer := fun p mem ptr len => { p with mem := mem, read_ptr := ptr, read_end_ptr := ptr + len }
  parseHTTPHeaders := fun p m => (tribool.true_value, p.advance sc.header_bytes, sc.parsed m)
  parseChunks := fun p cs => (tribool.true_value, p.advance sc.chunk_bytes, cs ++ sc.chunks)
  consumeContent := fun p _ =>
    let got := p.available.take sc.content_length
    (got.length, p.advance got.length, sc.content_length,
      some (got ++ List.replicate (sc.content_length - got.length) 0 ++ [0]))
  consumeContentAsNextChunk := fun p cs =>
    (p.advance p.available.length, if p.available.length = 0 then cs else cs ++ [p.available])
  eof := fun p => decide (p.read_end_ptr ≤ p.read_ptr)
  loadReadPosition := fun p => { read_ptr := p.read_ptr, read_end_ptr := p.read_end_ptr }
  getTotalBytesRead := fun p => p.total_bytes_read

/-- An empty message object, as constructed before `receive` is called. -/
def emptyMessage : HTTPMessage :=
  { version_major := 1, version_minor := 1, headers := [], status_code := 200,
    request_method := "", is_valid := false, is_chunked := false, chunks_supported := false,
    content_length := 0, content_buf := none, chunk_buffers := [] }

/-- A connection on which nothing has been received yet. -/
def freshConnection : TCPConnection :=
  { lifecycle := LifecycleType.LIFECYCLE_CLOSE, read_buffer := [], read_position := none }

/-- The bytes of an ASCII string. -/
def bytesOf (s : String) : List Byte := s.data.map (fun ch => UInt8.ofNat ch.toNat)

/-- The scripted parser's answers for the response
`HTTP/1.1 200 OK CRLF CRLF` followed by a body: 19 header bytes, version 1.1,
status 200, no headers. -/
def script200 : Script :=
  { header_bytes := 19
    parsed := fun m => { m with version_major := 1, version_minor := 1, status_code := 200 }
    chunk_bytes := 0
    chunks := []
    content_length := 0 }

/-- A response without `Content-Length` and without chunking, received in one
read, after which the peer closes: `HTTP/1.1 200 OK CRLF CRLF hello`. -/
def receive200UntilClose : ReceiveResult ScriptState :=
  receive (scriptedParser script200) false emptyMessage freshConnection error_code.success
    [SocketEvent.data (bytesOf "HTTP/1.1 200 OK\r\n\r\nhello")]

/-- The scripted parser's answers for the response
`HTTP/1.1 204 No Content CRLF Transfer-Encoding: chunked CRLF CRLF` followed
by the chunked body `5 CRLF Hello CRLF 0 CRLF CRLF`: 55 header bytes, 15 body
bytes, one chunk `Hello`. -/
def script204Chunked : Script :=
  { header_bytes := 55
    parsed := fun m =>
      { m with version_major := 1, version_minor := 1, status_code := 204,
               headers := [("Transfer-Encoding", "chunked")] }
    chunk_bytes := 15
    chunks := [bytesOf "Hello"]
    content_length := 0 }

/-- A 204 response that carries a chunked body, received in one read. -/
def receive204Chunked : ReceiveResult ScriptState :=
  receive (scriptedParser script204Chunked) false emptyMessage freshConnection
    error_code.success
    [SocketEvent.data (bytesOf
      "HTTP/1.1 204 No Content\r\nTransfer-Encoding: chunked\r\n\r\n5\r\nHello\r\n0\r\n\r\n")]

/-- The scripted parser's answers for the response
`HTTP/1.1 304 Not Modified CRLF Content-Length: 10 CRLF CRLF`: 49 header
bytes, status 304, a `Content-Length` header. -/
def script304 : Script :=
  { header_bytes := 49
    parsed := fun m =>
      { m with version_major := 1, version_minor := 1, status_code := 304,
               headers := [("Content-Length", "10")] }
    chunk_bytes := 0
    chunks := []
    content_length := 10 }

/-- A 304 response with a `Content-Length` header, received in one read. -/
def receive304 : ReceiveResult ScriptState :=
  receive (scriptedParser script304) false emptyMessage freshConnection error_code.success
    [SocketEvent.data (bytesOf "HTTP/1.1 304 Not Modified\r\nContent-Length: 10\r\n\r\n")]

/-- The scripted parser's answers for the request `GET / HTTP/1.1 CRLF CRLF`:
18 header bytes, version 1.1, no headers. -/
def scriptGet : Script :=
  { header_bytes := 18
    parsed := fun m => { m with version_major := 1, version_minor := 1 }
    chunk_bytes := 0
    chunks := []
    content_length := 0 }

/-- Two requests `GET / HTTP/1.1 CRLF CRLF` sent as one write; the first
`receive` on the connection. -/
def receivePipelinedFirst : ReceiveResult ScriptState :=
  receive (scriptedParser scriptGet) true emptyMessage freshConnection error_code.success
    [SocketEvent.data (bytesOf "GET / HTTP/1.1\r\n\r\nGET / HTTP/1.1\r\n\r\n")]

/-- The second `receive` on the same connection. -/
def receivePipelinedSecond : ReceiveResult ScriptState :=
  receive (scriptedParser scriptGet) true emptyMessage receivePipelinedFirst.tcp_conn
    error_code.success receivePipelinedFirst.socket

/-! ## A parser that reads the bytes it is given -/

/-- The offset of the first `CR LF CR LF` in a list of bytes, if there is
one. -/
def findHeaderEnd : List Byte → Option Nat
  | [] => none
  | b :: rest =>
    if (b :: rest).take 4 = [13, 10, 13, 10] then some 0
    else (findHeaderEnd rest).map (fun k => k + 1)

/-- The lines of a header section: the bytes are cut at every `CR LF`; `cur`
holds the bytes of the line under way. -/
def splitLines : List Byte → List Byte → List (List Byte)
  | cur, [] => [cur]
  | cur, [b] => [cur ++ [b]]
  | cur, b :: c :: rest =>
    if b = 13 ∧ c = 10 then cur :: splitLines [] rest
    else splitLines (cur ++ [b]) (c :: rest)

/-- The text held in a list of bytes. -/
def textOf (bytes : List Byte) : String :=
  String.mk (bytes.map (fun b => Char.ofNat b.toNat))

/-- One header line `Name: value` as a pair of name and value; `none` for a
line without a colon. -/
def parseHeaderLine (line : List Byte) : Option (String × String) :=
  let name := line.takeWhile (fun b => b != 58)
  let after := line.drop name.length
  match after with
  | [] => none
  | _ :: value => some (textOf name, textOf (value.dropWhile (fun b => b == 32)))

/-- An `HTTPParser` for requests without a body whose header section arrives
whole in one buffer.  It reads only the bytes between its read pointer and
its end pointer: without a `CR LF CR LF` among them the answer is
indeterminate; otherwise the first line must end in `HTTP/x.y` (the request
is rejected if not), the version and the header lines are stored in the
message, and the read pointer moves to the byte after the `CR LF CR LF`. -/
def requestParser : HTTPParser ScriptState where
  create := fun _ => { mem := [], read_ptr := 0, read_end_ptr := 0, total_bytes_read := 0 }
  setReadBuffer := fun p mem ptr len => { p with mem := mem, read_ptr := ptr, read_end_ptr := ptr + len }
  parseHTTPHeaders := fun p m =>
    match findHeaderEnd p.available with
    | none => (tribool.indeterminate_value, p.advance p.available.length, m)
    | some k =>
      let lines := splitLines [] (p.available.take k)
      let first := lines.headD []
      let version := first.drop (first.length - 8)
      if version.take 5 = bytesOf "HTTP/" ∧ version.length = 8 then
        (tribool.true_value, p.advance (k + 4),
          { m with version_major := (version.getD 5 48).toNat - 48
                   version_minor := (version.getD 7 48).toNat - 48
                   headers := m.headers ++ lines.tail.filterMap parseHeaderLine })
      else
        (tribool.false_value, p.advance (k + 4), m)
  parseChunks := fun p cs => (tribool.false_value, p, cs)
  consumeContent := fun p _ => (0, p, 0, some [0])
  consumeContentAsNextChunk := fun p cs =>
    (p.advance p.available.length, if p.available.length = 0 then cs else cs ++ [p.available])
  eof := fun p => decide (p.read_end_ptr ≤ p.read_ptr)
  loadReadPosition := fun p => { read_ptr := p.read_ptr, read_end_ptr := p.read_end_ptr }
  getTotalBytesRead := fun p => p.total_bytes_read

/-- The requests `GET /a HTTP/1.1` with the header `Host: a` and
`GET /b HTTP/1.1` with the header `Host: b`, 28 bytes each, sent as one
write; the first `receive` on the connection. -/
def receiveTwoRequestsFirst : ReceiveResult ScriptState :=
  receive requestParser true emptyMessage freshConnection error_code.success
    [SocketEvent.data (bytesOf
      "GET /a HTTP/1.1\r\nHost: a\r\n\r\nGET /b HTTP/1.1\r\nHost: b\r\n\r\n")]

/-- The second `receive` on the same connection, with the socket as the first
call left it. -/
def receiveTwoRequestsSecond : ReceiveResult ScriptState :=
  receive requestParser true emptyMessage receiveTwoRequestsFirst.tcp_conn
    error_code.success receiveTwoRequestsFirst.socket

/-! ## HTTPMessage::send -/

/-- The function `HTTPMessage::send`, as far as the buffers it hands to
`tcp_conn.write` are concerned (the value returned is the number of bytes the
connection wrote).  `prepareBuffersForSend` is declared in the class header,
which is not in the tree, and is a parameter: it yields the buffers of the
first line, the headers and the blank line for the given keep-alive flag.  The
test `getContent()[0] != '\0'` reads the first byte of the content buffer. -/
def HTTPMessage.send (prepareBuffersForSend : HTTPMessage → Bool → List (List Byte))
    (m : HTTPMessage) (tcp_conn : TCPConnection) : List (List Byte) :=
  let write_buffers := prepareBuffersForSend m tcp_conn.getKeepAlive
  match m.content_buf with
  | some buf =>
    if 0 < m.getContentLength ∧ buf.headD 0 ≠ 0 then
      write_buffers ++ [buf.take m.getContentLength]
    else
      write_buffers
  | none => write_buffers

/-! ## HTTPResponse -/

/-- Modelled from the spec: the constant `HTTPTypes::RESPONSE_CODE_OK`. -/
def RESPONSE_CODE_OK : Nat := 200

/-- Modelled from the spec: the constant `HTTPTypes::RESPONSE_MESSAGE_OK`. -/
def RESPONSE_MESSAGE_OK : String := "OK"

/-- Modelled from the spec: the constant `HTTPTypes::STRING_HTTP_VERSION`,
which is not in the tree.  The comment on `m_first_line` in `HTTPResponse.hpp`
gives the first line as `HTTP/1.1 200 OK`. -/
def STRING_HTTP_VERSION : String := "HTTP/1.1"

/-- Modelled from the spec: the default constructor of `HTTPMessage`: no
headers, no content, version 1.1, and the flag "chunks supported" not set. -/
def HTTPMessage.create : HTTPMessage := emptyMessage

/-- Modelled from the spec: the accessor `HTTPMessage::getVersionMajor`. -/
def HTTPMessage.getVersionMajor (m : HTTPMessage) : Nat := m.version_major

/-- Modelled from the spec: the accessor `HTTPMessage::getVersionMinor`. -/
def HTTPMessage.getVersionMinor (m : HTTPMessage) : Nat := m.version_minor

/-- Modelled from the spec: the accessor `HTTPMessage::setChunksSupported`. -/
def HTTPMessage.setChunksSupported (m : HTTPMessage) (b : Bool) : HTTPMessage :=
  { m with chunks_supported := b }

/-- The class `HTTPResponse` of `HTTPResponse.hpp`: an `HTTPMessage` (whose
field `status_code` is the member `m_status_code`) with the members
`m_first_line` and `m_status_message`. -/
structure HTTPResponse where
  toHTTPMessage : HTTPMessage
  m_first_line : String
  m_status_message : String
  deriving DecidableEq, Repr

/-- The constructor `HTTPResponse(const HTTPMessage& http_request)`. -/
def HTTPResponse.forRequest (http_request : HTTPMessage) : HTTPResponse :=
  let r : HTTPResponse :=
    { toHTTPMessage := { HTTPMessage.create with status_code := RESPONSE_CODE_OK }
      m_first_line := ""
      m_status_message := RESPONSE_MESSAGE_OK }
  if http_request.getVersionMajor = 1 ∧ http_request.getVersionMinor ≥ 1 then
    { r with toHTTPMessage := r.toHTTPMessage.setChunksSupported true }
  else
    r

/-- The function `HTTPResponse::setStatusCode`. -/
def HTTPResponse.setStatusCode (r : HTTPResponse) (n : Nat) : HTTPResponse :=
  { r with toHTTPMessage := { r.toHTTPMessage with status_code := n } }

/-- The function `HTTPResponse::setStatusMessage`. -/
def HTTPResponse.setStatusMessage (r : HTTPResponse) (msg : String) : HTTPResponse :=
  { r with m_status_message := msg }

/-- The function `HTTPResponse::getStatusCode`. -/
def HTTPResponse.getStatusCode (r : HTTPResponse) : Nat := r.toHTTPMessage.status_code

/-- The function `HTTPResponse::getStatusMessage`. -/
def HTTPResponse.getStatusMessage (r : HTTPResponse) : String := r.m_status_message

/-- The expression `boost::lexical_cast<std::string>(n)` for an unsigned
integer: its decimal digits. -/
def lexical_cast (n : Nat) : String := String.mk (Nat.toDigits 10 n)

/-- The function `HTTPResponse::getFirstLine`: the mutable member
`m_first_line` is assigned and extended step by step, and returned. -/
def HTTPResponse.getFirstLine (r : HTTPResponse) : String × HTTPResponse :=
  let r1 := { r with m_first_line := STRING_HTTP_VERSION }
  let r2 := { r1 with m_first_line := r1.m_first_line.push ' ' }
  let r3 := { r2 with m_first_line := r2.m_first_line ++ lexical_cast r2.getStatusCode }
  let r4 := { r3 with m_first_line := r3.m_first_line.push ' ' }
  let r5 := { r4 with m_first_line := r4.m_first_line ++ r4.m_status_message }
  (r5.m_first_line, r5)

/-- The request line's version rendered as the claim about the first line
writes it: `HTTP/<maj>.<min>`. -/
def versionString (http_request : HTTPMessage) : String :=
  "HTTP/" ++ lexical_cast http_request.version_major ++ "."
    ++ lexical_cast http_request.version_minor

/-- A request message of version 1.0. -/
def request10 : HTTPMessage := { emptyMessage with version_major := 1, version_minor := 0 }

/-- A request message of version 2.0. -/
def request20 : HTTPMessage := { emptyMessage with version_major := 2, version_minor := 0 }

/-- The header buffers of a response with three bytes of content, as
`prepareBuffersForSend` could yield them. -/
def exampleHeaderBuffers : HTTPMessage → Bool → List (List Byte) :=
  fun _ _ => [bytesOf "HTTP/1.1 200 OK", bytesOf "\r\n", bytesOf "Content-Length: 3",
    bytesOf "\r\n", bytesOf "\r\n"]

/-- A message with the three content bytes 0, 1, 2 (content length 3). -/
def binaryMessage : HTTPMessage :=
  { emptyMessage with content_length := 3, content_buf := some [0, 1, 2, 0] }

/-- A message with the three content bytes `abc` (content length 3). -/
def textMessage : HTTPMessage :=
  { emptyMessage with content_length := 3, content_buf := some [97, 98, 99, 0] }

/-- The order of the claim about chunk support: the version (major, minor) is
at least (1, 1) in lexicographic order. -/
def versionAtLeast11 (m : HTTPMessage) : Prop :=
  1 < m.version_major ∨ (m.version_major = 1 ∧ 1 ≤ m.version_minor)

/-! ## Rejected messages -/

/-- What `receive` leaves behind when it returns with the error code assigned
from `RECEIVE_ERROR`: the connection's lifecycle and bookmark are `lc` and
`rp`, the value returned is the parser's byte count, and
`force_connection_closed` is not set. -/
def RejectOutcome {σ : Type} (P : HTTPParser σ) (lc : LifecycleType)
    (rp : Option ReadPosition) (r : ReceiveResult σ) : Prop :=
  r.ec = error_code.receive_error →
    r.tcp_conn.lifecycle = lc ∧ r.tcp_conn.read_position = rp
    ∧ r.bytes = P.getTotalBytesRead r.httpParser ∧ r.force_connection_closed = false

/-- A scripted parser that rejects: the header section when `reject_headers`
is set, the chunked body otherwise.  Everything else is as in
`scriptedParser`. -/
def rejectingParser (sc : Script) (reject_headers : Bool) : HTTPParser ScriptState :=
  { scriptedParser sc with
    parseHTTPHeaders := fun p m =>
      if reject_headers then (tribool.false_value, p.advance sc.header_bytes, m)
      else (tribool.true_value, p.advance sc.header_bytes, sc.parsed m)
    parseChunks := fun p cs =>
      if reject_headers then (tribool.true_value, p.advance sc.chunk_bytes, cs ++ sc.chunks)
      else (tribool.false_value, p.advance sc.chunk_bytes, cs) }

/-- A connection that a previous message left in the lifecycle KeepAlive. -/
def keepAliveConnection : TCPConnection :=
  { lifecycle := LifecycleType.LIFECYCLE_KEEPALIVE, read_buffer := [], read_position := none }

/-- The scripted parser's answers for a request line that is not HTTP: the
parser gives up after 7 bytes. -/
def scriptGarbage : Script :=
  { header_bytes := 7
    parsed := fun m => m
    chunk_bytes := 0
    chunks := []
    content_length := 0 }

/-- A request whose first line is rejected by the parser, received on a
connection in the lifecycle KeepAlive. -/
def receiveRejectedHeaders : ReceiveResult ScriptState :=
  receive (rejectingParser scriptGarbage true) true emptyMessage keepAliveConnection
    error_code.success [SocketEvent.data (bytesOf "GARBAGE\r\n\r\n")]

/-- The scripted parser's answers for the response
`HTTP/1.1 200 OK CRLF Transfer-Encoding: chunked CRLF CRLF` followed by a
chunk size that is not hexadecimal: 47 header bytes, then 1 byte. -/
def scriptBadChunk : Script :=
  { header_bytes := 47
    parsed := fun m =>
      { m with version_major := 1, version_minor := 1, status_code := 200,
               headers := [("Transfer-Encoding", "chunked")] }
    chunk_bytes := 1
    chunks := []
    content_length := 0 }

/-- A chunked response whose first chunk size is rejected by the parser,
received on a connection in the lifecycle KeepAlive. -/
def receiveRejectedChunks : ReceiveResult ScriptState :=
  receive (rejectingParser scriptBadChunk false) false emptyMessage keepAliveConnection
    error_code.success
    [SocketEvent.data (bytesOf "HTTP/1.1 200 OK\r\nTransfer-Encoding: chunked\r\n\r\nxyz\r\n")]


/-! ## Responses read until the peer closes, and responses to HEAD -/

/-- The response `HTTP/1.1 200 OK CRLF CRLF` to a HEAD request, received in
one read on a new connection into a response object that was told it answers
a HEAD request: no `Content-Length`, no chunking, version 1.1 and no
`Connection` header. -/
def receiveHeadResponse : ReceiveResult ScriptState :=
  receive (scriptedParser script200) false
    { emptyMessage with request_method := REQUEST_METHOD_HEAD } freshConnection
    error_code.success [SocketEvent.data (bytesOf "HTTP/1.1 200 OK\r\n\r\n")]

/-- The scripted parser's answers for the response
`HTTP/1.0 200 OK CRLF CRLF`: 19 header bytes, version 1.0, no headers. -/
def script200Version10 : Script :=
  { header_bytes := 19
    parsed := fun m => { m with version_major := 1, version_minor := 0, status_code := 200 }
    chunk_bytes := 0
    chunks := []
    content_length := 0 }

/-- The response `HTTP/1.0 200 OK CRLF CRLF` to a HEAD request. -/
def receiveHeadResponse10 : ReceiveResult ScriptState :=
  receive (scriptedParser script200Version10) false
    { emptyMessage with request_method := REQUEST_METHOD_HEAD } freshConnection
    error_code.success [SocketEvent.data (bytesOf "HTTP/1.0 200 OK\r\n\r\n")]

/-- The scripted parser's answers for the response
`HTTP/1.1 304 Not Modified CRLF CRLF`: 29 header bytes, version 1.1, status
304, no headers. -/
def script304Bare : Script :=
  { header_bytes := 29
    parsed := fun m => { m with version_major := 1, version_minor := 1, status_code := 304 }
    chunk_bytes := 0
    chunks := []
    content_length := 0 }

/-- The response `HTTP/1.1 304 Not Modified CRLF CRLF` to a HEAD request,
received in one read on a new connection into a response object that was told
it answers a HEAD request: no `Content-Length`, no chunking, version 1.1 and
no `Connection` header. -/
def receiveHead304 : ReceiveResult ScriptState :=
  receive (scriptedParser script304Bare) false
    { emptyMessage with request_method := REQUEST_METHOD_HEAD } freshConnection
    error_code.success [SocketEvent.data (bytesOf "HTTP/1.1 304 Not Modified\r\n\r\n")]

/-- The scripted parser's answers for the response
`HTTP/1.1 200 OK CRLF Content-Length: 5 CRLF CRLF`: 38 header bytes, version
1.1, status 200, a `Content-Length` header of 5. -/
def script200Length5 : Script :=
  { header_bytes := 38
    parsed := fun m =>
      { m with version_major := 1, version_minor := 1, status_code := 200,
               headers := [("Content-Length", "5")] }
    chunk_bytes := 0
    chunks := []
    content_length := 5 }

/-- The response `HTTP/1.1 200 OK CRLF Content-Length: 5 CRLF CRLF` to a HEAD
request (it has no body), received into a response object that was told it
answers a HEAD request; the same read delivers the start of the server's next
response, `HTTP/1.1 404 Not Found`. -/
def receiveHeadWithLength : ReceiveResult ScriptState :=
  receive (scriptedParser script200Length5) false
    { emptyMessage with request_method := REQUEST_METHOD_HEAD } freshConnection
    error_code.success
    [SocketEvent.data (bytesOf
      "HTTP/1.1 200 OK\r\nContent-Length: 5\r\n\r\nHTTP/1.1 404 Not Found\r\n\r\n")]

/-- Modelled from the spec: the class `TCPServer`, whose source is not in the
tree; "The server keeps a mutex-protected set of live connection handles".
A handle is a number; the set holds each live connection with its
lifecycle.  `m_next_conn` is the handle that the next accepted connection
gets. -/
structure TCPServer where
  m_is_listening : Bool
  m_conn_pool : List (Nat × LifecycleType)
  m_next_conn : Nat
  deriving DecidableEq, Repr

/-- Modelled from the spec: a newly constructed server. -/
def TCPServer.create : TCPServer :=
  { m_is_listening := false, m_conn_pool := [], m_next_conn := 0 }

/-- Modelled from the spec: `TCPServer::start`; "On `start()`: registers with
the Scheduler as an active user, begins accept". -/
def TCPServer.start (s : TCPServer) : TCPServer := { s with m_is_listening := true }

/-- Modelled from the spec: `TCPServer::isListening`. -/
def TCPServer.isListening (s : TCPServer) : Bool := s.m_is_listening

/-- Modelled from the spec: `TCPServer::getConnections`,
"`connection_count()`": the size of the set of live connections. -/
def TCPServer.getConnections (s : TCPServer) : Nat := s.m_conn_pool.length

/-- Modelled from the spec: a connection is accepted; "Every accepted socket
becomes a TcpConnection".  A server that is not listening accepts nothing.
A new connection has the lifecycle Close until its handler sets another. -/
def TCPServer.handleAccept (s : TCPServer) : TCPServer :=
  if s.m_is_listening then
    { s with m_conn_pool := s.m_conn_pool ++ [(s.m_next_conn, LifecycleType.LIFECYCLE_CLOSE)]
             m_next_conn := s.m_next_conn + 1 }
  else s

/-- The lifecycle of a live connection, if the handle is in the set. -/
def findConnection (conn : Nat) : List (Nat × LifecycleType) → Option LifecycleType
  | [] => none
  | c :: rest => if c.1 = conn then some c.2 else findConnection conn rest

/-- Modelled from the spec: `TCPConnection::setLifecycle` on a live connection
of the server. -/
def TCPServer.setLifecycle (s : TCPServer) (conn : Nat) (t : LifecycleType) : TCPServer :=
  { s with m_conn_pool := s.m_conn_pool.map (fun c => if c.1 = conn then (c.1, t) else c) }

/-- Modelled from the spec: what the server does when the handler calls
`finish()` on a connection; "`Close`: shut down socket write side, close,
remove from server set.  `KeepAlive`: re-arm the server's per-connection
handler on the idle socket.  `Pipelined`: immediately invoke the
per-connection handler": only Close takes the connection out of the set. -/
def TCPServer.finishConnection (s : TCPServer) (conn : Nat) : TCPServer :=
  match findConnection conn s.m_conn_pool with
  | some LifecycleType.LIFECYCLE_CLOSE =>
    { s with m_conn_pool := s.m_conn_pool.filter (fun c => c.1 ≠ conn) }
  | _ => s

/-- What happens to a server, one at a time. -/
inductive ServerEvent where
  | accepted
  | lifecycleSet (conn : Nat) (t : LifecycleType)
  | finished (conn : Nat)
  deriving DecidableEq, Repr

/-- One event on a server. -/
def TCPServer.step (s : TCPServer) : ServerEvent → TCPServer
  | ServerEvent.accepted => s.handleAccept
  | ServerEvent.lifecycleSet conn t => s.setLifecycle conn t
  | ServerEvent.finished conn => s.finishConnection conn

/-- The values of `getConnections()` seen after each event of a sequence. -/
def TCPServer.observe : TCPServer → List ServerEvent → List Nat
  | _, [] => []
  | s, e :: rest => (s.step e).getConnections :: TCPServer.observe (s.step e) rest

/-- The server after a sequence of events. -/
def TCPServer.run (s : TCPServer) (events : List ServerEvent) : TCPServer :=
  events.foldl TCPServer.step s

/-- The handles of the live connections are distinct and older than the next
handle. -/
def TCPServer.WellFormed (s : TCPServer) : Prop :=
  (s.m_conn_pool.map Prod.fst).Nodup ∧ ∀ c ∈ s.m_conn_pool.map Prod.fst, c < s.m_next_conn

/-- The test `checkNumberOfActiveServerConnections`: four streams are opened
(the handler of `HelloServer` sets each lifecycle to Close) and then closed
in the order in which they were opened. -/
def fourStreams : List ServerEvent :=
  [ServerEvent.accepted, ServerEvent.accepted, ServerEvent.accepted, ServerEvent.accepted,
   ServerEvent.finished 0, ServerEvent.finished 1, ServerEvent.finished 2,
   ServerEvent.finished 3]

end net

namespace http

/-! ## cookie_auth -/

/-- The constant `cookie_auth::CACHE_EXPIRATION`, in seconds. -/
def CACHE_EXPIRATION : Nat := 3600

/-- The constant `cookie_auth::RANDOM_COOKIE_BYTES`. -/
def RANDOM_COOKIE_BYTES : Nat := 20

/-- The constant `cookie_auth::AUTH_COOKIE_NAME`. -/
def AUTH_COOKIE_NAME : String := "pion_session_id"

/-- Modelled from the spec: the constant `HTTPTypes::RESPONSE_CODE_UNAUTHORIZED`. -/
def RESPONSE_CODE_UNAUTHORIZED : Nat := 401

/-- Modelled from the spec: the constant `HTTPTypes::RESPONSE_CODE_FOUND`. -/
def RESPONSE_CODE_FOUND : Nat := 302

/-- Modelled from the spec: the constant `HTTPTypes::RESPONSE_CODE_NO_CONTENT`. -/
def RESPONSE_CODE_NO_CONTENT : Nat := 204

/-- The object behind a non-null `PionUserPtr`, identified by the user's name. -/
abbrev PionUser := String

/-- A `boost::posix_time::ptime` read from `second_clock`, in seconds. -/
abbrev ptime := Nat

/-- The parts of an `HTTPRequest` that `cookie_auth` reads or writes. -/
structure HTTPRequest where
  resource : String
  query_params : List (String × String)
  cookie_params : List (String × String)
  user : Option PionUser
  deriving DecidableEq, Repr

/-- Modelled from the spec: `HTTPRequest::getQuery`, the value of a query
parameter, or the empty string when it is absent. -/
def HTTPRequest.getQuery (r : HTTPRequest) (key : String) : String :=
  match r.query_params.find? (fun kv => kv.1 == key) with
  | some kv => kv.2
  | none => ""

/-- Modelled from the spec: `HTTPMessage::getCookie`, "cookies: mapping name →
value"; the empty string when the cookie is absent. -/
def HTTPRequest.getCookie (r : HTTPRequest) (key : String) : String :=
  match r.cookie_params.find? (fun kv => kv.1 == key) with
  | some kv => kv.2
  | none => ""

/-- Modelled from the spec: the accessor `HTTPRequest::setUser`. -/
def HTTPRequest.setUser (r : HTTPRequest) (u : PionUser) : HTTPRequest :=
  { r with user := some u }

/-- Modelled from the spec: `HTTPServer::stripTrailingSlash`; "A trailing slash
is stripped before comparison." -/
def stripTrailingSlash (s : String) : String :=
  if s.data.getLast? = some '/' then String.mk s.data.dropLast else s

/-- What a response sent by `cookie_auth` does to the session cookie:
nothing, `setCookie(name, value, "")`, or `deleteCookie(name, "")`. -/
inductive CookieAction where
  | keep
  | setCookie (name value : String)
  | deleteCookie (name : String)
  deriving DecidableEq, Repr

/-- The response handed to the response writer and sent. -/
structure SentResponse where
  status_code : Nat
  location : Option String
  cookie : CookieAction
  deriving DecidableEq, Repr

/-- One element of the user cache: the cookie, the time of last access and
the user. -/
abbrev CacheEntry := String × (ptime × PionUser)

/-- Modelled from the spec: `user_cache_type`, "`(cookie_id) →
(last_access_ts, user_ref)`", a map, so no two entries share a cookie.  The
order of the list has no meaning. -/
structure user_cache_type where
  entries : List CacheEntry
  nodup : (entries.map Prod.fst).Nodup

/-- The empty cache. -/
def user_cache_type.empty : user_cache_type := { entries := [], nodup := List.nodup_nil }

/-- The value stored under `key` in a list of entries, if any. -/
def lookup (key : String) : List CacheEntry → Option (ptime × PionUser)
  | [] => none
  | e :: rest => if e.1 = key then some e.2 else lookup key rest

/-- The call `m_user_cache.find(key)`: the value stored under `key`, or `none` for the
`end()` iterator. -/
def user_cache_type.find (c : user_cache_type) (key : String) : Option (ptime × PionUser) :=
  lookup key c.entries

/-- Whether `key` is a key of the map. -/
def user_cache_type.contains (c : user_cache_type) (key : String) : Bool :=
  (c.find key).isSome

/-- The call `m_user_cache.insert(std::make_pair(key, value))`: as for every `std::map`,
nothing is stored when the key is already present. -/
def user_cache_type.insert (c : user_cache_type) (key : String) (value : ptime × PionUser) :
    user_cache_type :=
  if h : key ∈ c.entries.map Prod.fst then c
  else { entries := (key, value) :: c.entries, nodup := List.nodup_cons.mpr ⟨h, c.nodup⟩ }

/-- Removes the entry stored under `key` from a list of entries.  The result
comes with the fact that it is a sublist of the list. -/
def eraseEntry (key : String) : (l : List CacheEntry) → { k : List CacheEntry // k.Sublist l }
  | [] => ⟨[], List.Sublist.slnil⟩
  | e :: rest =>
    if e.1 = key then
      ⟨rest, List.Sublist.cons e (List.Sublist.refl rest)⟩
    else
      ⟨e :: (eraseEntry key rest).1, List.Sublist.cons₂ e (eraseEntry key rest).2⟩

/-- The call `m_user_cache.erase(itr)` for the iterator found under `key`. -/
def user_cache_type.erase (c : user_cache_type) (key : String) : user_cache_type :=
  { entries := (eraseEntry key c.entries).1
    nodup := c.nodup.sublist (List.Sublist.map Prod.fst (eraseEntry key c.entries).2) }

/-- The assignment `itr->second.first = time_now` for the iterator found
under `key`. -/
def touchEntry (key : String) (time_now : ptime) (e : CacheEntry) : CacheEntry :=
  if e.1 = key then (e.1, (time_now, e.2.2)) else e

/-- The cache after `itr->second.first = time_now`. -/
def user_cache_type.touch (c : user_cache_type) (key : String) (time_now : ptime) :
    user_cache_type :=
  { entries := c.entries.map (touchEntry key time_now)
    nodup := by
      have h : (c.entries.map (touchEntry key time_now)).map Prod.fst = c.entries.map Prod.fst := by
        rw [List.map_map]
        apply List.map_congr_left
        intro e _
        simp only [Function.comp, touchEntry]
        split <;> rfl
      rw [h]
      exact c.nodup }

/-- The loop of `expireCache` (lines 267-275): every entry is visited once and
erased when `time_now > last_access + CACHE_EXPIRATION`.  The result comes
with the fact that it is a sublist of the entries visited. -/
def expireLoop (time_now : ptime) : (l : List CacheEntry) → { k : List CacheEntry // k.Sublist l }
  | [] => ⟨[], List.Sublist.slnil⟩
  | e :: rest =>
    let r := expireLoop time_now rest
    if time_now > e.2.1 + CACHE_EXPIRATION then
      ⟨r.1, List.Sublist.cons e r.2⟩
    else
      ⟨e :: r.1, List.Sublist.cons₂ e r.2⟩

/-- The cache after the loop of `expireCache`. -/
def user_cache_type.expire (c : user_cache_type) (time_now : ptime) : user_cache_type :=
  { entries := (expireLoop time_now c.entries).1
    nodup := c.nodup.sublist (List.Sublist.map Prod.fst (expireLoop time_now c.entries).2) }

/-- The members of a `cookie_auth` object.  `m_random_calls` is the state of
the random generator: how many values `m_random_die` has produced so far. -/
structure cookie_auth where
  m_login : String
  m_logout : String
  m_redirect : String
  m_random_calls : Nat
  m_user_cache : user_cache_type
  m_cache_cleanup_time : ptime

/-- What `cookie_auth` uses and this tree does not hold: the user manager
(`getUser` is `none` for a null `PionUserPtr`), `needAuthentication` of the
base class, `algorithm::url_decode`, `algorithm::base64_encode`, and the
sequence of values that `m_random_die` produces (`random_die i` is the value
of the call number `i`, an integer between 0 and 255). -/
structure AuthEnv where
  getUser : String → String → Option PionUser
  needAuthentication : HTTPRequest → Bool
  url_decode : String → String
  base64_encode : List pion.net.Byte → String
  random_die : Nat → Nat

/-- The constructor: the cache is empty, the cleanup time is the current
time, and one hundred random values have been drawn. -/
def cookie_auth.create (login logout redirect : String) (time_now : ptime) : cookie_auth :=
  { m_login := login
    m_logout := logout
    m_redirect := redirect
    m_random_calls := 100
    m_user_cache := user_cache_type.empty
    m_cache_cleanup_time := time_now }

/-- The function `cookie_auth::setOption`; `none` when the name is not an option
(`bad_arg` is thrown). -/
def cookie_auth.setOption (a : cookie_auth) (name value : String) : Option cookie_auth :=
  if name = "login" then some { a with m_login := value }
  else if name = "logout" then some { a with m_logout := value }
  else if name = "redirect" then some { a with m_redirect := value }
  else none

/-- The function `cookie_auth::handleRedirection`: a 302 to `redirection_url`. -/
def handleRedirection (redirection_url new_cookie : String) (delete_cookie : Bool) :
    SentResponse :=
  { status_code := RESPONSE_CODE_FOUND
    location := some redirection_url
    cookie :=
      if delete_cookie then CookieAction.deleteCookie AUTH_COOKIE_NAME
      else if new_cookie ≠ "" then CookieAction.setCookie AUTH_COOKIE_NAME new_cookie
      else CookieAction.keep }

/-- The function `cookie_auth::handleOk`: a 204. -/
def handleOk (new_cookie : String) (delete_cookie : Bool) : SentResponse :=
  { status_code := RESPONSE_CODE_NO_CONTENT
    location := none
    cookie :=
      if delete_cookie then CookieAction.deleteCookie AUTH_COOKIE_NAME
      else if new_cookie ≠ "" then CookieAction.setCookie AUTH_COOKIE_NAME new_cookie
      else CookieAction.keep }

/-- The function `cookie_auth::handleUnauthorized`: a redirect to `m_redirect` when one is
configured, a 401 otherwise. -/
def cookie_auth.handleUnauthorized (a : cookie_auth) : SentResponse :=
  if a.m_redirect ≠ "" then handleRedirection a.m_redirect "" false
  else { status_code := RESPONSE_CODE_UNAUTHORIZED, location := none, cookie := CookieAction.keep }

/-- The loop of lines 135-137: `RANDOM_COOKIE_BYTES` values of `m_random_die`,
each cast to `unsigned char`. -/
def randomCookieBytes (env : AuthEnv) (a : cookie_auth) : List pion.net.Byte :=
  (List.range RANDOM_COOKIE_BYTES).map (fun i => UInt8.ofNat (env.random_die (a.m_random_calls + i)))

/-- The function `cookie_auth::processLogin`.  Returns the result, the object afterwards
and the response sent, if any.  `time_now` is the clock reading of line 141. -/
def cookie_auth.processLogin (env : AuthEnv) (a : cookie_auth) (http_request : HTTPRequest)
    (time_now : ptime) : Bool × cookie_auth × Option SentResponse :=
  let resource := stripTrailingSlash http_request.resource
  if resource ≠ a.m_login ∧ resource ≠ a.m_logout then
    (false, a, none)
  else
    let redirect_url := env.url_decode (http_request.getQuery "url")
    if resource = a.m_login then
      let username := env.url_decode (http_request.getQuery "user")
      let password := env.url_decode (http_request.getQuery "pass")
      match env.getUser username password with
      | none => (true, a, some a.handleUnauthorized)
      | some user =>
        let new_cookie := env.base64_encode (randomCookieBytes env a)
        let a1 : cookie_auth :=
          { a with m_random_calls := a.m_random_calls + RANDOM_COOKIE_BYTES
                   m_user_cache := a.m_user_cache.insert new_cookie (time_now, user) }
        (true, a1,
          some (if redirect_url ≠ "" then handleRedirection redirect_url new_cookie false
                else handleOk new_cookie false))
    else
      let auth_cookie := http_request.getCookie AUTH_COOKIE_NAME
      let a1 : cookie_auth :=
        if auth_cookie ≠ "" then
          match a.m_user_cache.find auth_cookie with
          | some _ => { a with m_user_cache := a.m_user_cache.erase auth_cookie }
          | none => a
        else a
      (true, a1,
        some (if redirect_url ≠ "" then handleRedirection redirect_url "" true
              else handleOk "" true))

/-- The function `cookie_auth::expireCache`. -/
def cookie_auth.expireCache (a : cookie_auth) (time_now : ptime) : cookie_auth :=
  if time_now > a.m_cache_cleanup_time + CACHE_EXPIRATION then
    { a with m_user_cache := a.m_user_cache.expire time_now, m_cache_cleanup_time := time_now }
  else a

/-- The function `cookie_auth::handleRequest`.  Returns the result, the object afterwards,
the request (whose user may have been set) and the response sent, if any.
`time_now` is the reading of the clock during the call. -/
def cookie_auth.handleRequest (env : AuthEnv) (a : cookie_auth) (request : HTTPRequest)
    (time_now : ptime) : Bool × cookie_auth × HTTPRequest × Option SentResponse :=
  let r := a.processLogin env request time_now
  if r.1 then
    (false, r.2.1, request, r.2.2)
  else if ¬ env.needAuthentication request then
    (true, a, request, none)
  else if a.m_redirect ≠ "" ∧ a.m_redirect = request.resource then
    (true, a, request, none)
  else
    let a1 := a.expireCache time_now
    let auth_cookie := request.getCookie AUTH_COOKIE_NAME
    if auth_cookie ≠ "" then
      match a1.m_user_cache.find auth_cookie with
      | some entry =>
        (true, { a1 with m_user_cache := a1.m_user_cache.touch auth_cookie time_now },
          request.setUser entry.2, none)
      | none => (false, a1, request, some a1.handleUnauthorized)
    else
      (false, a1, request, some a1.handleUnauthorized)

/-- The reference for `expireCache`, in the words of the specification: "if
`now > cleanup_time + CACHE_EXPIRATION`, scan the cache and remove all entries
with `last_access + CACHE_EXPIRATION < now`; set `cleanup_time = now`".
Works on the entries and the cleanup time. -/
def expireCache_reference (entries : List CacheEntry) (cleanup_time time_now : ptime) :
    List CacheEntry × ptime :=
  if time_now > cleanup_time + CACHE_EXPIRATION then
    (entries.filter (fun e => ¬ (e.2.1 + CACHE_EXPIRATION < time_now)), time_now)
  else
    (entries, cleanup_time)

/-- A request that `handleRequest` decides by its cookie: it is neither a
login nor a logout request, it needs authentication, and it does not target
the redirect page. -/
def cookie_auth.checksCookie (env : AuthEnv) (a : cookie_auth) (request : HTTPRequest) : Prop :=
  stripTrailingSlash request.resource ≠ a.m_login
  ∧ stripTrailingSlash request.resource ≠ a.m_logout
  ∧ env.needAuthentication request = true
  ∧ ¬ (a.m_redirect ≠ "" ∧ a.m_redirect = request.resource)

/-- The states of a `cookie_auth` object reachable under a clock that never
runs backwards, each with the latest clock reading: construction, then calls
of `handleRequest` and `setOption`. -/
inductive Reachable (env : AuthEnv) : cookie_auth → ptime → Prop where
  | create (login logout redirect : String) (t : ptime) :
      Reachable env (cookie_auth.create login logout redirect t) t
  | handleRequest (a : cookie_auth) (t t1 : ptime) (request : HTTPRequest) :
      Reachable env a t → t ≤ t1 → Reachable env (a.handleRequest env request t1).2.1 t1
  | setOption (a a1 : cookie_auth) (t : ptime) (name value : String) :
      Reachable env a t → a.setOption name value = some a1 → Reachable env a1 t
  | tick (a : cookie_auth) (t t1 : ptime) :
      Reachable env a t → t ≤ t1 → Reachable env a t1

/-! ## A concrete environment, for running `cookie_auth` on concrete inputs -/

/-- The base64 alphabet. -/
def base64Alphabet : List Char :=
  "ABCDEFGHIJKLMNOPQRSTUVWXYZabcdefghijklmnopqrstuvwxyz0123456789+/".data

/-- The base64 digit of a number below 64. -/
def base64Digit (n : Nat) : Char := base64Alphabet.getD n '='

/-- Standard base64 of a list of byte values, with `=` padding. -/
def base64Chars : List Nat → List Char
  | a :: b :: c :: rest =>
    base64Digit (a / 4) :: base64Digit (a % 4 * 16 + b / 16)
      :: base64Digit (b % 16 * 4 + c / 64) :: base64Digit (c % 64) :: base64Chars rest
  | [a, b] => [base64Digit (a / 4), base64Digit (a % 4 * 16 + b / 16), base64Digit (b % 16 * 4), '=']
  | [a] => [base64Digit (a / 4), base64Digit (a % 4 * 16), '=', '=']
  | [] => []

/-- An environment with two users, `bob` with password `secret` and `alice`
with password `wonder`; every request needs authentication; `url_decode`
leaves plain text as it is; `base64_encode` is standard base64; the random
generator repeats the values 0 to 19, so that every cookie it produces is the
same. -/
def exampleEnv : AuthEnv :=
  { getUser := fun u p =>
      if u = "bob" ∧ p = "secret" then some "bob"
      else if u = "alice" ∧ p = "wonder" then some "alice"
      else none
    needAuthentication := fun _ => true
    url_decode := fun s => s
    base64_encode := fun bytes => String.mk (base64Chars (bytes.map UInt8.toNat))
    random_die := fun i => i % 20 }

/-- The cookie that `exampleEnv` produces at every login. -/
def exampleCookie : String := "AAECAwQFBgcICQoLDA0ODxAREhM="

/-- A `cookie_auth` object constructed at time 1000 with the login resource
`/login`, the logout resource `/logout` and no redirect page. -/
def exampleAuth : cookie_auth := cookie_auth.create "/login" "/logout" "" 1000

/-- A login request with bob's credentials. -/
def loginRequest : HTTPRequest :=
  { resource := "/login", query_params := [("user", "bob"), ("pass", "secret")],
    cookie_params := [], user := none }

/-- The object after bob has logged in at time 1000. -/
def exampleAuthLoggedIn : cookie_auth := (exampleAuth.handleRequest exampleEnv loginRequest 1000).2.1

/-- A request for `/data` that presents the cookie issued to bob. -/
def dataRequest : HTTPRequest :=
  { resource := "/data", query_params := [],
    cookie_params := [("pion_session_id", exampleCookie)], user := none }

/-- A request for `/data` without any cookie. -/
def anonymousRequest : HTTPRequest :=
  { resource := "/data", query_params := [], cookie_params := [], user := none }

/-- A logout request that presents the cookie issued to bob. -/
def logoutRequest : HTTPRequest :=
  { resource := "/logout", query_params := [],
    cookie_params := [("pion_session_id", exampleCookie)], user := none }

/-- A login request for the resource `/auth` with alice's credentials. -/
def authLoginRequest : HTTPRequest :=
  { resource := "/auth", query_params := [("user", "alice"), ("pass", "wonder")],
    cookie_params := [], user := none }

/-- An object configured with one and the same resource `/auth` for login and
logout, after alice has logged in at time 1000: its cache holds a session of
alice under `exampleCookie`. -/
def sameResourceAuth : cookie_auth :=
  ((cookie_auth.create "/auth" "/auth" "" 1000).handleRequest exampleEnv authLoginRequest 1000).2.1

/-- A request for `/auth` that presents `exampleCookie` and no credentials. -/
def authLogoutRequest : HTTPRequest :=
  { resource := "/auth", query_params := [],
    cookie_params := [("pion_session_id", exampleCookie)], user := none }

/-- The object of `exampleAuthLoggedIn` after `setOption("redirect", "/welcome")`. -/
def redirectAuth : cookie_auth := { exampleAuthLoggedIn with m_redirect := "/welcome" }

/-- A request for the redirect page `/welcome` without any cookie. -/
def welcomeRequest : HTTPRequest :=
  { resource := "/welcome", query_params := [], cookie_params := [], user := none }


/-- The invariant of the user cache: every entry was last accessed no more
than `CACHE_EXPIRATION` seconds before the cleanup time. -/
def cookie_auth.cacheFresh (a : cookie_auth) : Prop :=
  ∀ e ∈ a.m_user_cache.entries, a.m_cache_cleanup_time ≤ e.2.1 + CACHE_EXPIRATION

/-- A login request with a wrong password for bob. -/
def badLoginRequest : HTTPRequest :=
  { resource := "/login", query_params := [("user", "bob"), ("pass", "guess")],
    cookie_params := [], user := none }

end http

namespace plugins

/-! ## HTTPProtocol -/

/-- Modelled from the spec: `Vocabulary::TermRef`.  The vocabulary is an
external registry ("`find_term(uri) -> id`"); a term is identified here by
its URI, so that different URIs are different terms. -/
abbrev TermRef := String

def VOCAB_CLICKSTREAM_CS_BYTES : String := "urn:vocab:clickstream#cs-bytes"

def VOCAB_CLICKSTREAM_SC_BYTES : String := "urn:vocab:clickstream#sc-bytes"

def VOCAB_CLICKSTREAM_BYTES : String := "urn:vocab:clickstream#bytes"

def VOCAB_CLICKSTREAM_STATUS : String := "urn:vocab:clickstream#status"

def VOCAB_CLICKSTREAM_COMMENT : String := "urn:vocab:clickstream#comment"

def VOCAB_CLICKSTREAM_METHOD : String := "urn:vocab:clickstream#method"

def VOCAB_CLICKSTREAM_URI : String := "urn:vocab:clickstream#uri"

def VOCAB_CLICKSTREAM_URI_STEM : String := "urn:vocab:clickstream#uri-stem"

def VOCAB_CLICKSTREAM_URI_QUERY : String := "urn:vocab:clickstream#uri-query"

def VOCAB_CLICKSTREAM_REQUEST : String := "urn:vocab:clickstream#request"

def VOCAB_CLICKSTREAM_HOST : String := "urn:vocab:clickstream#host"

def VOCAB_CLICKSTREAM_REFERER : String := "urn:vocab:clickstream#referer"

def VOCAB_CLICKSTREAM_USERAGENT : String := "urn:vocab:clickstream#useragent"

def VOCAB_CLICKSTREAM_CS_CONTENT : String := "urn:vocab:clickstream#cs-content"

def VOCAB_CLICKSTREAM_SC_CONTENT : String := "urn:vocab:clickstream#sc-content"

def VOCAB_CLICKSTREAM_CACHED : String := "urn:vocab:clickstream#cached"

/-- Modelled from the spec: the constant `HTTPTypes::HEADER_HOST`. -/
def HEADER_HOST : String := "Host"

/-- Modelled from the spec: the constant `HTTPTypes::HEADER_REFERER`. -/
def HEADER_REFERER : String := "Referer"

/-- Modelled from the spec: the constant `HTTPTypes::HEADER_USER_AGENT`. -/
def HEADER_USER_AGENT : String := "User-Agent"

/-- Modelled from the spec: the constant `HTTPTypes::HEADER_CONTENT_TYPE`. -/
def HEADER_CONTENT_TYPE : String := "Content-Type"

/-- Modelled from the spec: the constant `HTTPTypes::RESPONSE_CODE_NOT_MODIFIED`;
"cached = (status == 304)". -/
def RESPONSE_CODE_NOT_MODIFIED : Nat := 304

/-- A value stored in an event: an unsigned integer or a string. -/
inductive EventValue where
  | uint (n : Nat)
  | string (s : String)
  deriving DecidableEq, Repr

/-- Modelled from the spec: `Event`, "a schema-less ordered map of `term_id →
typed_value`": the type of the event and its (term, value) pairs in the order
in which the terms were first set. -/
structure Event where
  event_type : TermRef
  values : List (TermRef × EventValue)
  deriving DecidableEq, Repr

/-- The value stored under a term in a list of pairs, if any. -/
def lookupTerm (term : TermRef) : List (TermRef × EventValue) → Option EventValue
  | [] => none
  | kv :: rest => if kv.1 = term then some kv.2 else lookupTerm term rest

/-- Stores a value under a term in a list of pairs, replacing the value the
term had. -/
def storeTerm (term : TermRef) (v : EventValue) :
    List (TermRef × EventValue) → List (TermRef × EventValue)
  | [] => [(term, v)]
  | kv :: rest => if kv.1 = term then (term, v) :: rest else kv :: storeTerm term v rest

/-- Modelled from the spec: the value an event holds for a term. -/
def Event.get (e : Event) (term : TermRef) : Option EventValue := lookupTerm term e.values

/-- Modelled from the spec: `Event::setUInt`. -/
def Event.setUInt (e : Event) (term : TermRef) (n : Nat) : Event :=
  { e with values := storeTerm term (EventValue.uint n) e.values }

/-- Modelled from the spec: `Event::setString`. -/
def Event.setString (e : Event) (term : TermRef) (s : String) : Event :=
  { e with values := storeTerm term (EventValue.string s) e.values }

/-- Modelled from the spec: the class `HTTPRequest`, whose header is not in the
tree; "Request adds: method, resource (path), query_string, raw first line". -/
structure HTTPRequest where
  toHTTPMessage : net.HTTPMessage
  m_method : String
  m_resource : String
  m_query_string : String
  m_first_line : String
  deriving DecidableEq, Repr

/-- Modelled from the spec: the accessor `HTTPRequest::getMethod`. -/
def HTTPRequest.getMethod (r : HTTPRequest) : String := r.m_method

/-- Modelled from the spec: the accessor `HTTPRequest::getResource`. -/
def HTTPRequest.getResource (r : HTTPRequest) : String := r.m_resource

/-- Modelled from the spec: the accessor `HTTPRequest::getQueryString`. -/
def HTTPRequest.getQueryString (r : HTTPRequest) : String := r.m_query_string

/-- Modelled from the spec: `HTTPRequest::getFirstLine`, the raw first line. -/
def HTTPRequest.getFirstLine (r : HTTPRequest) : String := r.m_first_line

/-- Modelled from the spec: `HTTPResponse::updateRequestInfo`; "update response
parser's context with the request (to carry HEAD semantics and version)": the
response learns the request's method, and that chunks are supported when the
request's version is 1.1 or a later 1.x. -/
def updateRequestInfo (response : net.HTTPResponse) (request : HTTPRequest) : net.HTTPResponse :=
  let m : net.HTTPMessage := { response.toHTTPMessage with request_method := request.m_method }
  if request.toHTTPMessage.version_major = 1 ∧ request.toHTTPMessage.version_minor ≥ 1 then
    { response with toHTTPMessage := m.setChunksSupported true }
  else
    { response with toHTTPMessage := m }

/-- The operations of `HTTPParser` that `HTTPProtocol` calls.  The parser's
source is not in the tree, so it is a parameter: `σ` is the state of a parser
object.  `setReadBuffer p bytes` is `setReadBuffer(ptr, len)` for the `len`
bytes at `ptr`; `parseRequest` and `parseResponse` are `parse` applied to a
request and to a response. -/
structure MessageParser (σ : Type) where
  setReadBuffer : σ → List net.Byte → σ
  parseRequest : σ → HTTPRequest → net.tribool × σ × HTTPRequest
  parseResponse : σ → net.HTTPResponse → net.tribool × σ × net.HTTPResponse
  getTotalBytesRead : σ → Nat

/-- The struct `ExtractionRule` as `parseExtractionRule` fills it. -/
structure ExtractionRule where
  m_type_regex : String
  m_max_size : Nat
  deriving DecidableEq, Repr

/-- What `HTTPProtocol` uses from outside: `EventFactory::create` (`none` is a
null event pointer) and the regular expression match of a content type
against the pattern of an extraction rule. -/
structure ProtocolEnv where
  create : TermRef → Option Event
  regex_match : String → String → Bool

/-- The members of an `HTTPProtocol` object.  The members `m_request_parser`
and `m_response_parser` of the source are written `requestParser` and
`responseParser`; `m_event_type` is the value of `getEventType()`. -/
structure HTTPProtocol (σ : Type) where
  requestParser : σ
  responseParser : σ
  m_request : HTTPRequest
  m_response : net.HTTPResponse
  m_request_content_rule : ExtractionRule
  m_response_content_rule : ExtractionRule
  m_event_type : TermRef

/-- The bytes of a payload as a `std::string`. -/
def contentString (bytes : List net.Byte) : String :=
  String.mk (bytes.map (fun b => Char.ofNat b.toNat))

/-- Modelled from the spec: `HTTPProtocol::checkContentExtraction`, declared in
the class header, which is not in the tree; "Content fields populated only
when a configured extraction rule matches by `Content-Type` regex and the
payload size is ≤ `max_size`".  A rule with `m_max_size = 0` extracts nothing
("do not extract content"). -/
def checkContentExtraction (env : ProtocolEnv) (e : Event) (rule : ExtractionRule)
    (msg : net.HTTPMessage) (term : TermRef) : Event :=
  if rule.m_max_size ≠ 0 ∧ msg.getContentLength ≤ rule.m_max_size
      ∧ env.regex_match rule.m_type_regex (msg.getHeader HEADER_CONTENT_TYPE) = true then
    e.setString term (contentString msg.getContent)
  else
    e

/-- The uri string built at lines 131-135 of `generateEvent`. -/
def uriString (request : HTTPRequest) : String :=
  if request.getQueryString ≠ "" then
    (request.getResource.push '?') ++ request.getQueryString
  else
    request.getResource

/-- The assignments of `generateEvent` (lines 122-153) to a new event `e0`. -/
def populateEvent {σ : Type} (P : MessageParser σ) (env : ProtocolEnv)
    (st : HTTPProtocol σ) (e0 : Event) : Event :=
  let e1 := e0.setUInt VOCAB_CLICKSTREAM_CS_BYTES (P.getTotalBytesRead st.requestParser)
  let e2 := e1.setUInt VOCAB_CLICKSTREAM_SC_BYTES (P.getTotalBytesRead st.responseParser)
  let e3 := e2.setUInt VOCAB_CLICKSTREAM_BYTES
    ((P.getTotalBytesRead st.requestParser + P.getTotalBytesRead st.responseParser)
      % net.SIZE_T_MODULUS)
  let e4 := e3.setUInt VOCAB_CLICKSTREAM_STATUS st.m_response.getStatusCode
  let e5 := e4.setString VOCAB_CLICKSTREAM_COMMENT st.m_response.getStatusMessage
  let e6 := e5.setString VOCAB_CLICKSTREAM_METHOD st.m_request.getMethod
  let e7 := e6.setString VOCAB_CLICKSTREAM_URI (uriString st.m_request)
  let e8 := e7.setString VOCAB_CLICKSTREAM_URI_STEM st.m_request.getResource
  let e9 := e8.setString VOCAB_CLICKSTREAM_URI_QUERY st.m_request.getQueryString
  let e10 := e9.setString VOCAB_CLICKSTREAM_REQUEST st.m_request.getFirstLine
  let e11 := e10.setString VOCAB_CLICKSTREAM_HOST
    (st.m_request.toHTTPMessage.getHeader HEADER_HOST)
  let e12 := e11.setString VOCAB_CLICKSTREAM_REFERER
    (st.m_request.toHTTPMessage.getHeader HEADER_REFERER)
  let e13 := e12.setString VOCAB_CLICKSTREAM_USERAGENT
    (st.m_request.toHTTPMessage.getHeader HEADER_USER_AGENT)
  let e14 := e13.setUInt VOCAB_CLICKSTREAM_CACHED
    (if st.m_response.getStatusCode = RESPONSE_CODE_NOT_MODIFIED then 1 else 0)
  let e15 := checkContentExtraction env e14 st.m_request_content_rule
    st.m_request.toHTTPMessage VOCAB_CLICKSTREAM_CS_CONTENT
  checkContentExtraction env e15 st.m_response_content_rule
    st.m_response.toHTTPMessage VOCAB_CLICKSTREAM_SC_CONTENT

/-- The function `HTTPProtocol::generateEvent`: the event pointer after the
call.  The term references are those that `setConfig` looks up, each under
its own URI.  A null pointer from the factory stays null. -/
def HTTPProtocol.generateEvent {σ : Type} (P : MessageParser σ) (env : ProtocolEnv)
    (st : HTTPProtocol σ) : Option Event :=
  (env.create st.m_event_type).map (populateEvent P env st)

/-- The function `HTTPProtocol::readNext`: the value returned, the object
afterwards and the event pointer `event_ptr_ref` afterwards. -/
def HTTPProtocol.readNext {σ : Type} (P : MessageParser σ) (env : ProtocolEnv)
    (st : HTTPProtocol σ) (request : Bool) (buf : List net.Byte)
    (event_ptr_ref : Option Event) : net.tribool × HTTPProtocol σ × Option Event :=
  if request then
    let r := P.parseRequest (P.setReadBuffer st.requestParser buf) st.m_request
    let st1 : HTTPProtocol σ := { st with requestParser := r.2.1, m_request := r.2.2 }
    if r.1 = net.tribool.true_value then
      (net.tribool.indeterminate_value,
        { st1 with m_response := updateRequestInfo st1.m_response st1.m_request },
        event_ptr_ref)
    else
      (r.1, st1, event_ptr_ref)
  else
    let r := P.parseResponse (P.setReadBuffer st.responseParser buf) st.m_response
    let st1 : HTTPProtocol σ := { st with responseParser := r.2.1, m_response := r.2.2 }
    if r.1 = net.tribool.true_value then
      (r.1, st1, st1.generateEvent P env)
    else
      (r.1, st1, event_ptr_ref)


/-! ### Concrete inputs: a replayed request and response -/

/-- The state of the parser of the examples: the bytes it was given to read
and the number of bytes it has read so far. -/
structure ReplayState where
  buffer : List net.Byte
  total : Nat
  deriving DecidableEq, Repr

/-- Whether the bytes end with an empty line (CR LF CR LF). -/
def endsWithEmptyLine (bytes : List net.Byte) : Bool :=
  (bytes.reverse.take 4 == [10, 13, 10, 13])

/-- A parser for the examples.  It reads all the bytes it is given; a message
is complete when the bytes end with an empty line, and is then the scripted
request, or the scripted status on the response object (which keeps what it
learnt from the request). -/
def replayParser (request : HTTPRequest) (status : Nat) (status_message : String) :
    MessageParser ReplayState where
  setReadBuffer := fun p bytes => { p with buffer := bytes }
  parseRequest := fun p r =>
    let p1 : ReplayState := { buffer := [], total := p.total + p.buffer.length }
    if endsWithEmptyLine p.buffer then (net.tribool.true_value, p1, request)
    else (net.tribool.indeterminate_value, p1, r)
  parseResponse := fun p r =>
    let p1 : ReplayState := { buffer := [], total := p.total + p.buffer.length }
    if endsWithEmptyLine p.buffer then
      (net.tribool.true_value, p1,
        (r.setStatusCode status).setStatusMessage status_message)
    else (net.tribool.indeterminate_value, p1, r)
  getTotalBytesRead := fun p => p.total

/-- The bytes `GET /index.html?x=1 HTTP/1.1`, a `Host` header and an empty
line: 47 bytes. -/
def replayRequestBytes : List net.Byte :=
  net.bytesOf "GET /index.html?x=1 HTTP/1.1\r\nHost: example\r\n\r\n"

/-- The request that the bytes `replayRequestBytes` parse to. -/
def replayRequest : HTTPRequest :=
  { toHTTPMessage :=
      { net.emptyMessage with version_major := 1, version_minor := 1,
                              headers := [("Host", "example")], is_valid := true }
    m_method := "GET"
    m_resource := "/index.html"
    m_query_string := "x=1"
    m_first_line := "GET /index.html?x=1 HTTP/1.1" }

/-- The bytes `HTTP/1.1 304 Not Modified` and an empty line: 29 bytes. -/
def replayResponse304Bytes : List net.Byte :=
  net.bytesOf "HTTP/1.1 304 Not Modified\r\n\r\n"

/-- The bytes `HTTP/1.1 200 OK`, a zero content length and an empty line. -/
def replayResponse200Bytes : List net.Byte :=
  net.bytesOf "HTTP/1.1 200 OK\r\nContent-Length: 0\r\n\r\n"

/-- A factory that creates an empty event of the type asked for, no content
extraction. -/
def replayEnv : ProtocolEnv where
  create := fun event_type => some { event_type := event_type, values := [] }
  regex_match := fun _ _ => false

/-- An `HTTPProtocol` object before any byte was read. -/
def freshProtocol : HTTPProtocol ReplayState where
  requestParser := { buffer := [], total := 0 }
  responseParser := { buffer := [], total := 0 }
  m_request :=
    { toHTTPMessage := net.emptyMessage, m_method := "", m_resource := "",
      m_query_string := "", m_first_line := "" }
  m_response :=
    { toHTTPMessage := net.emptyMessage, m_first_line := "", m_status_message := "" }
  m_request_content_rule := { m_type_regex := "", m_max_size := 0 }
  m_response_content_rule := { m_type_regex := "", m_max_size := 0 }
  m_event_type := "urn:vocab:clickstream#http-event"

/-- The object after the request bytes were read in the request direction. -/
def protocolAfterRequest (status : Nat) (status_message : String) :
    HTTPProtocol ReplayState :=
  (freshProtocol.readNext (replayParser replayRequest status status_message) replayEnv
    true replayRequestBytes none).2.1

/-! ## LogOutputReactor -/

/-- The regular files of a file system: their paths and their bytes. -/
abbrev FileSystem := List (String × List net.Byte)

/-- The bytes of the file at a path, `none` when there is no such file. -/
def fsRead : FileSystem → String → Option (List net.Byte)
  | [], _ => none
  | f :: rest, p => if f.1 = p then some f.2 else fsRead rest p

/-- The function `boost::filesystem::exists`. -/
def fsExists (fs : FileSystem) (p : String) : Bool := (fsRead fs p).isSome

/-- The function `boost::filesystem::file_size`; `none` is the exception it
throws for a file that does not exist. -/
def fsFileSize (fs : FileSystem) (p : String) : Option Nat := (fsRead fs p).map List.length

/-- The function `boost::filesystem::remove`. -/
def fsRemove (fs : FileSystem) (p : String) : FileSystem := fs.filter (fun f => f.1 ≠ p)

/-- The file at a path gets the given bytes; it is created if need be. -/
def fsWrite (fs : FileSystem) (p : String) (bytes : List net.Byte) : FileSystem :=
  (p, bytes) :: fsRemove fs p

/-- The function `boost::filesystem::rename` of an existing file: the file is
afterwards found under the new path only. -/
def fsRename (fs : FileSystem) (old_p new_p : String) : FileSystem :=
  match fsRead fs old_p with
  | none => fs
  | some bytes => if old_p = new_p then fs else fsWrite (fsRemove fs old_p) new_p bytes

/-- Splits a list of characters around the last occurrence of a separator. -/
def splitLast (sep : Char) (cs : List Char) : Option (List Char × List Char) :=
  match cs.reverse.dropWhile (fun ch => ch != sep) with
  | [] => none
  | _ :: before => some (before.reverse, (cs.reverse.takeWhile (fun ch => ch != sep)).reverse)

/-- The member `boost::filesystem::path::branch_path`: the directory of a path. -/
def branch_path (p : String) : String :=
  match splitLast '/' p.data with
  | none => ""
  | some (dir, _) => if dir = [] then "/" else String.mk dir

/-- The last element of a path. -/
def leaf (p : String) : String :=
  match splitLast '/' p.data with
  | none => p
  | some (_, name) => String.mk name

/-- The function `boost::filesystem::basename`: the last element of the path
up to its last dot. -/
def basename (p : String) : String :=
  match splitLast '.' (leaf p).data with
  | none => leaf p
  | some (stem, _) => String.mk stem

/-- The function `boost::filesystem::extension`: the last element of the path
from its last dot on, empty if it has no dot. -/
def extension (p : String) : String :=
  match splitLast '.' (leaf p).data with
  | none => ""
  | some (_, ext) => String.mk ('.' :: ext)

/-- The operator `/` of `boost::filesystem::path`. -/
def pathAppend (dir name : String) : String :=
  if dir = "" then name
  else if dir.data.getLast? = some '/' then dir ++ name
  else dir ++ "/" ++ name

/-- A point in time, as `boost::get_system_time()` returns it. -/
structure SystemTime where
  year : Nat
  month : Nat
  day : Nat
  hours : Nat
  minutes : Nat
  seconds : Nat
  deriving DecidableEq, Repr

/-- A number in decimal, filled with zeros on the left to a width. -/
def zeroPadded (width n : Nat) : String :=
  String.mk (List.replicate (width - (Nat.toDigits 10 n).length) '0' ++ Nat.toDigits 10 n)

/-- The string `PionTimeFacet("-%Y%m%d-%H%M%S").toString(t)`. -/
def facetToString (t : SystemTime) : String :=
  "-" ++ zeroPadded 4 t.year ++ zeroPadded 2 t.month ++ zeroPadded 2 t.day
    ++ "-" ++ zeroPadded 2 t.hours ++ zeroPadded 2 t.minutes ++ zeroPadded 2 t.seconds

/-- The local variable `timestamped_path` of `LogOutputReactor::query`
(lines 113-116). -/
def timestampedPath (log_filename : String) (now : SystemTime) : String :=
  pathAppend (branch_path log_filename)
    (basename log_filename ++ facetToString now ++ extension log_filename)

/-- The exceptions that the member functions of the reactor throw, each with
the file name it carries; `FilesystemError` is the exception of
`boost::filesystem`. -/
inductive LogException where
  | WriteToLogException (file : String)
  | LogRotationException (file : String)
  | OpenLogException (file : String)
  | FilesystemError
  deriving DecidableEq, Repr

/-- What can be observed of a reactor from outside, in the order in which it
happens: bytes written to the log file through the stream, an event delivered
to the downstream reactors, a default query response sent. -/
inductive Action where
  | wrote (bytes : List net.Byte)
  | delivered (e : Event)
  | queried
  deriving DecidableEq, Repr

/-- What a `LogOutputReactor` uses from outside.  `codec_write e` is the bytes
that `m_codec_ptr->write` puts on the stream for an event (`none` when the
write fails), `codec_finish` the bytes that `m_codec_ptr->finish` puts on the
stream, `can_open p` whether a file at `p` can be opened for appending. -/
structure LogEnv where
  codec_write : Event → Option (List net.Byte)
  codec_finish : List net.Byte
  can_open : String → Bool

/-- The members of a `LogOutputReactor` and what it acts on.
`stream_open` is `m_log_stream.is_open()` and `stream_fail` is `!m_log_stream`;
the bytes written to the stream are the bytes appended to the file at
`m_log_filename`.  Modelled from the spec: the members of the base class
`Reactor`, "running: bool; events_in, events_out: monotonic counters". -/
structure LogOutputReactor where
  m_is_running : Bool
  m_events_in : Nat
  m_events_out : Nat
  m_log_filename : String
  stream_open : Bool
  stream_fail : Bool
  fs : FileSystem
  trace : List Action
  deriving DecidableEq, Repr

/-- Modelled from the spec: the function `Reactor::isRunning`. -/
def LogOutputReactor.isRunning (r : LogOutputReactor) : Bool := r.m_is_running

/-- Modelled from the spec: the function `Reactor::incrementEventsIn`. -/
def LogOutputReactor.incrementEventsIn (r : LogOutputReactor) : LogOutputReactor :=
  { r with m_events_in := r.m_events_in + 1 }

/-- Modelled from the spec: the function `Reactor::deliverEvent`; "Events
emitted by `u` are delivered to each" downstream reactor, and the counter of
outgoing events grows. -/
def LogOutputReactor.deliverEvent (r : LogOutputReactor) (e : Event) : LogOutputReactor :=
  { r with m_events_out := r.m_events_out + 1, trace := r.trace ++ [Action.delivered e] }

/-- Modelled from the spec: the function `Reactor::query`, "the default query
response". -/
def reactorQuery (r : LogOutputReactor) : LogOutputReactor :=
  { r with trace := r.trace ++ [Action.queried] }

/-- Bytes put on the log stream: they reach the file when the stream is open
and not in a failed state, and nothing happens to the file otherwise. -/
def streamWrite (r : LogOutputReactor) (bytes : Option (List net.Byte)) : LogOutputReactor :=
  if r.stream_open = true ∧ r.stream_fail = false then
    match bytes with
    | some bs =>
      { r with fs := fsWrite r.fs r.m_log_filename
                       ((fsRead r.fs r.m_log_filename).getD [] ++ bs),
               trace := r.trace ++ [Action.wrote bs] }
    | none => { r with stream_fail := true }
  else
    { r with stream_fail := true }

/-- The function `LogOutputReactor::operator()`: the exception thrown, if any,
and the reactor afterwards. -/
def LogOutputReactor.call (env : LogEnv) (r : LogOutputReactor) (e : Event) :
    Option LogException × LogOutputReactor :=
  if r.isRunning then
    let r1 := r.incrementEventsIn
    let r2 := streamWrite r1 (env.codec_write e)
    if r2.stream_fail then
      (some (LogException.WriteToLogException r2.m_log_filename), r2)
    else
      (none, r2.deliverEvent e)
  else
    (none, r)

/-- The function `LogOutputReactor::openLogFileNoLock`.  Opening for appending
creates the file if it does not exist; opening a stream that is open fails. -/
def LogOutputReactor.openLogFileNoLock (env : LogEnv) (r : LogOutputReactor) :
    Option LogException × LogOutputReactor :=
  if r.stream_open = false ∧ env.can_open r.m_log_filename = true then
    (none,
      { r with stream_open := true,
               fs := if fsExists r.fs r.m_log_filename then r.fs
                     else fsWrite r.fs r.m_log_filename [] })
  else
    let r1 := { r with stream_fail := true }
    if r1.stream_open then (none, r1)
    else (some (LogException.OpenLogException r1.m_log_filename), r1)

/-- The function `LogOutputReactor::closeLogFileNoLock`. -/
def LogOutputReactor.closeLogFileNoLock (env : LogEnv) (r : LogOutputReactor) :
    Option LogException × LogOutputReactor :=
  if r.stream_open then
    let r1 := streamWrite r (some env.codec_finish)
    let r2 := { r1 with stream_open := false }
    match fsFileSize r2.fs r2.m_log_filename with
    | none => (some LogException.FilesystemError, r2)
    | some size =>
      let r3 := if size = 0 then { r2 with fs := fsRemove r2.fs r2.m_log_filename } else r2
      (none, { r3 with stream_fail := false })
  else
    (none, r)

/-- The function `LogOutputReactor::start`. -/
def LogOutputReactor.start (env : LogEnv) (r : LogOutputReactor) :
    Option LogException × LogOutputReactor :=
  if ¬ r.m_is_running then
    match r.openLogFileNoLock env with
    | (some ex, r1) => (some ex, r1)
    | (none, r1) => (none, { r1 with m_is_running := true })
  else
    (none, r)

/-- The function `LogOutputReactor::stop`. -/
def LogOutputReactor.stop (env : LogEnv) (r : LogOutputReactor) :
    Option LogException × LogOutputReactor :=
  if r.m_is_running then
    match r.closeLogFileNoLock env with
    | (some ex, r1) => (some ex, r1)
    | (none, r1) => (none, { r1 with m_is_running := false })
  else
    (none, r)

/-- The function `LogOutputReactor::query` at the time `now`: the exception
thrown, if any, and the reactor afterwards. -/
def LogOutputReactor.query (env : LogEnv) (r : LogOutputReactor) (branches : List String)
    (now : SystemTime) : Option LogException × LogOutputReactor :=
  if branches.length > 2 ∧ branches.get? 2 = some "rotate" then
    let r1 := reactorQuery r
    let timestamped_path := timestampedPath r1.m_log_filename now
    if fsExists r1.fs timestamped_path then
      (some (LogException.LogRotationException r1.m_log_filename), r1)
    else
      match (if r1.isRunning then r1.closeLogFileNoLock env else (none, r1)) with
      | (some ex, r2) => (some ex, r2)
      | (none, r2) =>
        let r3 :=
          if fsExists r2.fs r2.m_log_filename then
            { r2 with fs := fsRename r2.fs r2.m_log_filename timestamped_path }
          else r2
        if r3.isRunning then r3.openLogFileNoLock env else (none, r3)
  else
    (none, reactorQuery r)

/-! ### Concrete inputs: a log file and a rotation -/

/-- A codec that writes one line per event, the number of its values, and
nothing when it finishes. -/
def lineEnv : LogEnv where
  codec_write := fun e => some (net.bytesOf (toString e.values.length ++ "\n"))
  codec_finish := []
  can_open := fun _ => true

/-- An event with one value. -/
def statusEvent : Event :=
  { event_type := "urn:vocab:clickstream#http-event",
    values := [(VOCAB_CLICKSTREAM_STATUS, EventValue.uint 200)] }

/-- A reactor that was never started; its log file exists and is empty. -/
def stoppedReactor : LogOutputReactor where
  m_is_running := false
  m_events_in := 0
  m_events_out := 0
  m_log_filename := "/var/log/pion.log"
  stream_open := false
  stream_fail := false
  fs := [("/var/log/pion.log", [])]
  trace := []

/-- The reactor `stoppedReactor` after `start`. -/
def runningReactor : LogOutputReactor := (stoppedReactor.start lineEnv).2

/-- The running reactor after one event was delivered to it. -/
def runningReactorOneEvent : LogOutputReactor := (runningReactor.call lineEnv statusEvent).2

/-- The time 2008-03-07 09:05:03. -/
def rotationTime : SystemTime :=
  { year := 2008, month := 3, day := 7, hours := 9, minutes := 5, seconds := 3 }

/-- The query branches of a rotation request. -/
def rotateBranches : List String := ["reactors", "log", "rotate"]

/-- The reactor with one event in its log file, after `stop`. -/
def stoppedReactorOneEvent : LogOutputReactor := (runningReactorOneEvent.stop lineEnv).2


/-! ## The assertion at the end of `HTTPProtocol::readNext` -/

/-- The conversion of a `bool` to a `boost::tribool`. -/
def tribool_of_bool (b : Bool) : net.tribool :=
  if b then net.tribool.true_value else net.tribool.false_value

/-- The operator `!=` of `boost::tribool` (`boost/logic/tribool.hpp`): the
result is indeterminate when either operand is indeterminate, and the
two-valued inequality otherwise. -/
def tribool_ne (x y : net.tribool) : net.tribool :=
  if x = net.tribool.indeterminate_value ∨ y = net.tribool.indeterminate_value then
    net.tribool.indeterminate_value
  else
    tribool_of_bool (decide (x ≠ y))

/-- The operator `||` of `boost::tribool` with a `bool` on the left
(`boost/logic/tribool.hpp`): true when the `bool` is true, the right operand
otherwise. -/
def tribool_or (x : Bool) (y : net.tribool) : net.tribool :=
  if x then net.tribool.true_value else y

/-- The conversion of a `boost::tribool` in a boolean context: true only for
the value true. -/
def tribool_to_bool (x : net.tribool) : Bool := decide (x = net.tribool.true_value)

/-- The expression asserted at line 82 of `readNext`,
`(event_ptr_ref.get() != NULL) || (rc != true)`: `rc != true` compares a
`boost::tribool` with a `bool`, and `||` joins a `bool` and a
`boost::tribool`, so the value is a `boost::tribool`. -/
def readNextAssertion (rc : net.tribool) (event_ptr_ref : Option Event) : net.tribool :=
  tribool_or event_ptr_ref.isSome (tribool_ne rc (tribool_of_bool true))

/-- Whether the assertion at the end of `readNext` passes for a result of
`readNext`: the asserted expression, used as a condition. -/
def assertionPasses {σ : Type} (result : net.tribool × HTTPProtocol σ × Option Event) : Bool :=
  tribool_to_bool (readNextAssertion result.1 result.2.2)

/-- The first bytes of a request, up to the middle of its first line. -/
def partialRequestBytes : List net.Byte := net.bytesOf "GET /index.ht"

end plugins

namespace services

/-! ## LogServiceAppender -/

/-- The modulus of `unsigned int` arithmetic. -/
def UINT_MODULUS : Nat := 2 ^ 32

/-- The constant `LogServiceAppender::DEFAULT_MAX_EVENTS`. -/
def DEFAULT_MAX_EVENTS : Nat := 25

/-- The members of a `LogServiceAppender` that `addLogString` uses.  The
class is declared in `LogService.hpp`, which is not in the tree; the two
counters are `unsigned int`, as `DEFAULT_MAX_EVENTS` is, and `m_log_events`
is a `std::list<std::string>` (see `writeLogEvents`). -/
structure LogServiceAppender where
  m_max_events : Nat
  m_num_events : Nat
  m_log_events : List String
  deriving DecidableEq, Repr

/-- The constructor `LogServiceAppender::LogServiceAppender`. -/
def LogServiceAppender.create : LogServiceAppender :=
  { m_max_events := DEFAULT_MAX_EVENTS, m_num_events := 0, m_log_events := [] }

/-- The loop of lines 90-93 of `addLogString`, run for at most `fuel` rounds:
while `m_num_events > m_max_events`, erase the first string and decrement
`m_num_events`.  (`erase(begin())` on an empty list is undefined; it is
shown as leaving the list empty.) -/
def eraseLoop : Nat → LogServiceAppender → LogServiceAppender
  | 0, a => a
  | fuel + 1, a =>
    if a.m_num_events > a.m_max_events then
      eraseLoop fuel
        { a with m_log_events := a.m_log_events.drop 1
                 m_num_events := (a.m_num_events + UINT_MODULUS - 1) % UINT_MODULUS }
    else
      a

/-- The function `LogServiceAppender::addLogString`.  Every round of the loop
decrements `m_num_events`, which stays above `m_max_events ≥ 0` while the
loop runs, so the loop takes at most as many rounds as the value of
`m_num_events` when it starts: that value is the fuel. -/
def LogServiceAppender.addLogString (a : LogServiceAppender) (log_string : String) :
    LogServiceAppender :=
  let a1 := { a with m_log_events := a.m_log_events ++ [log_string] }
  let a2 := { a1 with m_num_events := (a1.m_num_events + 1) % UINT_MODULUS }
  eraseLoop a2.m_num_events a2

/-- An appender that keeps at most three strings and holds `a`, `b`, `c`. -/
def fullAppender : LogServiceAppender :=
  { m_max_events := 3, m_num_events := 3, m_log_events := ["a", "b", "c"] }

/-- An appender that keeps no string. -/
def zeroAppender : LogServiceAppender :=
  { m_max_events := 0, m_num_events := 0, m_log_events := [] }

end services

namespace common

/-! ## PluginManager -/

/-- Modelled from the spec: a shared object found for a plug-in name, with
what its two C-linkage symbols resolve to; "resolves two C-linkage symbols
`create_<Name>` and `destroy_<Name>`".  `create_fn` is the object that
`create_<Name>` yields (`none` when the symbol is missing), `destroy_fn`
whether `destroy_<Name>` resolves. -/
structure PluginLibrary where
  handle : Nat
  create_fn : Option Nat
  destroy_fn : Bool
  deriving DecidableEq, Repr

/-- Modelled from the spec: the value that the plug-in map holds for an id,
"`plugin_id → (handle, create_fn, destroy_fn, instance)`". -/
structure PluginEntry where
  library : PluginLibrary
  instance_ptr : Nat
  deriving DecidableEq, Repr

/-- Modelled from the spec: the errors of the plug-in manager; "Duplicate id →
`DuplicatePlugin`; missing id → `PluginNotFound`; missing symbol →
`PluginSymbol`".  The tests name them `DuplicatePluginException` and
`PluginNotFoundException`.  A plug-in file that is not found is reported as
`PluginNotFound` of the name. -/
inductive PluginException where
  | DuplicatePlugin (plugin_id : String)
  | PluginNotFound (what : String)
  | PluginSymbol (plugin_name : String)
  deriving DecidableEq, Repr

/-- What happens to plug-in objects and libraries, in order. -/
inductive PluginAction where
  | created (handle instance_ptr : Nat)
  | ran (instance_ptr : Nat)
  | destroyed (instance_ptr : Nat)
  | unloaded (handle : Nat)
  deriving DecidableEq, Repr

/-- Modelled from the spec: the class `PluginManager`, whose header
`plugin_manager.hpp` is not in the tree: the map from plug-in id to entry,
and the actions performed so far. -/
structure PluginManager where
  m_plugin_map : List (String × PluginEntry)
  actions : List PluginAction
  deriving DecidableEq, Repr

/-- The entry stored under an id, if any. -/
def findPlugin (plugin_id : String) : List (String × PluginEntry) → Option PluginEntry
  | [] => none
  | kv :: rest => if kv.1 = plugin_id then some kv.2 else findPlugin plugin_id rest

/-- Modelled from the spec: a newly constructed `PluginManager`. -/
def PluginManager.create : PluginManager := { m_plugin_map := [], actions := [] }

/-- Modelled from the spec: `PluginManager::empty`. -/
def PluginManager.empty (m : PluginManager) : Bool := m.m_plugin_map.isEmpty

/-- Modelled from the spec: `PluginManager::get`, the plug-in object stored
under an id, `none` (a null pointer) when there is none. -/
def PluginManager.get (m : PluginManager) (plugin_id : String) : Option Nat :=
  (findPlugin plugin_id m.m_plugin_map).map PluginEntry.instance_ptr

/-- Modelled from the spec: `PluginManager::load`; "`load(id, name)` searches
a configured path list and platform extensions, resolves two C-linkage
symbols, invokes create, stores the instance", "Duplicate id →
`DuplicatePlugin`", "missing symbol → `PluginSymbol`".  `search` is the
outcome of the search for a name.  The result is the exception thrown, if
any, the manager afterwards and the object returned. -/
def PluginManager.load (search : String → Option PluginLibrary) (m : PluginManager)
    (plugin_id plugin_name : String) : Option PluginException × PluginManager × Option Nat :=
  match findPlugin plugin_id m.m_plugin_map with
  | some _ => (some (PluginException.DuplicatePlugin plugin_id), m, none)
  | none =>
    match search plugin_name with
    | none => (some (PluginException.PluginNotFound plugin_name), m, none)
    | some lib =>
      match lib.create_fn with
      | none => (some (PluginException.PluginSymbol plugin_name), m, none)
      | some obj =>
        if lib.destroy_fn then
          (none,
            { m_plugin_map := m.m_plugin_map ++ [(plugin_id, { library := lib, instance_ptr := obj })]
              actions := m.actions ++ [PluginAction.created lib.handle obj] },
            some obj)
        else
          (some (PluginException.PluginSymbol plugin_name), m, none)

/-- Modelled from the spec: `PluginManager::remove`; "`remove(id)` calls
destroy then unloads the handle", "missing id → `PluginNotFound`". -/
def PluginManager.remove (m : PluginManager) (plugin_id : String) :
    Option PluginException × PluginManager :=
  match findPlugin plugin_id m.m_plugin_map with
  | none => (some (PluginException.PluginNotFound plugin_id), m)
  | some entry =>
    (none,
      { m_plugin_map := m.m_plugin_map.filter (fun kv => kv.1 ≠ plugin_id)
        actions := m.actions
          ++ [PluginAction.destroyed entry.instance_ptr, PluginAction.unloaded entry.library.handle] })

/-- Modelled from the spec: `PluginManager::run`, which hands the plug-in
object stored under an id to a function; "missing id → `PluginNotFound`". -/
def PluginManager.run (m : PluginManager) (plugin_id : String)
    (f : Nat → PluginManager → PluginManager) : Option PluginException × PluginManager :=
  match findPlugin plugin_id m.m_plugin_map with
  | none => (some (PluginException.PluginNotFound plugin_id), m)
  | some entry =>
    (none, f entry.instance_ptr { m with actions := m.actions ++ [PluginAction.ran entry.instance_ptr] })

/-- Modelled from the spec: `PluginManager::clear`; "`clear()` removes all". -/
def PluginManager.clear (m : PluginManager) : PluginManager :=
  { m_plugin_map := []
    actions := m.actions
      ++ (m.m_plugin_map.map (fun kv =>
            [PluginAction.destroyed kv.2.instance_ptr,
             PluginAction.unloaded kv.2.library.handle])).flatten }

/-! ### Concrete inputs: the fixtures of the plug-in manager tests -/

/-- The plug-in directory of the tests: one library, `hasCreateAndDestroy`. -/
def testPlugins : String → Option PluginLibrary :=
  fun name =>
    if name = "hasCreateAndDestroy" then
      some { handle := 1, create_fn := some 100, destroy_fn := true }
    else none

/-- The fixture `PluginManagerWithPluginLoaded_F`: a new manager after
`load("urn:id_1", "hasCreateAndDestroy")`. -/
def managerWithPluginLoaded : PluginManager :=
  (PluginManager.create.load testPlugins "urn:id_1" "hasCreateAndDestroy").2.1

/-- A function for `run` that does nothing. -/
def noRunFunction : Nat → PluginManager → PluginManager := fun _ m => m

/-! ## PionScheduler -/

/-- Where a call of `shutdown()` stands: not called (or returned), waiting on
the condition `m_no_more_active_users`, or joining the worker threads. -/
inductive ShutdownProgress where
  | not_called
  | waiting_for_users
  | joining_threads
  deriving DecidableEq, Repr

/-- The members of a `PionScheduler` that count (`PionScheduler.hpp`), and the
progress of a call of `shutdown()`. -/
structure PionScheduler where
  m_running_threads : Nat
  m_num_threads : Nat
  m_active_users : Nat
  m_is_running : Bool
  shutdown_progress : ShutdownProgress
  deriving DecidableEq, Repr

/-- The constructor `PionScheduler()`; the value of `DEFAULT_NUM_THREADS` is
not in the tree and is a parameter. -/
def PionScheduler.create (default_num_threads : Nat) : PionScheduler :=
  { m_running_threads := 0, m_num_threads := default_num_threads, m_active_users := 0,
    m_is_running := false, shutdown_progress := ShutdownProgress.not_called }

/-- What can happen to a scheduler, one thread at a time: calls of
`startup()`, `addActiveUser()` and `removeActiveUser()`; `shutdown()` being
entered; the waiting `shutdown()` finding that there are no active users; a
worker thread leaving its loop; `shutdown()` returning. -/
inductive SchedulerEvent where
  | startup
  | addActiveUser
  | removeActiveUser
  | shutdownCalled
  | noMoreActiveUsers
  | workerExits
  | shutdownReturns
  deriving DecidableEq, Repr

/-- Modelled from the spec: the member functions of `PionScheduler`, which are
declared in `PionScheduler.hpp` and defined in a file that is not in the
tree, as steps on the state; `none` when the event cannot happen in the
state.  "`startup()` is idempotent; it spawns `n` worker threads, each of
which runs the I/O reactor until `running` is cleared."  "`shutdown()` clears
`running`, stops the I/O reactor, waits (on a condition variable) until
`active_users == 0`, then joins and releases the thread vector.
`add_active_user()` defers shutdown even after an explicit call;
`remove_active_user()` reaching zero signals the condition."  The state is
"protected by a single mutex": `shutdown()` holds it from the end of its wait
to its return, so no user is added or removed while it joins the threads.  A
call of `removeActiveUser()` matches an earlier `addActiveUser()`. -/
def PionScheduler.step (s : PionScheduler) : SchedulerEvent → Option PionScheduler
  | SchedulerEvent.startup =>
    if s.m_is_running then some s
    else if s.shutdown_progress = ShutdownProgress.not_called ∧ s.m_running_threads = 0 then
      some { s with m_is_running := true, m_running_threads := s.m_num_threads }
    else none
  | SchedulerEvent.addActiveUser =>
    if s.shutdown_progress = ShutdownProgress.joining_threads then none
    else some { s with m_active_users := s.m_active_users + 1 }
  | SchedulerEvent.removeActiveUser =>
    if s.shutdown_progress = ShutdownProgress.joining_threads ∨ s.m_active_users = 0 then none
    else some { s with m_active_users := s.m_active_users - 1 }
  | SchedulerEvent.shutdownCalled =>
    if s.shutdown_progress = ShutdownProgress.not_called then
      some { s with m_is_running := false,
                    shutdown_progress := ShutdownProgress.waiting_for_users }
    else none
  | SchedulerEvent.noMoreActiveUsers =>
    if s.shutdown_progress = ShutdownProgress.waiting_for_users ∧ s.m_active_users = 0 then
      some { s with shutdown_progress := ShutdownProgress.joining_threads }
    else none
  | SchedulerEvent.workerExits =>
    if s.m_is_running = false ∧ 0 < s.m_running_threads then
      some { s with m_running_threads := s.m_running_threads - 1 }
    else none
  | SchedulerEvent.shutdownReturns =>
    if s.shutdown_progress = ShutdownProgress.joining_threads ∧ s.m_running_threads = 0 then
      some { s with shutdown_progress := ShutdownProgress.not_called }
    else none

/-- A sequence of events, from a state; `none` when one of them cannot happen. -/
def PionScheduler.run : PionScheduler → List SchedulerEvent → Option PionScheduler
  | s, [] => some s
  | s, e :: rest =>
    match s.step e with
    | none => none
    | some s1 => PionScheduler.run s1 rest

end common

end pion

/-! # Theorems -/

namespace pion
namespace net

set_option maxRecDepth 100000

/-! ## concatenateChunks -/

theorem memcpy_append (pre rest c : List Byte) :
    memcpy (pre ++ rest) pre.length c = pre ++ c ++ rest.drop c.length := by
  simp [memcpy, List.take_append_eq_append_take, List.drop_append_eq_append_drop]

theorem copyChunks_append (cs : List (List Byte)) :
    ∀ pre rest : List Byte,
      copyChunks cs pre.length (pre ++ rest) = pre ++ cs.flatten ++ rest.drop cs.flatten.length := by
  induction cs with
  | nil => intro pre rest; simp [copyChunks]
  | cons c cs ih =>
    intro pre rest
    have h := ih (pre ++ c) (rest.drop c.length)
    simp only [copyChunks, memcpy_append]
    rw [List.length_append] at h
    rw [h]
    simp [List.drop_drop, Nat.add_comm]

theorem foldl_chunk_sizes (cs : List (List Byte)) :
    ∀ a : Nat, cs.foldl (fun s c => s + c.length) a = a + cs.flatten.length := by
  induction cs with
  | nil => intro a; simp
  | cons c cs ih => intro a; simp [ih, Nat.add_assoc]

theorem sumOfChunkSizes_eq (cs : List (List Byte)) :
    sumOfChunkSizes cs = cs.flatten.length := by
  simp [sumOfChunkSizes, foldl_chunk_sizes]

theorem concatenateChunks_length (m : HTTPMessage) :
    m.concatenateChunks.content_length = m.chunk_buffers.flatten.length := by
  unfold HTTPMessage.concatenateChunks
  simp only [sumOfChunkSizes_eq, HTTPMessage.setContentLength, HTTPMessage.createContentBuffer]
  split <;> rfl

theorem concatenateChunks_getContent (m : HTTPMessage) :
    m.concatenateChunks.getContent = m.chunk_buffers.flatten := by
  unfold HTTPMessage.concatenateChunks
  simp only [sumOfChunkSizes_eq, HTTPMessage.setContentLength, HTTPMessage.createContentBuffer]
  split
  · have h := copyChunks_append m.chunk_buffers []
      (List.replicate m.chunk_buffers.flatten.length 0 ++ [0])
    simp only [List.length_nil, List.nil_append] at h
    simp only [HTTPMessage.getContent, Option.map, h]
    exact List.take_left' rfl
  · rename_i h
    have h0 : m.chunk_buffers.flatten.length = 0 := by omega
    have h1 : m.chunk_buffers.flatten = [] := List.length_eq_zero.mp h0
    rw [h1]
    simp [HTTPMessage.getContent]
    cases m.content_buf <;> simp

/-- C3: for every list of chunk buffers held by a message, `concatenateChunks`
sets the content length to the sum of the chunk sizes and the content to the
chunks' bytes concatenated in list order; so every other chunk list with the
same concatenation yields the same content and the same content length. -/
theorem concatenateChunks_content (m : HTTPMessage) :
    m.concatenateChunks.getContentLength = (m.chunk_buffers.map List.length).sum
    ∧ m.concatenateChunks.getContent = m.chunk_buffers.flatten
    ∧ ∀ chunks : List (List Byte), chunks.flatten = m.chunk_buffers.flatten →
        (HTTPMessage.concatenateChunks { m with chunk_buffers := chunks }).getContent
            = m.concatenateChunks.getContent
        ∧ (HTTPMessage.concatenateChunks { m with chunk_buffers := chunks }).getContentLength
            = m.concatenateChunks.getContentLength := by
  refine ⟨?_, concatenateChunks_getContent m, ?_⟩
  · simp [HTTPMessage.getContentLength, concatenateChunks_length, List.length_flatten]
  · intro chunks h
    simp [HTTPMessage.getContentLength, concatenateChunks_length, concatenateChunks_getContent, h]

/-- C3, on the body `Hello World` held as the chunks `Hello`, an empty chunk and ` World`:
the content is the eleven bytes, as it is for the split `Hello ` and `World`. -/
theorem concatenateChunks_content_witness :
    [bytesOf "Hello ", bytesOf "World"].flatten
        = [bytesOf "Hello", [], bytesOf " World"].flatten
    ∧ (HTTPMessage.concatenateChunks
        { emptyMessage with chunk_buffers := [bytesOf "Hello ", bytesOf "World"] }).getContent
        = (HTTPMessage.concatenateChunks
            { emptyMessage with
              chunk_buffers := [bytesOf "Hello", [], bytesOf " World"] }).getContent
    ∧ (HTTPMessage.concatenateChunks
        { emptyMessage with
          chunk_buffers := [bytesOf "Hello", [], bytesOf " World"] }).getContentLength = 11 :=
  ⟨by decide,
   ((concatenateChunks_content
      { emptyMessage with chunk_buffers := [bytesOf "Hello", [], bytesOf " World"] }).2.2
      [bytesOf "Hello ", bytesOf "World"] (by decide)).1,
   by decide⟩

/-! ## Outcome of `receive` -/

theorem receiveFinish_outcome {σ : Type} (P : HTTPParser σ) (is_request : Bool)
    (n : Nat) (p : σ) (m : HTTPMessage) (c : TCPConnection) (e : error_code)
    (s : List SocketEvent) (f : Bool) (hf : f = readsUntilClose is_request m)
    (hu : m.is_chunked = m.hasChunkedTransferEncoding)
    (hz : m.is_chunked = false →
          (m.isContentLengthImplied is_request = true
            ∨ (is_request = true ∧ m.hasHeader HEADER_CONTENT_LENGTH = false)) →
          m.content_length = 0 ∧ m.content_buf = some [0]) :
    ReceiveOutcome P is_request c.lifecycle c.read_position
      (receiveFinish P is_request f n p m c e s) :=
  Or.inr ⟨n, p, m, c, e, s, by rw [hf], rfl, rfl, hu, hz⟩

theorem receiveAbort_outcome {σ : Type} (P : HTTPParser σ) (is_request : Bool)
    (e : error_code) (he : e ≠ error_code.success) (p : σ) (m : HTTPMessage)
    (c : TCPConnection) (s : List SocketEvent) (f : Bool) :
    ReceiveOutcome P is_request c.lifecycle c.read_position (receiveAbort P e p m c s f) :=
  Or.inl ⟨he, rfl, rfl⟩

theorem concatenateChunks_fields (m : HTTPMessage) :
    m.concatenateChunks.headers = m.headers
    ∧ m.concatenateChunks.is_chunked = m.is_chunked
    ∧ m.concatenateChunks.status_code = m.status_code
    ∧ m.concatenateChunks.request_method = m.request_method := by
  unfold HTTPMessage.concatenateChunks
  simp only [HTTPMessage.setContentLength, HTTPMessage.createContentBuffer]
  split <;> simp

/-- Facts about a message that depend only on its headers, status, request
method and chunked flag carry over to any message that agrees on these. -/
theorem header_facts_congr (is_request : Bool) (m m1 : HTTPMessage)
    (hh : m1.headers = m.headers) (hc : m1.is_chunked = m.is_chunked)
    (hs : m1.status_code = m.status_code) (hr : m1.request_method = m.request_method) :
    readsUntilClose is_request m1 = readsUntilClose is_request m
    ∧ m1.isContentLengthImplied is_request = m.isContentLengthImplied is_request
    ∧ m1.hasHeader HEADER_CONTENT_LENGTH = m.hasHeader HEADER_CONTENT_LENGTH
    ∧ m1.hasChunkedTransferEncoding = m.hasChunkedTransferEncoding := by
  refine ⟨?_, ?_, ?_, ?_⟩
  · simp [readsUntilClose, HTTPMessage.isChunked, HTTPMessage.isContentLengthImplied,
      HTTPMessage.hasHeader, hh, hc, hs, hr]
  · simp [HTTPMessage.isContentLengthImplied, hs, hr]
  · simp [HTTPMessage.hasHeader, hh]
  · simp [HTTPMessage.hasChunkedTransferEncoding, HTTPMessage.getHeader, hh]

theorem readsUntilClose_chunked (is_request : Bool) (m : HTTPMessage)
    (hc : m.is_chunked = true) : readsUntilClose is_request m = false := by
  simp [readsUntilClose, HTTPMessage.isChunked, hc]

theorem receiveChunks_outcome {σ : Type} (P : HTTPParser σ) (is_request : Bool)
    (socket : List SocketEvent) :
    ∀ (p : σ) (m : HTTPMessage) (c : TCPConnection) (e : error_code),
      m.is_chunked = true → m.is_chunked = m.hasChunkedTransferEncoding →
      ReceiveOutcome P is_request c.lifecycle c.read_position
        (receiveChunks P is_request p m c e socket) := by
  have fin : ∀ (p : σ) (m : HTTPMessage) (c : TCPConnection) (e : error_code)
      (s : List SocketEvent) (chunks : List (List Byte)),
      m.is_chunked = true → m.is_chunked = m.hasChunkedTransferEncoding →
      ReceiveOutcome P is_request c.lifecycle c.read_position
        (receiveFinish P is_request false 0 p
          (HTTPMessage.concatenateChunks { m with chunk_buffers := chunks }) c e s) := by
    intro p m c e s chunks hc hu
    obtain ⟨h1, h2, h3, h4⟩ := concatenateChunks_fields { m with chunk_buffers := chunks }
    obtain ⟨g1, _, _, g4⟩ := header_facts_congr is_request m _ h1 h2 h3 h4
    have hc2 : (HTTPMessage.concatenateChunks { m with chunk_buffers := chunks }).is_chunked
        = true := by rw [h2]; exact hc
    refine receiveFinish_outcome P is_request _ _ _ _ _ _ _ ?_ ?_ ?_
    · rw [readsUntilClose_chunked _ _ hc2]
    · rw [g4, h2]; exact hu
    · intro h; rw [hc2] at h; cases h
  induction socket with
  | nil =>
    intro p m c e hc hu
    rw [receiveChunks.eq_def]
    simp only []
    split
    · exact receiveAbort_outcome P is_request _ (by decide) _ _ _ _ _
    · split
      · exact fin _ m c e _ _ hc hu
      · exact receiveAbort_outcome P is_request _ (by decide) _ _ _ _ _
  | cons ev rest ih =>
    intro p m c e hc hu
    rw [receiveChunks.eq_def]
    simp only []
    split
    · exact receiveAbort_outcome P is_request _ (by decide) _ _ _ _ _
    · split
      · exact fin _ m c e _ _ hc hu
      · cases ev with
        | error => exact receiveAbort_outcome P is_request _ (by decide) _ _ _ _ _
        | data bytes =>
          exact ih _ { m with chunk_buffers := _ } { c with read_buffer := bytes } _ hc hu

theorem receiveUntilClose_outcome {σ : Type} (P : HTTPParser σ)
    (socket : List SocketEvent) :
    ∀ (p : σ) (m : HTTPMessage) (c : TCPConnection) (n : Nat),
      readsUntilClose false m = true → m.is_chunked = m.hasChunkedTransferEncoding →
      ReceiveOutcome P false c.lifecycle c.read_position
        (receiveUntilClose P false p m c n socket) := by
  have fin : ∀ (p : σ) (m : HTTPMessage) (c : TCPConnection) (e : error_code)
      (s : List SocketEvent) (n : Nat) (chunks : List (List Byte)),
      readsUntilClose false m = true → m.is_chunked = m.hasChunkedTransferEncoding →
      ReceiveOutcome P false c.lifecycle c.read_position
        (receiveFinish P false true n p
          (HTTPMessage.concatenateChunks { m with chunk_buffers := chunks }) c e s) := by
    intro p m c e s n chunks hr hu
    obtain ⟨h1, h2, h3, h4⟩ := concatenateChunks_fields { m with chunk_buffers := chunks }
    obtain ⟨g1, g2, _, g4⟩ := header_facts_congr false m _ h1 h2 h3 h4
    refine receiveFinish_outcome P false _ _ _ _ _ _ _ ?_ ?_ ?_
    · rw [g1, hr]
    · rw [g4, h2]; exact hu
    · intro _ h
      rw [g2] at h
      simp [readsUntilClose] at hr
      rcases h with h | h
      · rw [hr.1.2] at h; cases h
      · cases h.1
  induction socket with
  | nil =>
    intro p m c n hr hu
    rw [receiveUntilClose.eq_def]
    exact fin _ m c _ _ _ _ hr hu
  | cons ev rest ih =>
    intro p m c n hr hu
    rw [receiveUntilClose.eq_def]
    cases ev with
    | error => exact fin _ m c _ _ _ _ hr hu
    | data bytes =>
      simp only []
      split
      · exact fin _ m c _ _ _ _ hr hu
      · exact ih _ { m with chunk_buffers := _ } { c with read_buffer := bytes } _ hr hu

theorem receiveContentLength_outcome {σ : Type} (P : HTTPParser σ) (is_request : Bool)
    (p : σ) (m : HTTPMessage) (c : TCPConnection) (e : error_code)
    (socket : List SocketEvent)
    (hi : m.isContentLengthImplied is_request = false)
    (hl : m.hasHeader HEADER_CONTENT_LENGTH = true)
    (hu : m.is_chunked = m.hasChunkedTransferEncoding) :
    ReceiveOutcome P is_request c.lifecycle c.read_position
      (receiveContentLength P is_request p m c e socket) := by
  have fin : ∀ (p : σ) (c : TCPConnection) (e : error_code) (s : List SocketEvent)
      (n len : Nat) (buf : Option (List Byte)),
      ReceiveOutcome P is_request c.lifecycle c.read_position
        (receiveFinish P is_request false n p
          { m with content_length := len, content_buf := buf } c e s) := by
    intro p c e s n len buf
    obtain ⟨g1, g2, g3, g4⟩ := header_facts_congr is_request m
      { m with content_length := len, content_buf := buf } rfl rfl rfl rfl
    refine receiveFinish_outcome P is_request _ _ _ _ _ _ _ ?_ ?_ ?_
    · rw [g1]; simp [readsUntilClose, hl]
    · rw [g4]; exact hu
    · intro _ h
      rw [g2, g3, hi, hl] at h
      rcases h with h | h
      · cases h
      · cases h.2
  unfold receiveContentLength
  simp only []
  split
  · split
    · exact receiveAbort_outcome P is_request _ (by decide) _ _ _ _ _
    · exact fin _ _ _ _ _ _ _
  · exact fin _ _ _ _ _ _ _

theorem receiveContent_outcome {σ : Type} (P : HTTPParser σ) (is_request : Bool)
    (p : σ) (m : HTTPMessage) (c : TCPConnection) (e : error_code)
    (socket : List SocketEvent) :
    ReceiveOutcome P is_request c.lifecycle c.read_position
      (receiveContent P is_request p m c e socket) := by
  have hu : m.updateTransferCodingUsingHeader.is_chunked
      = m.updateTransferCodingUsingHeader.hasChunkedTransferEncoding := by
    simp [HTTPMessage.updateTransferCodingUsingHeader, HTTPMessage.hasChunkedTransferEncoding,
      HTTPMessage.getHeader]
  have fin : ∀ (m1 : HTTPMessage), m1.is_chunked = m1.hasChunkedTransferEncoding →
      readsUntilClose is_request m1 = false →
      ReceiveOutcome P is_request c.lifecycle c.read_position
        (receiveFinish P is_request false 0 p
          (m1.setContentLength 0).createContentBuffer c e socket) := by
    intro m1 hu1 hr
    obtain ⟨g1, g2, g3, g4⟩ := header_facts_congr is_request m1
      (m1.setContentLength 0).createContentBuffer rfl rfl rfl rfl
    refine receiveFinish_outcome P is_request _ _ _ _ _ _ _ ?_ ?_ ?_
    · rw [g1, hr]
    · rw [g4]; exact hu1
    · intro _ _
      simp [HTTPMessage.setContentLength, HTTPMessage.createContentBuffer]
  unfold receiveContent
  simp only []
  split
  · rename_i hc
    exact receiveChunks_outcome P is_request socket _ _ _ _ hc hu
  · rename_i hc
    split
    · rename_i hi
      split
      · rename_i hl
        exact receiveContentLength_outcome P is_request _ _ _ _ _ (by simpa using hi) hl hu
      · rename_i hl
        split
        · rename_i hq
          have hq1 : is_request = false := by simpa using hq
          subst hq1
          have hr : readsUntilClose false m.updateTransferCodingUsingHeader = true := by
            simp only [readsUntilClose]
            simp at hc hi hl
            simp [hc, hi, hl]
          have := receiveUntilClose_outcome P socket p
            { m.updateTransferCodingUsingHeader with chunk_buffers := [] } c 0 hr hu
          exact this
        · rename_i hq
          refine fin _ hu ?_
          simp at hq
          simp [readsUntilClose, hq]
    · rename_i hi
      refine fin _ hu ?_
      simp at hi
      simp [readsUntilClose, hi]

theorem receiveHeaders_outcome {σ : Type} (P : HTTPParser σ) (is_request : Bool)
    (socket : List SocketEvent) :
    ∀ (p : σ) (m : HTTPMessage) (c : TCPConnection) (e : error_code),
      ReceiveOutcome P is_request c.lifecycle c.read_position
        (receiveHeaders P is_request p m c e socket) := by
  induction socket with
  | nil =>
    intro p m c e
    rw [receiveHeaders.eq_def]
    simp only []
    split
    · exact receiveAbort_outcome P is_request _ (by decide) _ _ _ _ _
    · split
      · exact receiveAbort_outcome P is_request _ (by decide) _ _ _ _ _
      · exact receiveContent_outcome P is_request _ _ _ _ _
  | cons ev rest ih =>
    intro p m c e
    rw [receiveHeaders.eq_def]
    simp only []
    split
    · cases ev with
      | error => exact receiveAbort_outcome P is_request _ (by decide) _ _ _ _ _
      | data bytes => exact ih _ _ { c with read_buffer := bytes } _
    · split
      · exact receiveAbort_outcome P is_request _ (by decide) _ _ _ _ _
      · exact receiveContent_outcome P is_request _ _ _ _ _

/-- Every call of `receive` either returns with the error code set and the
connection's lifecycle and bookmark untouched, or runs through
`receiveFinish`. -/
theorem receive_outcome {σ : Type} (P : HTTPParser σ) (is_request : Bool)
    (msg : HTTPMessage) (tcp_conn : TCPConnection) (ec : error_code)
    (socket : List SocketEvent) :
    ReceiveOutcome P is_request tcp_conn.lifecycle tcp_conn.read_position
      (receive P is_request msg tcp_conn ec socket) := by
  unfold receive
  simp only []
  split
  · exact receiveHeaders_outcome P is_request socket _ _ tcp_conn _
  · cases socket with
    | nil => exact Or.inl ⟨by simp, rfl, rfl⟩
    | cons ev rest =>
      cases ev with
      | error => exact Or.inl ⟨by simp, rfl, rfl⟩
      | data bytes =>
        exact receiveHeaders_outcome P is_request rest _ _ { tcp_conn with read_buffer := bytes } _

theorem finish_header_facts (is_request : Bool) (m m1 : HTTPMessage)
    (h : m1 = if is_request then finishRequest m else finishResponse m) :
    readsUntilClose is_request m1 = readsUntilClose is_request m
    ∧ m1.isContentLengthImplied is_request = m.isContentLengthImplied is_request
    ∧ m1.hasHeader HEADER_CONTENT_LENGTH = m.hasHeader HEADER_CONTENT_LENGTH
    ∧ m1.hasChunkedTransferEncoding = m.hasChunkedTransferEncoding
    ∧ m1.is_chunked = m.is_chunked
    ∧ m1.content_length = m.content_length
    ∧ m1.content_buf = m.content_buf := by
  subst h
  cases is_request
  · obtain ⟨g1, g2, g3, g4⟩ := header_facts_congr false m (finishResponse m) rfl rfl rfl rfl
    exact ⟨g1, g2, g3, g4, rfl, rfl, rfl⟩
  · obtain ⟨g1, g2, g3, g4⟩ := header_facts_congr true m (finishRequest m) rfl rfl rfl rfl
    exact ⟨g1, g2, g3, g4, rfl, rfl, rfl⟩

/-- C1, as amended: after every successful `receive` whose content was not read
until the peer closed, the lifecycle is KeepAlive with the bookmark untouched
when `checkKeepAlive()` holds and the parser is at the end of its input,
Pipelined with the parser's read position as bookmark when `checkKeepAlive()`
holds and bytes remain, and Close otherwise; when the content was read until
the peer closed (`force_connection_closed`: a response that is not chunked,
has no implied content length and no `Content-Length` header) the lifecycle
is Close and the bookmark is untouched. -/
theorem receive_sets_lifecycle {σ : Type} (P : HTTPParser σ) (is_request : Bool)
    (msg : HTTPMessage) (tcp_conn : TCPConnection) (ec : error_code)
    (socket : List SocketEvent) (r : ReceiveResult σ)
    (hr : receive P is_request msg tcp_conn ec socket = r)
    (hs : r.ec = error_code.success) :
    r.force_connection_closed = readsUntilClose is_request r.msg
    ∧ (readsUntilClose is_request r.msg = false → r.msg.checkKeepAlive = true →
        P.eof r.httpParser = true →
          r.tcp_conn.lifecycle = LifecycleType.LIFECYCLE_KEEPALIVE
          ∧ r.tcp_conn.read_position = tcp_conn.read_position)
    ∧ (readsUntilClose is_request r.msg = false → r.msg.checkKeepAlive = true →
        P.eof r.httpParser = false →
          r.tcp_conn.lifecycle = LifecycleType.LIFECYCLE_PIPELINED
          ∧ r.tcp_conn.read_position = some (P.loadReadPosition r.httpParser))
    ∧ (readsUntilClose is_request r.msg = true ∨ r.msg.checkKeepAlive = false →
          r.tcp_conn.lifecycle = LifecycleType.LIFECYCLE_CLOSE
          ∧ r.tcp_conn.read_position = tcp_conn.read_position) := by
  have ho := receive_outcome P is_request msg tcp_conn ec socket
  rw [hr] at ho
  rcases ho with ⟨hne, _, _⟩ | ⟨n, p, m, c, e, s, rfl, hl, hp, hu, hz⟩
  · exact absurd hs hne
  · obtain ⟨g1, _⟩ := finish_header_facts is_request m _ rfl
    have hm : (receiveFinish P is_request (readsUntilClose is_request m) n p m c e s).msg
        = if is_request then finishRequest m else finishResponse m := rfl
    have hpar : (receiveFinish P is_request (readsUntilClose is_request m) n p m c e s).httpParser
        = p := rfl
    have hf : (receiveFinish P is_request (readsUntilClose is_request m) n p m c e s).force_connection_closed
        = readsUntilClose is_request m := rfl
    rw [hm, hpar, hf, g1]
    refine ⟨rfl, ?_, ?_, ?_⟩
    · intro h1 h2 h3
      simp [receiveFinish, h1, h2, h3, TCPConnection.setLifecycle, hp]
    · intro h1 h2 h3
      simp [receiveFinish, h1, h2, h3, TCPConnection.setLifecycle,
        TCPConnection.saveReadPosition]
    · intro h
      rcases h with h | h
      · simp [receiveFinish, h, TCPConnection.setLifecycle, hp]
      · simp [receiveFinish, h, TCPConnection.setLifecycle, hp]


/-- C1, as amended, on two requests `GET / HTTP/1.1` sent as one write: the
first `receive` succeeds, leaves the connection Pipelined and saves the
bookmark (18, 36), the position of the second request in the read buffer. -/
theorem receive_sets_lifecycle_witness :
    receivePipelinedFirst.ec = error_code.success
    ∧ receivePipelinedFirst.tcp_conn.lifecycle = LifecycleType.LIFECYCLE_PIPELINED
    ∧ receivePipelinedFirst.tcp_conn.read_position = some { read_ptr := 18, read_end_ptr := 36 } :=
  ⟨by decide,
   ((receive_sets_lifecycle (scriptedParser scriptGet) true emptyMessage freshConnection
      error_code.success _ receivePipelinedFirst rfl (by decide)).2.2.1
      (by decide) (by decide) (by decide)).1,
   ((receive_sets_lifecycle (scriptedParser scriptGet) true emptyMessage freshConnection
      error_code.success _ receivePipelinedFirst rfl (by decide)).2.2.1
      (by decide) (by decide) (by decide)).2⟩

/-- C1 as stated fails: the response `HTTP/1.1 200 OK` without `Content-Length`
whose body `hello` ends when the peer closes is received successfully, its
`checkKeepAlive()` is true and the parser is at the end of its input, yet the
lifecycle is Close, not KeepAlive. -/
theorem receive_lifecycle_not_only_keepalive :
    receive200UntilClose.ec = error_code.success
    ∧ receive200UntilClose.msg.checkKeepAlive = true
    ∧ (scriptedParser script200).eof receive200UntilClose.httpParser = true
    ∧ receive200UntilClose.msg.getContent = bytesOf "hello"
    ∧ receive200UntilClose.tcp_conn.lifecycle = LifecycleType.LIFECYCLE_CLOSE
    ∧ receive200UntilClose.tcp_conn.lifecycle ≠ LifecycleType.LIFECYCLE_KEEPALIVE := by
  decide

/-- C2, as amended: for every response whose status code is in 100..199, or
204, or 304, and whose `Transfer-Encoding` header does not say chunked, a
successful `receive` leaves the message with content length 0 and empty
content, whatever other headers the response carries, `Content-Length`
included. -/
theorem receive_implied_content_empty {σ : Type} (P : HTTPParser σ)
    (msg : HTTPMessage) (tcp_conn : TCPConnection) (ec : error_code)
    (socket : List SocketEvent) (r : ReceiveResult σ)
    (hr : receive P false msg tcp_conn ec socket = r)
    (hs : r.ec = error_code.success)
    (hst : (100 ≤ r.msg.status_code ∧ r.msg.status_code ≤ 199)
      ∨ r.msg.status_code = 204 ∨ r.msg.status_code = 304)
    (hc : r.msg.hasChunkedTransferEncoding = false) :
    r.msg.getContentLength = 0 ∧ r.msg.getContent = [] ∧ r.msg.content_buf = some [0] := by
  have hi : r.msg.isContentLengthImplied false = true := by
    rcases hst with ⟨h1, h2⟩ | h | h
    · simp [HTTPMessage.isContentLengthImplied, h1, h2]
    · simp [HTTPMessage.isContentLengthImplied, h]
    · simp [HTTPMessage.isContentLengthImplied, h]
  have ho := receive_outcome P false msg tcp_conn ec socket
  rw [hr] at ho
  rcases ho with ⟨hne, _, _⟩ | ⟨n, p, m, c, e, s, rfl, hl, hp, hu, hz⟩
  · exact absurd hs hne
  · obtain ⟨_, g2, _, g4, _, _, _⟩ := finish_header_facts false m (finishResponse m) rfl
    have hm : (receiveFinish P false (readsUntilClose false m) n p m c e s).msg
        = finishResponse m := rfl
    rw [hm] at hi hc ⊢
    have hi1 : m.isContentLengthImplied false = true := by rw [← g2]; exact hi
    have hc1 : m.is_chunked = false := by rw [hu, ← g4]; exact hc
    obtain ⟨z1, z2⟩ := hz hc1 (Or.inl hi1)
    simp [HTTPMessage.getContentLength, HTTPMessage.getContent, finishResponse, z1, z2]

/-- C2, as amended, on a 304 response that carries `Content-Length: 10`: the
content length after `receive` is 0 and the content is empty. -/
theorem receive_implied_content_empty_witness :
    receive304.ec = error_code.success
    ∧ receive304.msg.status_code = 304
    ∧ receive304.msg.hasHeader HEADER_CONTENT_LENGTH = true
    ∧ receive304.msg.hasChunkedTransferEncoding = false
    ∧ receive304.msg.getContentLength = 0 ∧ receive304.msg.getContent = []
    ∧ receive304.msg.content_buf = some [0] :=
  ⟨by decide, by decide, by decide, by decide,
   receive_implied_content_empty (scriptedParser script304) emptyMessage freshConnection
     error_code.success _ receive304 rfl (by decide) (by decide) (by decide)⟩

/-- C2 as stated fails, twice.  A 204 response with `Transfer-Encoding:
chunked` and the chunked body `Hello` is received successfully and ends with
content length 5 and content `Hello`.  And a response to a HEAD request that
carries `Content-Length: 5`, received into a response object that was told it
answers a HEAD request, is not treated as a response to HEAD, because
`receive` starts with `clear()`: the 5 bytes that follow its headers, the
start of the next response, become its content. -/
theorem receive_implied_content_chunked :
    (receive204Chunked.ec = error_code.success
      ∧ receive204Chunked.msg.status_code = 204
      ∧ receive204Chunked.msg.isContentLengthImplied false = true
      ∧ receive204Chunked.msg.getContentLength = 5
      ∧ receive204Chunked.msg.getContent = bytesOf "Hello")
    ∧ (receiveHeadWithLength.ec = error_code.success
      ∧ receiveHeadWithLength.msg.status_code = 200
      ∧ receiveHeadWithLength.msg.hasChunkedTransferEncoding = false
      ∧ receiveHeadWithLength.msg.request_method = ""
      ∧ receiveHeadWithLength.msg.getContentLength = 5
      ∧ receiveHeadWithLength.msg.getContent = bytesOf "HTTP/") := by
  decide

/-- The difference of two pointers into one buffer, the end not before the
start, is the number of bytes between them. -/
theorem ptrDiff_eq_sub (read_end_ptr read_ptr : Nat) (hle : read_ptr ≤ read_end_ptr)
    (hlt : read_end_ptr < SIZE_T_MODULUS) :
    ptrDiff read_end_ptr read_ptr = read_end_ptr - read_ptr := by
  unfold ptrDiff
  have h1 : ((read_end_ptr : Int) - (read_ptr : Int)) = ((read_end_ptr - read_ptr : Nat) : Int) := by
    omega
  have h2 : read_end_ptr - read_ptr < SIZE_T_MODULUS := by omega
  rw [h1, ← Int.natCast_mod, Int.toNat_ofNat, Nat.mod_eq_of_lt h2]

/-- C4: when a call of `receive` returns with the connection's lifecycle
Pipelined, and without error, the bookmark on the connection is the parser's
read position, and the next `receive` on that connection is the header loop
started on a new parser that was given the read buffer at the bookmark's
pointer, with the socket exactly as the first call left it.  The bookmark's
two pointers lie in the read buffer, the end not before the pointer, and then
the length given to the new parser is end − pointer; the first thing the
second call does is to parse that byte range: when the parser accepts or
rejects the headers in it, the call goes on to the content, or returns the
receive error, with no read on the socket before. -/
theorem receive_pipelined_handoff {σ : Type} (P : HTTPParser σ) (is_request : Bool)
    (msg : HTTPMessage) (tcp_conn : TCPConnection) (ec : error_code)
    (socket : List SocketEvent) (r : ReceiveResult σ)
    (hr : receive P is_request msg tcp_conn ec socket = r)
    (hs : r.ec = error_code.success)
    (hp : r.tcp_conn.lifecycle = LifecycleType.LIFECYCLE_PIPELINED) :
    r.tcp_conn.read_position = some (P.loadReadPosition r.httpParser)
    ∧ (∀ (is_request2 : Bool) (msg2 : HTTPMessage) (ec2 : error_code),
        receive P is_request2 msg2 r.tcp_conn ec2 r.socket
          = receiveHeaders P is_request2
              (P.setReadBuffer (P.create is_request2) r.tcp_conn.read_buffer
                (P.loadReadPosition r.httpParser).read_ptr
                (ptrDiff (P.loadReadPosition r.httpParser).read_end_ptr
                  (P.loadReadPosition r.httpParser).read_ptr))
              (msg2.clear is_request2) r.tcp_conn ec2 r.socket)
    ∧ ((P.loadReadPosition r.httpParser).read_ptr
          ≤ (P.loadReadPosition r.httpParser).read_end_ptr →
        (P.loadReadPosition r.httpParser).read_end_ptr < SIZE_T_MODULUS →
        ∀ (is_request2 : Bool) (msg2 : HTTPMessage) (ec2 : error_code),
          receive P is_request2 msg2 r.tcp_conn ec2 r.socket
            = receiveHeaders P is_request2
                (P.setReadBuffer (P.create is_request2) r.tcp_conn.read_buffer
                  (P.loadReadPosition r.httpParser).read_ptr
                  ((P.loadReadPosition r.httpParser).read_end_ptr
                    - (P.loadReadPosition r.httpParser).read_ptr))
                (msg2.clear is_request2) r.tcp_conn ec2 r.socket
          ∧ ((P.parseHTTPHeaders
                (P.setReadBuffer (P.create is_request2) r.tcp_conn.read_buffer
                  (P.loadReadPosition r.httpParser).read_ptr
                  ((P.loadReadPosition r.httpParser).read_end_ptr
                    - (P.loadReadPosition r.httpParser).read_ptr))
                (msg2.clear is_request2)).1 = tribool.true_value →
              receive P is_request2 msg2 r.tcp_conn ec2 r.socket
                = receiveContent P is_request2
                    (P.parseHTTPHeaders
                      (P.setReadBuffer (P.create is_request2) r.tcp_conn.read_buffer
                        (P.loadReadPosition r.httpParser).read_ptr
                        ((P.loadReadPosition r.httpParser).read_end_ptr
                          - (P.loadReadPosition r.httpParser).read_ptr))
                      (msg2.clear is_request2)).2.1
                    (P.parseHTTPHeaders
                      (P.setReadBuffer (P.create is_request2) r.tcp_conn.read_buffer
                        (P.loadReadPosition r.httpParser).read_ptr
                        ((P.loadReadPosition r.httpParser).read_end_ptr
                          - (P.loadReadPosition r.httpParser).read_ptr))
                      (msg2.clear is_request2)).2.2
                    r.tcp_conn ec2 r.socket)
          ∧ ((P.parseHTTPHeaders
                (P.setReadBuffer (P.create is_request2) r.tcp_conn.read_buffer
                  (P.loadReadPosition r.httpParser).read_ptr
                  ((P.loadReadPosition r.httpParser).read_end_ptr
                    - (P.loadReadPosition r.httpParser).read_ptr))
                (msg2.clear is_request2)).1 = tribool.false_value →
              (receive P is_request2 msg2 r.tcp_conn ec2 r.socket).ec
                  = error_code.receive_error
              ∧ (receive P is_request2 msg2 r.tcp_conn ec2 r.socket).socket = r.socket)) := by
  have ho := receive_outcome P is_request msg tcp_conn ec socket
  rw [hr] at ho
  rcases ho with ⟨hne, _, _⟩ | ⟨n, p, m, c, e, s, rfl, _, _, _, _⟩
  · exact absurd hs hne
  · have hpos : (receiveFinish P is_request (readsUntilClose is_request m) n p m c e s).tcp_conn.read_position
        = some (P.loadReadPosition p) := by
      cases hk : (!readsUntilClose is_request m
          && (if is_request then finishRequest m else finishResponse m).checkKeepAlive)
      · simp [receiveFinish, hk, TCPConnection.setLifecycle] at hp
      · cases he : P.eof p
        · simp [receiveFinish, hk, he, TCPConnection.saveReadPosition]
        · simp [receiveFinish, hk, he, TCPConnection.setLifecycle] at hp
    have hg : (receiveFinish P is_request (readsUntilClose is_request m) n p m c e s).tcp_conn.getPipelined
        = true := by
      simp [TCPConnection.getPipelined, hp]
    have hpar : (receiveFinish P is_request (readsUntilClose is_request m) n p m c e s).httpParser
        = p := rfl
    have hsecond : ∀ (is_request2 : Bool) (msg2 : HTTPMessage) (ec2 : error_code),
        receive P is_request2 msg2
            (receiveFinish P is_request (readsUntilClose is_request m) n p m c e s).tcp_conn ec2
            (receiveFinish P is_request (readsUntilClose is_request m) n p m c e s).socket
          = receiveHeaders P is_request2
              (P.setReadBuffer (P.create is_request2)
                (receiveFinish P is_request (readsUntilClose is_request m) n p m c e s).tcp_conn.read_buffer
                (P.loadReadPosition p).read_ptr
                (ptrDiff (P.loadReadPosition p).read_end_ptr (P.loadReadPosition p).read_ptr))
              (msg2.clear is_request2)
              (receiveFinish P is_request (readsUntilClose is_request m) n p m c e s).tcp_conn ec2
              (receiveFinish P is_request (readsUntilClose is_request m) n p m c e s).socket := by
      intro is_request2 msg2 ec2
      simp only [receive, hg, if_true, TCPConnection.loadReadPosition, hpos, Option.getD_some]
    rw [hpar]
    refine ⟨hpos, hsecond, ?_⟩
    intro hle hlt is_request2 msg2 ec2
    have hd := ptrDiff_eq_sub _ _ hle hlt
    have h2 := hsecond is_request2 msg2 ec2
    rw [hd] at h2
    refine ⟨h2, ?_, ?_⟩
    · intro ht
      rw [h2, receiveHeaders.eq_def]
      simp [ht]
    · intro hf
      rw [h2, receiveHeaders.eq_def]
      simp [hf, receiveAbort]

/-- C4, on the requests `GET /a HTTP/1.1` with `Host: a` and `GET /b HTTP/1.1`
with `Host: b`, 28 bytes each, sent as one write and read by a parser that
looks only at the byte range it is given: the first `receive` stores the
header `Host: a`, ends Pipelined with nothing left on the socket and the
bookmark (28, 56), byte 28 being the first byte of the second request; the
second `receive` is the header loop on the 56 − 28 bytes from byte 28, reads
nothing from the socket, stores the header `Host: b` and consumes 28
bytes. -/
theorem receive_pipelined_handoff_witness :
    receiveTwoRequestsFirst.ec = error_code.success
    ∧ receiveTwoRequestsFirst.tcp_conn.lifecycle = LifecycleType.LIFECYCLE_PIPELINED
    ∧ receiveTwoRequestsFirst.msg.headers = [("Host", "a")]
    ∧ receiveTwoRequestsFirst.bytes = 28
    ∧ receiveTwoRequestsFirst.socket = []
    ∧ receiveTwoRequestsFirst.tcp_conn.read_position
        = some (requestParser.loadReadPosition receiveTwoRequestsFirst.httpParser)
    ∧ requestParser.loadReadPosition receiveTwoRequestsFirst.httpParser
        = { read_ptr := 28, read_end_ptr := 56 }
    ∧ receiveTwoRequestsSecond
        = receiveHeaders requestParser true
            (requestParser.setReadBuffer (requestParser.create true)
              receiveTwoRequestsFirst.tcp_conn.read_buffer
              (requestParser.loadReadPosition receiveTwoRequestsFirst.httpParser).read_ptr
              ((requestParser.loadReadPosition receiveTwoRequestsFirst.httpParser).read_end_ptr
                - (requestParser.loadReadPosition receiveTwoRequestsFirst.httpParser).read_ptr))
            (emptyMessage.clear true) receiveTwoRequestsFirst.tcp_conn error_code.success
            receiveTwoRequestsFirst.socket
    ∧ (requestParser.setReadBuffer (requestParser.create true)
          receiveTwoRequestsFirst.tcp_conn.read_buffer 28 (56 - 28)).available
        = bytesOf "GET /b HTTP/1.1\r\nHost: b\r\n\r\n"
    ∧ receiveTwoRequestsSecond.ec = error_code.success
    ∧ receiveTwoRequestsSecond.msg.headers = [("Host", "b")]
    ∧ receiveTwoRequestsSecond.bytes = 28
    ∧ receiveTwoRequestsSecond.socket = [] :=
  have h := receive_pipelined_handoff requestParser true emptyMessage freshConnection
    error_code.success _ receiveTwoRequestsFirst rfl (by decide) (by decide)
  ⟨by decide, by decide, by decide, by decide, by decide, h.1, by decide,
   (h.2.2 (by decide) (by decide) true emptyMessage error_code.success).1,
   by decide, by decide, by decide, by decide, by decide⟩

/-! ## HTTPResponse -/

/-- C12, as amended: the response constructed for a request has
`chunks_supported = true` exactly when the request's major version is 1 and
its minor version is at least 1; for every other version, major versions
above 1 included, the flag keeps the value false of a new message. -/
theorem forRequest_chunks_supported (http_request : HTTPMessage) :
    (HTTPResponse.forRequest http_request).toHTTPMessage.chunks_supported = true
      ↔ http_request.version_major = 1 ∧ 1 ≤ http_request.version_minor := by
  unfold HTTPResponse.forRequest
  simp only [HTTPMessage.getVersionMajor, HTTPMessage.getVersionMinor, ge_iff_le]
  split
  · rename_i h
    simp [HTTPMessage.setChunksSupported, h]
  · rename_i h
    simp only [HTTPMessage.create, emptyMessage]
    constructor
    · intro hf; cases hf
    · intro hv; exact absurd hv h

/-- C12 as stated fails: the version (2, 0) is at least (1, 1) in lexicographic
order, and the response constructed for a request of that version has
`chunks_supported = false`. -/
theorem forRequest_chunks_supported_version_2 :
    versionAtLeast11 request20
    ∧ (HTTPResponse.forRequest request20).toHTTPMessage.chunks_supported = false := by
  unfold versionAtLeast11
  decide

/-- C18, as amended: the first line of every HTTP response is the fixed string
`STRING_HTTP_VERSION` (`HTTP/1.1`), a space, the decimal rendering of the
status code, a space and the status message; for a response constructed for a
request it is the same whatever the version of that request is. -/
theorem getFirstLine_eq (r : HTTPResponse) :
    r.getFirstLine.1
        = STRING_HTTP_VERSION ++ " " ++ toString r.getStatusCode ++ " " ++ r.getStatusMessage
    ∧ r.getFirstLine.2.m_first_line = r.getFirstLine.1
    ∧ ∀ (request1 request2 : HTTPMessage) (code : Nat) (reason : String),
        (((HTTPResponse.forRequest request1).setStatusCode code).setStatusMessage
            reason).getFirstLine.1
          = (((HTTPResponse.forRequest request2).setStatusCode code).setStatusMessage
              reason).getFirstLine.1 := by
  have key : ∀ q : HTTPResponse, q.getFirstLine.1
      = STRING_HTTP_VERSION ++ " " ++ toString q.getStatusCode ++ " " ++ q.getStatusMessage := by
    intro q
    simp only [HTTPResponse.getFirstLine, HTTPResponse.getStatusCode,
      HTTPResponse.getStatusMessage, lexical_cast]
    apply String.ext
    simp [String.push, String.append, Nat.repr, List.asString]
    rfl
  refine ⟨key r, rfl, ?_⟩
  intro request1 request2 code reason
  rw [key, key]
  simp only [HTTPResponse.getStatusCode, HTTPResponse.getStatusMessage,
    HTTPResponse.setStatusCode, HTTPResponse.setStatusMessage]

/-- C18 as stated fails: the response constructed for a request of version 1.0
has the first line `HTTP/1.1 200 OK`, which does not start with the request's
version `HTTP/1.0`. -/
theorem getFirstLine_not_request_version :
    versionString request10 = "HTTP/1.0"
    ∧ (HTTPResponse.forRequest request10).getFirstLine.1 = "HTTP/1.1 200 OK"
    ∧ (HTTPResponse.forRequest request10).getFirstLine.1
        ≠ versionString request10 ++ " 200 OK" := by
  decide

/-! ## HTTPMessage::send -/

/-- When the content length is positive, the content buffer exists and its
first byte is not NUL, `send` hands over the header buffers followed by one
buffer with the content bytes. -/
theorem send_appends_content (prepareBuffersForSend : HTTPMessage → Bool → List (List Byte))
    (m : HTTPMessage) (tcp_conn : TCPConnection) (buf : List Byte)
    (hl : 0 < m.getContentLength) (hb : m.content_buf = some buf) (h0 : buf.headD 0 ≠ 0) :
    m.send prepareBuffersForSend tcp_conn
      = prepareBuffersForSend m tcp_conn.getKeepAlive ++ [m.getContent] := by
  simp only [HTTPMessage.send, hb, HTTPMessage.getContent]
  rw [if_pos ⟨hl, h0⟩]
  rfl

/-- C13 fails on the code for content that starts with a NUL byte: the message
has content length 3 and the content bytes 0, 1, 2, and `send` hands over the
header buffers only, without any buffer for the content, while the same
message with the content `abc` gets the content buffer. -/
theorem send_drops_content_starting_with_nul :
    binaryMessage.getContentLength = 3
    ∧ binaryMessage.getContent = [0, 1, 2]
    ∧ binaryMessage.send exampleHeaderBuffers freshConnection
        = exampleHeaderBuffers binaryMessage freshConnection.getKeepAlive
    ∧ binaryMessage.send exampleHeaderBuffers freshConnection
        ≠ exampleHeaderBuffers binaryMessage freshConnection.getKeepAlive
            ++ [binaryMessage.getContent]
    ∧ textMessage.send exampleHeaderBuffers freshConnection
        = exampleHeaderBuffers textMessage freshConnection.getKeepAlive
            ++ [textMessage.getContent] := by
  decide

/-! ## Rejected messages -/

theorem receiveFinish_reject {σ : Type} (P : HTTPParser σ) (is_request f : Bool)
    (n : Nat) (p : σ) (m : HTTPMessage) (c : TCPConnection) (e : error_code)
    (s : List SocketEvent) (lc : LifecycleType) (rp : Option ReadPosition)
    (he : e ≠ error_code.receive_error) :
    RejectOutcome P lc rp (receiveFinish P is_request f n p m c e s) :=
  fun h => absurd h he

theorem receiveAbort_reject {σ : Type} (P : HTTPParser σ) (e : error_code) (p : σ)
    (m : HTTPMessage) (c : TCPConnection) (s : List SocketEvent) :
    RejectOutcome P c.lifecycle c.read_position (receiveAbort P e p m c s false) :=
  fun _ => ⟨rfl, rfl, rfl, rfl⟩

theorem receiveChunks_reject {σ : Type} (P : HTTPParser σ) (is_request : Bool)
    (socket : List SocketEvent) :
    ∀ (p : σ) (m : HTTPMessage) (c : TCPConnection) (e : error_code),
      e ≠ error_code.receive_error →
      RejectOutcome P c.lifecycle c.read_position (receiveChunks P is_request p m c e socket) := by
  induction socket with
  | nil =>
    intro p m c e he
    rw [receiveChunks.eq_def]
    simp only []
    split
    · exact receiveAbort_reject P _ _ _ _ _
    · split
      · exact receiveFinish_reject P _ _ _ _ _ _ _ _ _ _ he
      · exact receiveAbort_reject P _ _ _ _ _
  | cons ev rest ih =>
    intro p m c e he
    rw [receiveChunks.eq_def]
    simp only []
    split
    · exact receiveAbort_reject P _ _ _ _ _
    · split
      · exact receiveFinish_reject P _ _ _ _ _ _ _ _ _ _ he
      · cases ev with
        | error => exact receiveAbort_reject P _ _ _ _ _
        | data bytes =>
          exact ih _ { m with chunk_buffers := _ } { c with read_buffer := bytes } _ (by decide)

theorem receiveUntilClose_reject {σ : Type} (P : HTTPParser σ) (is_request : Bool)
    (socket : List SocketEvent) :
    ∀ (p : σ) (m : HTTPMessage) (c : TCPConnection) (n : Nat),
      RejectOutcome P c.lifecycle c.read_position
        (receiveUntilClose P is_request p m c n socket) := by
  induction socket with
  | nil =>
    intro p m c n
    rw [receiveUntilClose.eq_def]
    exact receiveFinish_reject P _ _ _ _ _ _ _ _ _ _ (by decide)
  | cons ev rest ih =>
    intro p m c n
    rw [receiveUntilClose.eq_def]
    cases ev with
    | error => exact receiveFinish_reject P _ _ _ _ _ _ _ _ _ _ (by decide)
    | data bytes =>
      simp only []
      split
      · exact receiveFinish_reject P _ _ _ _ _ _ _ _ _ _ (by decide)
      · exact ih _ { m with chunk_buffers := _ } { c with read_buffer := bytes } _

theorem receiveContent_reject {σ : Type} (P : HTTPParser σ) (is_request : Bool)
    (p : σ) (m : HTTPMessage) (c : TCPConnection) (e : error_code)
    (socket : List SocketEvent) (he : e ≠ error_code.receive_error) :
    RejectOutcome P c.lifecycle c.read_position (receiveContent P is_request p m c e socket) := by
  unfold receiveContent
  simp only []
  split
  · exact receiveChunks_reject P is_request socket _ _ _ _ he
  · split
    · split
      · unfold receiveContentLength
        simp only []
        split
        · split
          · exact receiveAbort_reject P _ _ _ _ _
          · exact receiveFinish_reject P _ _ _ _ _ _ _ _ _ _ (by decide)
        · exact receiveFinish_reject P _ _ _ _ _ _ _ _ _ _ he
      · split
        · exact receiveUntilClose_reject P is_request socket _ _ _ _
        · exact receiveFinish_reject P _ _ _ _ _ _ _ _ _ _ he
    · exact receiveFinish_reject P _ _ _ _ _ _ _ _ _ _ he

theorem receiveHeaders_reject {σ : Type} (P : HTTPParser σ) (is_request : Bool)
    (socket : List SocketEvent) :
    ∀ (p : σ) (m : HTTPMessage) (c : TCPConnection) (e : error_code),
      e ≠ error_code.receive_error →
      RejectOutcome P c.lifecycle c.read_position
        (receiveHeaders P is_request p m c e socket) := by
  induction socket with
  | nil =>
    intro p m c e he
    rw [receiveHeaders.eq_def]
    simp only []
    split
    · exact receiveAbort_reject P _ _ _ _ _
    · split
      · exact receiveAbort_reject P _ _ _ _ _
      · exact receiveContent_reject P is_request _ _ _ _ _ he
  | cons ev rest ih =>
    intro p m c e he
    rw [receiveHeaders.eq_def]
    simp only []
    split
    · cases ev with
      | error => exact receiveAbort_reject P _ _ _ _ _
      | data bytes => exact ih _ _ { c with read_buffer := bytes } _ (by decide)
    · split
      · exact receiveAbort_reject P _ _ _ _ _
      · exact receiveContent_reject P is_request _ _ _ _ _ he

/-- A call of `receive` with an error code that is not the receive error on
entry, and that returns the receive error, leaves the connection's lifecycle
and bookmark as they were. -/
theorem receive_reject {σ : Type} (P : HTTPParser σ) (is_request : Bool)
    (msg : HTTPMessage) (tcp_conn : TCPConnection) (ec : error_code)
    (socket : List SocketEvent) (he : ec ≠ error_code.receive_error) :
    RejectOutcome P tcp_conn.lifecycle tcp_conn.read_position
      (receive P is_request msg tcp_conn ec socket) := by
  unfold receive
  simp only []
  split
  · exact receiveHeaders_reject P is_request socket _ _ tcp_conn _ he
  · cases socket with
    | nil => intro h; simp at h
    | cons ev rest =>
      cases ev with
      | error => intro h; simp at h
      | data bytes =>
        exact receiveHeaders_reject P is_request rest _ _ { tcp_conn with read_buffer := bytes } _
          (by decide)

/-- C14, as amended: whenever the parser rejects an inbound message inside
`receive` (header parsing or chunk parsing answers false), `receive` returns
at once with the error code assigned from `RECEIVE_ERROR` and the connection
as it was; and every call of `receive` that returns this error code (the
error code being another one on entry) leaves the connection's lifecycle and
bookmark exactly as they were before the call, whatever they were. -/
theorem receive_reject_keeps_lifecycle {σ : Type} (P : HTTPParser σ) (is_request : Bool)
    (msg : HTTPMessage) (tcp_conn : TCPConnection) (ec : error_code)
    (socket : List SocketEvent) :
    (∀ (p : σ) (m : HTTPMessage) (c : TCPConnection) (e : error_code) (s : List SocketEvent),
        (P.parseHTTPHeaders p m).1 = tribool.false_value →
          (receiveHeaders P is_request p m c e s).ec = error_code.receive_error
          ∧ (receiveHeaders P is_request p m c e s).tcp_conn = c)
    ∧ (∀ (p : σ) (m : HTTPMessage) (c : TCPConnection) (e : error_code) (s : List SocketEvent),
        (P.parseChunks p m.chunk_buffers).1 = tribool.false_value →
          (receiveChunks P is_request p m c e s).ec = error_code.receive_error
          ∧ (receiveChunks P is_request p m c e s).tcp_conn = c)
    ∧ (ec ≠ error_code.receive_error →
        (receive P is_request msg tcp_conn ec socket).ec = error_code.receive_error →
          (receive P is_request msg tcp_conn ec socket).tcp_conn.lifecycle = tcp_conn.lifecycle
          ∧ (receive P is_request msg tcp_conn ec socket).tcp_conn.read_position
              = tcp_conn.read_position) := by
  refine ⟨?_, ?_, ?_⟩
  · intro p m c e s h
    rw [receiveHeaders.eq_def]
    simp only [h]
    simp [receiveAbort]
  · intro p m c e s h
    rw [receiveChunks.eq_def]
    simp only [h]
    simp [receiveAbort]
  · intro he h
    obtain ⟨h1, h2, _, _⟩ := receive_reject P is_request msg tcp_conn ec socket he h
    exact ⟨h1, h2⟩

/-- C14, as amended, on a chunked response whose first chunk size is rejected,
received on a connection in the lifecycle KeepAlive: the error code is the
receive error and the lifecycle is still KeepAlive. -/
theorem receive_reject_keeps_lifecycle_witness :
    receiveRejectedChunks.ec = error_code.receive_error
    ∧ receiveRejectedChunks.tcp_conn.lifecycle = LifecycleType.LIFECYCLE_KEEPALIVE
    ∧ receiveRejectedChunks.tcp_conn.read_position = none :=
  ⟨by decide,
   ((receive_reject_keeps_lifecycle (rejectingParser scriptBadChunk false) false emptyMessage
      keepAliveConnection error_code.success
      [SocketEvent.data
        (bytesOf "HTTP/1.1 200 OK\r\nTransfer-Encoding: chunked\r\n\r\nxyz\r\n")]).2.2
      (by decide) (by decide)).1,
   ((receive_reject_keeps_lifecycle (rejectingParser scriptBadChunk false) false emptyMessage
      keepAliveConnection error_code.success
      [SocketEvent.data
        (bytesOf "HTTP/1.1 200 OK\r\nTransfer-Encoding: chunked\r\n\r\nxyz\r\n")]).2.2
      (by decide) (by decide)).2⟩

/-- C14 as stated fails: a request whose first line the parser rejects, received
on a connection in the lifecycle KeepAlive, makes `receive` report the receive
error, and on return the lifecycle is still KeepAlive, not Close. -/
theorem receive_reject_lifecycle_not_close :
    keepAliveConnection.lifecycle = LifecycleType.LIFECYCLE_KEEPALIVE
    ∧ ((rejectingParser scriptGarbage true).parseHTTPHeaders
        ((rejectingParser scriptGarbage true).setReadBuffer
          ((rejectingParser scriptGarbage true).create true)
          (bytesOf "GARBAGE\r\n\r\n") 0 11)
        (emptyMessage.clear true)).1 = tribool.false_value
    ∧ receiveRejectedHeaders.ec = error_code.receive_error
    ∧ receiveRejectedHeaders.tcp_conn.lifecycle = LifecycleType.LIFECYCLE_KEEPALIVE
    ∧ receiveRejectedHeaders.tcp_conn.lifecycle ≠ LifecycleType.LIFECYCLE_CLOSE := by
  decide

/-! ## Requests without content -/

theorem receiveFinish_read_buffer {σ : Type} (P : HTTPParser σ) (is_request f : Bool)
    (n : Nat) (p : σ) (m : HTTPMessage) (c : TCPConnection) (e : error_code)
    (s : List SocketEvent) :
    (receiveFinish P is_request f n p m c e s).tcp_conn.read_buffer = c.read_buffer := by
  simp only [receiveFinish]
  cases (!f && (if is_request = true then finishRequest m else finishResponse m).checkKeepAlive)
  · rfl
  · cases P.eof p <;> rfl

/-- C15: for every request whose headers carry neither a chunked
`Transfer-Encoding` nor a `Content-Length` header, once the headers are
accepted `receive` reads nothing more from the connection (the socket, the
read buffer and the parser are as they were when the headers were accepted),
and the message ends with content length 0, empty content and the valid flag
set; so every successful `receive` of such a request yields content length 0,
empty content and a valid request. -/
theorem receive_request_without_content {σ : Type} (P : HTTPParser σ)
    (msg : HTTPMessage) (tcp_conn : TCPConnection) (ec : error_code)
    (socket : List SocketEvent) :
    (∀ (p : σ) (m : HTTPMessage) (c : TCPConnection) (e : error_code) (s : List SocketEvent),
        m.hasChunkedTransferEncoding = false → m.hasHeader HEADER_CONTENT_LENGTH = false →
          (receiveContent P true p m c e s).socket = s
          ∧ (receiveContent P true p m c e s).httpParser = p
          ∧ (receiveContent P true p m c e s).tcp_conn.read_buffer = c.read_buffer
          ∧ (receiveContent P true p m c e s).ec = e
          ∧ (receiveContent P true p m c e s).msg.getContentLength = 0
          ∧ (receiveContent P true p m c e s).msg.getContent = []
          ∧ (receiveContent P true p m c e s).msg.is_valid = true)
    ∧ ((receive P true msg tcp_conn ec socket).ec = error_code.success →
        (receive P true msg tcp_conn ec socket).msg.hasChunkedTransferEncoding = false →
        (receive P true msg tcp_conn ec socket).msg.hasHeader HEADER_CONTENT_LENGTH = false →
          (receive P true msg tcp_conn ec socket).msg.getContentLength = 0
          ∧ (receive P true msg tcp_conn ec socket).msg.getContent = []
          ∧ (receive P true msg tcp_conn ec socket).msg.is_valid = true) := by
  constructor
  · intro p m c e s hc hl
    have hchunk : m.updateTransferCodingUsingHeader.isChunked = false := by
      simp [HTTPMessage.updateTransferCodingUsingHeader, HTTPMessage.isChunked, hc]
    have himp : m.updateTransferCodingUsingHeader.isContentLengthImplied true = false := by
      simp [HTTPMessage.isContentLengthImplied]
    have hlen : m.updateTransferCodingUsingHeader.hasHeader HEADER_CONTENT_LENGTH = false := by
      simpa [HTTPMessage.updateTransferCodingUsingHeader, HTTPMessage.hasHeader] using hl
    have h : receiveContent P true p m c e s
        = receiveFinish P true false 0 p
            (m.updateTransferCodingUsingHeader.setContentLength 0).createContentBuffer c e s := by
      simp [receiveContent, hchunk, himp, hlen]
    rw [h]
    have hcase := receiveFinish_read_buffer P true false 0 p
      (m.updateTransferCodingUsingHeader.setContentLength 0).createContentBuffer c e s
    exact ⟨rfl, rfl, hcase, rfl, rfl, rfl, rfl⟩
  · intro hs hc hl
    have ho := receive_outcome P true msg tcp_conn ec socket
    rcases ho with ⟨hne, _, _⟩ | ⟨n, p, m, c, e, s, hr, _, _, hu, hz⟩
    · exact absurd hs hne
    · rw [hr] at hc hl ⊢
      obtain ⟨_, _, g3, g4, _, _, _⟩ := finish_header_facts true m (finishRequest m) rfl
      have hm : (receiveFinish P true (readsUntilClose true m) n p m c e s).msg
          = finishRequest m := rfl
      rw [hm] at hc hl ⊢
      have hc1 : m.is_chunked = false := by rw [hu, ← g4]; exact hc
      have hl1 : m.hasHeader HEADER_CONTENT_LENGTH = false := by rw [← g3]; exact hl
      obtain ⟨z1, z2⟩ := hz hc1 (Or.inr ⟨rfl, hl1⟩)
      simp [HTTPMessage.getContentLength, HTTPMessage.getContent, finishRequest, z1, z2]

/-- C15, on the request `GET / HTTP/1.1` without headers: the first `receive`
of the pipelined pair succeeds with content length 0, empty content and the
valid flag set. -/
theorem receive_request_without_content_witness :
    receivePipelinedFirst.ec = error_code.success
    ∧ receivePipelinedFirst.msg.hasChunkedTransferEncoding = false
    ∧ receivePipelinedFirst.msg.hasHeader HEADER_CONTENT_LENGTH = false
    ∧ receivePipelinedFirst.msg.getContentLength = 0
    ∧ receivePipelinedFirst.msg.getContent = []
    ∧ receivePipelinedFirst.msg.is_valid = true :=
  ⟨by decide, by decide, by decide,
   (receive_request_without_content (scriptedParser scriptGet) emptyMessage freshConnection
      error_code.success
      [SocketEvent.data (bytesOf "GET / HTTP/1.1\r\n\r\nGET / HTTP/1.1\r\n\r\n")]).2
      (by decide) (by decide) (by decide)⟩


/-! ## Responses read until the peer closes -/

theorem concatenateChunks_chunk_buffers (m : HTTPMessage) :
    m.concatenateChunks.chunk_buffers = m.chunk_buffers := by
  unfold HTTPMessage.concatenateChunks
  simp only [HTTPMessage.setContentLength, HTTPMessage.createContentBuffer]
  split <;> rfl

theorem receiveFinish_untilClose {σ : Type} (P : HTTPParser σ) (is_request : Bool)
    (n : Nat) (p : σ) (m : HTTPMessage) (c : TCPConnection) (s : List SocketEvent) :
    (receiveFinish P is_request true n p m.concatenateChunks c error_code.success s).ec
        = error_code.success
    ∧ (receiveFinish P is_request true n p m.concatenateChunks c error_code.success s).msg.is_valid
        = true
    ∧ (receiveFinish P is_request true n p m.concatenateChunks c error_code.success
          s).msg.getContent
        = (receiveFinish P is_request true n p m.concatenateChunks c error_code.success
            s).msg.chunk_buffers.flatten
    ∧ (receiveFinish P is_request true n p m.concatenateChunks c error_code.success
          s).msg.getContentLength
        = (receiveFinish P is_request true n p m.concatenateChunks c error_code.success
            s).msg.chunk_buffers.flatten.length
    ∧ (receiveFinish P is_request true n p m.concatenateChunks c error_code.success
          s).tcp_conn.lifecycle = LifecycleType.LIFECYCLE_CLOSE
    ∧ (receiveFinish P is_request true n p m.concatenateChunks c error_code.success
          s).tcp_conn.read_position = c.read_position
    ∧ (receiveFinish P is_request true n p m.concatenateChunks c error_code.success
          s).msg.chunk_buffers = m.chunk_buffers
    ∧ (receiveFinish P is_request true n p m.concatenateChunks c error_code.success
          s).socket = s := by
  have h1 := concatenateChunks_getContent m
  have h2 := concatenateChunks_length m
  have h3 := concatenateChunks_chunk_buffers m
  cases is_request <;>
  exact ⟨rfl, rfl, h1.trans (congrArg List.flatten h3).symm,
    h2.trans (congrArg (fun l => (List.flatten l).length) h3).symm, rfl, rfl, h3, rfl⟩

/-- The loop that reads until the peer closes always ends in the last part of
`receive`, with the flag `force_connection_closed` set, the error code
cleared, the chunk buffers concatenated, and a connection that has the
lifecycle and bookmark it had when the loop was entered. -/
theorem receiveUntilClose_finish {σ : Type} (P : HTTPParser σ) (is_request : Bool)
    (socket : List SocketEvent) :
    ∀ (p : σ) (m : HTTPMessage) (c : TCPConnection) (n : Nat),
      ∃ (n1 : Nat) (p1 : σ) (chunks : List (List Byte)) (c1 : TCPConnection)
        (s1 : List SocketEvent),
        receiveUntilClose P is_request p m c n socket
          = receiveFinish P is_request true n1 p1
              (HTTPMessage.concatenateChunks { m with chunk_buffers := chunks }) c1
              error_code.success s1
        ∧ c1.lifecycle = c.lifecycle ∧ c1.read_position = c.read_position := by
  induction socket with
  | nil =>
    intro p m c n
    rw [receiveUntilClose.eq_def]
    exact ⟨_, _, _, _, _, rfl, rfl, rfl⟩
  | cons ev rest ih =>
    intro p m c n
    rw [receiveUntilClose.eq_def]
    cases ev with
    | error => exact ⟨_, _, _, _, _, rfl, rfl, rfl⟩
    | data bytes =>
      simp only []
      split
      · exact ⟨_, _, _, _, _, rfl, rfl, rfl⟩
      · obtain ⟨n1, p1, chunks, c1, s1, h, hl, hp⟩ :=
          ih (P.setReadBuffer (P.consumeContentAsNextChunk p m.chunk_buffers).1 bytes 0
                bytes.length)
            { m with chunk_buffers := (P.consumeContentAsNextChunk p m.chunk_buffers).2 }
            { c with read_buffer := bytes } ((n + bytes.length) % SIZE_T_MODULUS)
        exact ⟨n1, p1, chunks, c1, s1, h, hl, hp⟩

/-- C25: the loop that reads a response body until the peer closes always
returns with the connection's lifecycle Close, the bookmark as it was and the
flag `force_connection_closed` set; `receive` enters that loop exactly for a
response that is not chunked, has no implied content length and has no
`Content-Length` header; and a successful call of `receive` on such a
response returns with the lifecycle Close and the bookmark as it was before
the call, whatever `checkKeepAlive()` and the parser's position are. -/
theorem receive_until_close_lifecycle {σ : Type} (P : HTTPParser σ)
    (msg : HTTPMessage) (tcp_conn : TCPConnection) (ec : error_code)
    (socket : List SocketEvent) :
    (∀ (p : σ) (m : HTTPMessage) (c : TCPConnection) (n : Nat) (s : List SocketEvent),
        (receiveUntilClose P false p m c n s).tcp_conn.lifecycle
            = LifecycleType.LIFECYCLE_CLOSE
        ∧ (receiveUntilClose P false p m c n s).tcp_conn.read_position = c.read_position
        ∧ (receiveUntilClose P false p m c n s).force_connection_closed = true)
    ∧ (∀ (p : σ) (m : HTTPMessage) (c : TCPConnection) (e : error_code)
        (s : List SocketEvent),
        readsUntilClose false m.updateTransferCodingUsingHeader = true →
          receiveContent P false p m c e s
            = receiveUntilClose P false p
                { m.updateTransferCodingUsingHeader with chunk_buffers := [] } c 0 s)
    ∧ ((receive P false msg tcp_conn ec socket).ec = error_code.success →
        readsUntilClose false (receive P false msg tcp_conn ec socket).msg = true →
          (receive P false msg tcp_conn ec socket).tcp_conn.lifecycle
              = LifecycleType.LIFECYCLE_CLOSE
          ∧ (receive P false msg tcp_conn ec socket).tcp_conn.read_position
              = tcp_conn.read_position
          ∧ (receive P false msg tcp_conn ec socket).force_connection_closed = true) := by
  refine ⟨?_, ?_, ?_⟩
  · intro p m c n s
    obtain ⟨n1, p1, chunks, c1, s1, h, hl, hp⟩ := receiveUntilClose_finish P false s p m c n
    rw [h]
    obtain ⟨_, _, _, _, g5, g6, _⟩ :=
      receiveFinish_untilClose P false n1 p1 { m with chunk_buffers := chunks } c1 s1
    exact ⟨g5, g6.trans hp, rfl⟩
  · intro p m c e s h
    simp only [readsUntilClose, Bool.and_eq_true, Bool.not_eq_true', Bool.not_false] at h
    unfold receiveContent
    simp [h.1.1.2, h.1.2, h.2]
  · intro hs hu
    have ho := receive_outcome P false msg tcp_conn ec socket
    rcases ho with ⟨hne, _, _⟩ | ⟨n, p, m, c, e, s, hr, hl, hp, _, _⟩
    · exact absurd hs hne
    · rw [hr] at hu ⊢
      obtain ⟨g1, _⟩ := finish_header_facts false m (finishResponse m) rfl
      have hm : (receiveFinish P false (readsUntilClose false m) n p m c e s).msg
          = finishResponse m := rfl
      rw [hm, g1] at hu
      simp [receiveFinish, hu, TCPConnection.setLifecycle, hl, hp]

/-- C25, on the response `HTTP/1.1 200 OK` without `Content-Length` whose body
`hello` ends when the peer closes: `checkKeepAlive()` is true and the parser
is at the end of its input, and the lifecycle on return is Close with no
bookmark saved. -/
theorem receive_until_close_lifecycle_witness :
    receive200UntilClose.ec = error_code.success
    ∧ readsUntilClose false receive200UntilClose.msg = true
    ∧ receive200UntilClose.msg.checkKeepAlive = true
    ∧ (scriptedParser script200).eof receive200UntilClose.httpParser = true
    ∧ receive200UntilClose.tcp_conn.lifecycle = LifecycleType.LIFECYCLE_CLOSE
    ∧ receive200UntilClose.tcp_conn.read_position = none :=
  have h := (receive_until_close_lifecycle (scriptedParser script200) emptyMessage
    freshConnection error_code.success
    [SocketEvent.data (bytesOf "HTTP/1.1 200 OK\r\n\r\nhello")]).2.2 (by decide) (by decide)
  ⟨by decide, by decide, by decide, by decide, h.1, h.2.1⟩

theorem receiveFinish_request_method {σ : Type} (P : HTTPParser σ) (is_request : Bool)
    (f : Bool) (n : Nat) (p : σ) (m : HTTPMessage) (c : TCPConnection) (e : error_code)
    (s : List SocketEvent) :
    (receiveFinish P is_request f n p m c e s).msg.request_method = m.request_method := by
  cases is_request <;> rfl

theorem receiveChunks_request_method {σ : Type} (P : HTTPParser σ) (is_request : Bool)
    (socket : List SocketEvent) :
    ∀ (p : σ) (m : HTTPMessage) (c : TCPConnection) (e : error_code),
      (receiveChunks P is_request p m c e socket).msg.request_method = m.request_method := by
  have fin : ∀ (p : σ) (m : HTTPMessage) (c : TCPConnection) (e : error_code)
      (s : List SocketEvent) (chunks : List (List Byte)),
      (receiveFinish P is_request false 0 p
        (HTTPMessage.concatenateChunks { m with chunk_buffers := chunks }) c e s).msg.request_method
        = m.request_method := by
    intro p m c e s chunks
    rw [receiveFinish_request_method]
    exact (concatenateChunks_fields { m with chunk_buffers := chunks }).2.2.2
  induction socket with
  | nil =>
    intro p m c e
    rw [receiveChunks.eq_def]
    simp only []
    split
    · rfl
    · split
      · exact fin _ m c e _ _
      · rfl
  | cons ev rest ih =>
    intro p m c e
    rw [receiveChunks.eq_def]
    simp only []
    split
    · rfl
    · split
      · exact fin _ m c e _ _
      · cases ev with
        | error => rfl
        | data bytes =>
          exact ih _ { m with chunk_buffers := _ } { c with read_buffer := bytes } _

theorem receiveUntilClose_request_method {σ : Type} (P : HTTPParser σ) (is_request : Bool)
    (socket : List SocketEvent) :
    ∀ (p : σ) (m : HTTPMessage) (c : TCPConnection) (n : Nat),
      (receiveUntilClose P is_request p m c n socket).msg.request_method
        = m.request_method := by
  have fin : ∀ (p : σ) (m : HTTPMessage) (c : TCPConnection) (e : error_code)
      (s : List SocketEvent) (n : Nat) (chunks : List (List Byte)),
      (receiveFinish P is_request true n p
        (HTTPMessage.concatenateChunks { m with chunk_buffers := chunks }) c e s).msg.request_method
        = m.request_method := by
    intro p m c e s n chunks
    rw [receiveFinish_request_method]
    exact (concatenateChunks_fields { m with chunk_buffers := chunks }).2.2.2
  induction socket with
  | nil =>
    intro p m c n
    rw [receiveUntilClose.eq_def]
    exact fin _ m c _ _ _ _
  | cons ev rest ih =>
    intro p m c n
    rw [receiveUntilClose.eq_def]
    cases ev with
    | error => exact fin _ m c _ _ _ _
    | data bytes =>
      simp only []
      split
      · exact fin _ m c _ _ _ _
      · exact ih _ { m with chunk_buffers := _ } { c with read_buffer := bytes } _

theorem receiveContentLength_request_method {σ : Type} (P : HTTPParser σ)
    (is_request : Bool) (p : σ) (m : HTTPMessage) (c : TCPConnection) (e : error_code)
    (socket : List SocketEvent) :
    (receiveContentLength P is_request p m c e socket).msg.request_method
      = m.request_method := by
  unfold receiveContentLength
  simp only []
  split
  · split
    · rfl
    · rw [receiveFinish_request_method]
  · rw [receiveFinish_request_method]

theorem receiveContent_request_method {σ : Type} (P : HTTPParser σ) (is_request : Bool)
    (p : σ) (m : HTTPMessage) (c : TCPConnection) (e : error_code)
    (socket : List SocketEvent) :
    (receiveContent P is_request p m c e socket).msg.request_method = m.request_method := by
  unfold receiveContent
  simp only []
  split
  · rw [receiveChunks_request_method]
    rfl
  · split
    · split
      · rw [receiveContentLength_request_method]
        rfl
      · split
        · rw [receiveUntilClose_request_method]
          rfl
        · rw [receiveFinish_request_method]
          rfl
    · rw [receiveFinish_request_method]
      rfl

theorem receiveHeaders_request_method {σ : Type} (P : HTTPParser σ) (is_request : Bool)
    (hpres : ∀ (p : σ) (m : HTTPMessage),
      (P.parseHTTPHeaders p m).2.2.request_method = m.request_method)
    (socket : List SocketEvent) :
    ∀ (p : σ) (m : HTTPMessage) (c : TCPConnection) (e : error_code),
      (receiveHeaders P is_request p m c e socket).msg.request_method = m.request_method := by
  induction socket with
  | nil =>
    intro p m c e
    rw [receiveHeaders.eq_def]
    simp only []
    split
    · exact hpres p m
    · split
      · exact hpres p m
      · rw [receiveContent_request_method]
        exact hpres p m
  | cons ev rest ih =>
    intro p m c e
    rw [receiveHeaders.eq_def]
    simp only []
    split
    · cases ev with
      | error => exact hpres p m
      | data bytes =>
        exact (ih _ _ { c with read_buffer := bytes } _).trans (hpres p m)
    · split
      · exact hpres p m
      · rw [receiveContent_request_method]
        exact hpres p m

/-- A response object does not know, after `receive`, which request it
answers: `clear()` at the start of `receive` resets the request method, and a
parser that leaves the request method alone cannot bring it back. -/
theorem receive_request_method {σ : Type} (P : HTTPParser σ)
    (hpres : ∀ (p : σ) (m : HTTPMessage),
      (P.parseHTTPHeaders p m).2.2.request_method = m.request_method)
    (msg : HTTPMessage) (tcp_conn : TCPConnection) (ec : error_code)
    (socket : List SocketEvent) :
    (receive P false msg tcp_conn ec socket).msg.request_method = "" := by
  unfold receive
  simp only []
  split
  · rw [receiveHeaders_request_method P false hpres]
    rfl
  · cases socket with
    | nil => rfl
    | cons ev rest =>
      cases ev with
      | error => rfl
      | data bytes =>
        exact (receiveHeaders_request_method P false hpres rest _ _
          { tcp_conn with read_buffer := bytes } _).trans rfl

/-- C24, as amended: `receive` starts with `clear()`, which resets the request
method of a response object, so a response object that was told it answers a
HEAD request is received like any other response (the parser is taken to
leave the request method alone).  When its status code is not in 100..199,
204 or 304 and it carries neither a `Content-Length` header nor a chunked
`Transfer-Encoding`, a successful `receive` reads it until the peer closes:
`force_connection_closed` is set, the connection's lifecycle is Close whatever
the response's version and `Connection` header are, and no bookmark is
saved. -/
theorem receive_head_response_closes {σ : Type} (P : HTTPParser σ)
    (hpres : ∀ (p : σ) (m : HTTPMessage),
      (P.parseHTTPHeaders p m).2.2.request_method = m.request_method)
    (msg : HTTPMessage) (tcp_conn : TCPConnection) (ec : error_code)
    (socket : List SocketEvent) (r : ReceiveResult σ)
    (hr : receive P false { msg with request_method := REQUEST_METHOD_HEAD }
      tcp_conn ec socket = r)
    (hs : r.ec = error_code.success)
    (hst : ¬ ((100 ≤ r.msg.status_code ∧ r.msg.status_code ≤ 199)
      ∨ r.msg.status_code = 204 ∨ r.msg.status_code = 304))
    (hl : r.msg.hasHeader HEADER_CONTENT_LENGTH = false)
    (hc : r.msg.hasChunkedTransferEncoding = false) :
    r.msg.request_method = ""
    ∧ r.msg.isContentLengthImplied false = false
    ∧ r.force_connection_closed = true
    ∧ r.tcp_conn.lifecycle = LifecycleType.LIFECYCLE_CLOSE
    ∧ r.tcp_conn.read_position = tcp_conn.read_position := by
  have hq := receive_request_method P hpres
    { msg with request_method := REQUEST_METHOD_HEAD } tcp_conn ec socket
  have ho := receive_outcome P false
    { msg with request_method := REQUEST_METHOD_HEAD } tcp_conn ec socket
  rw [hr] at hq ho
  have hi : r.msg.isContentLengthImplied false = false := by
    have h1 : ¬ (100 ≤ r.msg.status_code ∧ r.msg.status_code ≤ 199) :=
      fun h => hst (Or.inl h)
    have h2 : ¬ r.msg.status_code = 204 := fun h => hst (Or.inr (Or.inl h))
    have h3 : ¬ r.msg.status_code = 304 := fun h => hst (Or.inr (Or.inr h))
    have h4 : ¬ ("" = REQUEST_METHOD_HEAD) := by decide
    simp only [HTTPMessage.isContentLengthImplied, hq, Bool.not_false, Bool.true_and,
      Bool.or_eq_false_iff, beq_eq_false_iff_ne, ne_eq, Bool.and_eq_false_iff,
      decide_eq_false_iff_not]
    refine ⟨⟨⟨h4, ?_⟩, h2⟩, h3⟩
    by_cases h5 : 100 ≤ r.msg.status_code
    · exact Or.inr (fun h6 => h1 ⟨h5, h6⟩)
    · exact Or.inl h5
  rcases ho with ⟨hne, _, _⟩ | ⟨n, p, m, c, e, s, rfl, hlc, hp, hu, _⟩
  · exact absurd hs hne
  · obtain ⟨g1, g2, g3, g4, _, _, _⟩ := finish_header_facts false m (finishResponse m) rfl
    have hm : (receiveFinish P false (readsUntilClose false m) n p m c e s).msg
        = finishResponse m := rfl
    rw [hm] at hi hl hc hq
    have hu1 : readsUntilClose false m = true := by
      rw [← g1]
      have hc1 : (finishResponse m).is_chunked = false := by
        show m.is_chunked = false
        rw [hu, ← g4]; exact hc
      simp [readsUntilClose, HTTPMessage.isChunked, hc1, hi, hl]
    rw [hu1]
    refine ⟨hq, hi, rfl, ?_, ?_⟩
    · simp [receiveFinish, TCPConnection.setLifecycle]
    · simp [receiveFinish, TCPConnection.setLifecycle, hp]

/-- C24, as amended, on the responses `HTTP/1.1 200 OK` and `HTTP/1.0 200 OK`
to a HEAD request, without `Content-Length` and without chunking: after
`receive` the response object's request method is empty, the first has
`checkKeepAlive()` true with the parser at the end of its input, and both
leave the lifecycle Close. -/
theorem receive_head_response_closes_witness :
    receiveHeadResponse.ec = error_code.success
    ∧ receiveHeadResponse.msg.status_code = 200
    ∧ receiveHeadResponse.msg.hasHeader HEADER_CONTENT_LENGTH = false
    ∧ receiveHeadResponse.msg.hasChunkedTransferEncoding = false
    ∧ receiveHeadResponse.msg.checkKeepAlive = true
    ∧ (scriptedParser script200).eof receiveHeadResponse.httpParser = true
    ∧ receiveHeadResponse.msg.request_method = ""
    ∧ receiveHeadResponse.force_connection_closed = true
    ∧ receiveHeadResponse.tcp_conn.lifecycle = LifecycleType.LIFECYCLE_CLOSE
    ∧ receiveHeadResponse10.tcp_conn.lifecycle = LifecycleType.LIFECYCLE_CLOSE :=
  have h := receive_head_response_closes (scriptedParser script200) (fun _ _ => rfl)
    emptyMessage freshConnection error_code.success
    [SocketEvent.data (bytesOf "HTTP/1.1 200 OK\r\n\r\n")]
    receiveHeadResponse rfl (by decide) (by decide) (by decide) (by decide)
  have h10 := receive_head_response_closes (scriptedParser script200Version10)
    (fun _ _ => rfl) emptyMessage freshConnection error_code.success
    [SocketEvent.data (bytesOf "HTTP/1.0 200 OK\r\n\r\n")]
    receiveHeadResponse10 rfl (by decide) (by decide) (by decide) (by decide)
  ⟨by decide, by decide, by decide, by decide, by decide, by decide, h.1, h.2.2.1,
    h.2.2.2.1, h10.2.2.2.1⟩

/-- C24 as stated fails: the response `HTTP/1.1 304 Not Modified` to a HEAD
request, without `Content-Length` and without chunking, is received
successfully on a connection whose lifecycle was Close; its status code gives
it an implied content length, so nothing is read until the peer closes, and
on return the lifecycle is KeepAlive, not Close. -/
theorem receive_head_response_304_keepalive :
    freshConnection.lifecycle = LifecycleType.LIFECYCLE_CLOSE
    ∧ receiveHead304.ec = error_code.success
    ∧ receiveHead304.msg.status_code = 304
    ∧ receiveHead304.msg.hasHeader HEADER_CONTENT_LENGTH = false
    ∧ receiveHead304.msg.hasChunkedTransferEncoding = false
    ∧ receiveHead304.msg.getContentLength = 0
    ∧ receiveHead304.force_connection_closed = false
    ∧ receiveHead304.tcp_conn.lifecycle = LifecycleType.LIFECYCLE_KEEPALIVE
    ∧ receiveHead304.tcp_conn.lifecycle ≠ LifecycleType.LIFECYCLE_CLOSE := by
  decide


/-! ## TCPServer -/

theorem findConnection_none (conn : Nat) (l : List (Nat × LifecycleType))
    (h : conn ∉ l.map Prod.fst) : findConnection conn l = none := by
  induction l with
  | nil => rfl
  | cons c rest ih =>
    have h1 : ¬ c.1 = conn := fun he => h (by simp [he])
    have h2 : conn ∉ rest.map Prod.fst := fun hm => h (by simp at hm ⊢; exact Or.inr hm)
    simp [findConnection, h1, ih h2]

theorem filter_absent (conn : Nat) (l : List (Nat × LifecycleType))
    (h : conn ∉ l.map Prod.fst) : l.filter (fun c => decide (c.1 ≠ conn)) = l := by
  apply List.filter_eq_self.mpr
  intro c hc
  have : c.1 ≠ conn := fun he => h (by rw [← he]; exact List.mem_map_of_mem Prod.fst hc)
  simp [this]

/-- Taking a live connection out of a set with distinct handles makes the
set smaller by exactly one. -/
theorem filter_present_length (conn : Nat) (l : List (Nat × LifecycleType))
    (hn : (l.map Prod.fst).Nodup) (t : LifecycleType) (h : findConnection conn l = some t) :
    (l.filter (fun c => decide (c.1 ≠ conn))).length + 1 = l.length := by
  induction l with
  | nil => simp [findConnection] at h
  | cons c rest ih =>
    have hn1 : (c.1 :: rest.map Prod.fst).Nodup := hn
    have hn2 := List.nodup_cons.mp hn1
    by_cases hc : c.1 = conn
    · have hnot : conn ∉ rest.map Prod.fst := by rw [← hc]; exact hn2.1
      have hp : decide (c.1 ≠ conn) = false := by simp [hc]
      rw [List.filter_cons, hp]
      simp only [Bool.false_eq_true, if_false]
      rw [filter_absent conn rest hnot]
      rfl
    · have h2 : findConnection conn rest = some t := by simpa [findConnection, hc] using h
      have h3 := ih hn2.2 h2
      have hp : decide (c.1 ≠ conn) = true := by simp [hc]
      rw [List.filter_cons, hp]
      simp only [if_true, List.length_cons]
      rw [h3]

theorem step_wellFormed (s : TCPServer) (e : ServerEvent) (h : s.WellFormed) :
    (s.step e).WellFormed := by
  obtain ⟨h1, h2⟩ := h
  cases e with
  | accepted =>
    simp only [TCPServer.step, TCPServer.handleAccept]
    split
    · constructor
      · simp only [List.map_append, List.map_cons, List.map_nil]
        apply List.Nodup.append h1 (List.nodup_singleton _)
        intro a ha hb
        have hlt := h2 a ha
        have : a = s.m_next_conn := by simpa using hb
        omega
      · intro c hc
        simp only [List.map_append, List.map_cons, List.map_nil, List.mem_append,
          List.mem_singleton] at hc
        rcases hc with hc | hc
        · exact Nat.lt_succ_of_lt (h2 c hc)
        · rw [hc]; exact Nat.lt_succ_self _
    · exact ⟨h1, h2⟩
  | lifecycleSet conn t =>
    have hk : (s.setLifecycle conn t).m_conn_pool.map Prod.fst = s.m_conn_pool.map Prod.fst := by
      simp only [TCPServer.setLifecycle, List.map_map]
      apply List.map_congr_left
      intro c _
      simp only [Function.comp]
      split <;> rfl
    exact ⟨by rw [TCPServer.step, hk]; exact h1, by rw [TCPServer.step, hk]; exact h2⟩
  | finished conn =>
    simp only [TCPServer.step, TCPServer.finishConnection]
    split
    · have hs : (s.m_conn_pool.filter (fun c => decide (c.1 ≠ conn))).Sublist s.m_conn_pool :=
        List.filter_sublist _
      exact ⟨h1.sublist (hs.map Prod.fst), fun c hc => h2 c ((hs.map Prod.fst).subset hc)⟩
    · exact ⟨h1, h2⟩

theorem run_wellFormed (events : List ServerEvent) :
    ∀ s : TCPServer, s.WellFormed → (s.run events).WellFormed := by
  induction events with
  | nil => intro s h; exact h
  | cons e rest ih =>
    intro s h
    exact ih (s.step e) (step_wellFormed s e h)

theorem step_listening (s : TCPServer) (e : ServerEvent) :
    (s.step e).m_is_listening = s.m_is_listening := by
  cases e with
  | accepted =>
    simp only [TCPServer.step, TCPServer.handleAccept]
    split <;> rfl
  | lifecycleSet conn t => rfl
  | finished conn =>
    simp only [TCPServer.step, TCPServer.finishConnection]
    split <;> rfl

theorem run_listening (events : List ServerEvent) :
    ∀ s : TCPServer, (s.run events).m_is_listening = s.m_is_listening := by
  induction events with
  | nil => intro s; rfl
  | cons e rest ih =>
    intro s
    exact (ih (s.step e)).trans (step_listening s e)

/-- C22: `getConnections()` is the number of live connections: it is 0 for a
newly started server; and in every state `s` that a started server reaches by
accepting connections, setting lifecycles and finishing connections, it grows
by exactly one when a connection is accepted, shrinks by exactly one when a
live connection with lifecycle Close finishes, and keeps its value when a
lifecycle is set, when a live connection with another lifecycle finishes, and
when a connection that is not live finishes; so opening four streams shows
1, 2, 3, 4 and closing them shows 3, 2, 1, 0. -/
theorem getConnections_counts (events : List ServerEvent) (s : TCPServer)
    (hs : s = TCPServer.create.start.run events) :
    TCPServer.create.start.getConnections = 0
    ∧ s.handleAccept.getConnections = s.getConnections + 1
    ∧ (∀ conn : Nat, findConnection conn s.m_conn_pool = some LifecycleType.LIFECYCLE_CLOSE →
        (s.finishConnection conn).getConnections + 1 = s.getConnections)
    ∧ (∀ (conn : Nat) (t : LifecycleType), findConnection conn s.m_conn_pool = some t →
        t ≠ LifecycleType.LIFECYCLE_CLOSE →
        (s.finishConnection conn).getConnections = s.getConnections)
    ∧ (∀ conn : Nat, findConnection conn s.m_conn_pool = none →
        (s.finishConnection conn).getConnections = s.getConnections)
    ∧ (∀ (conn : Nat) (t : LifecycleType),
        (s.setLifecycle conn t).getConnections = s.getConnections)
    ∧ TCPServer.create.start.observe fourStreams = [1, 2, 3, 4, 3, 2, 1, 0] := by
  have hw : s.WellFormed := by
    rw [hs]
    apply run_wellFormed
    exact ⟨List.nodup_nil, fun c hc => by cases hc⟩
  have hl : s.m_is_listening = true := by
    rw [hs, run_listening]
    rfl
  refine ⟨rfl, ?_, ?_, ?_, ?_, ?_, by decide⟩
  · simp [TCPServer.handleAccept, hl, TCPServer.getConnections]
  · intro conn hf
    simp only [TCPServer.finishConnection, hf, TCPServer.getConnections]
    exact filter_present_length conn s.m_conn_pool hw.1 _ hf
  · intro conn t hf ht
    cases t with
    | LIFECYCLE_CLOSE => exact absurd rfl ht
    | LIFECYCLE_KEEPALIVE => simp [TCPServer.finishConnection, hf]
    | LIFECYCLE_PIPELINED => simp [TCPServer.finishConnection, hf]
  · intro conn hf
    simp [TCPServer.finishConnection, hf]
  · intro conn t
    simp [TCPServer.setLifecycle, TCPServer.getConnections]

/-- C22, on the test `checkNumberOfActiveServerConnections`: after three
streams were opened the count is 3, a fourth accepted connection makes it 4,
and when the first connection, whose lifecycle is Close, finishes it is 2. -/
theorem getConnections_counts_witness :
    (TCPServer.create.start.run
        [ServerEvent.accepted, ServerEvent.accepted, ServerEvent.accepted]).getConnections = 3
    ∧ (TCPServer.create.start.run
        [ServerEvent.accepted, ServerEvent.accepted,
         ServerEvent.accepted]).handleAccept.getConnections = 4
    ∧ ((TCPServer.create.start.run
        [ServerEvent.accepted, ServerEvent.accepted,
         ServerEvent.accepted]).finishConnection 0).getConnections + 1 = 3
    ∧ TCPServer.create.start.observe fourStreams = [1, 2, 3, 4, 3, 2, 1, 0] :=
  have h := getConnections_counts
    [ServerEvent.accepted, ServerEvent.accepted, ServerEvent.accepted]
    (TCPServer.create.start.run
      [ServerEvent.accepted, ServerEvent.accepted, ServerEvent.accepted]) rfl
  ⟨by decide, h.2.1.trans (by decide), (h.2.2.1 0 (by decide)).trans (by decide), h.2.2.2.2.2.2⟩

end net

namespace http

set_option maxRecDepth 100000

/-! ## The user cache -/

theorem expireLoop_eq_filter (time_now : ptime) (l : List CacheEntry) :
    (expireLoop time_now l).1
      = l.filter (fun e => decide (¬ (e.2.1 + CACHE_EXPIRATION < time_now))) := by
  induction l with
  | nil => rfl
  | cons e rest ih =>
    simp only [expireLoop]
    by_cases h : time_now > e.2.1 + CACHE_EXPIRATION
    · have h2 : e.2.1 + CACHE_EXPIRATION < time_now := h
      simp only [h, if_true, ih, List.filter, h2, not_true, decide_False]
    · have h2 : ¬ (e.2.1 + CACHE_EXPIRATION < time_now) := h
      simp only [h, if_false, ih, List.filter, h2, not_false_eq_true, decide_True]

theorem lookup_none_of_not_mem (l : List CacheEntry) (key : String)
    (h : key ∉ l.map Prod.fst) : lookup key l = none := by
  induction l with
  | nil => rfl
  | cons e rest ih =>
    have h1 : ¬ e.1 = key := fun he => h (by simp [he])
    have h2 : key ∉ rest.map Prod.fst := fun hm => h (by simp at hm ⊢; exact Or.inr hm)
    simp [lookup, h1, ih h2]

theorem lookup_expire_kept (time_now : ptime) (key : String) (v : ptime × PionUser)
    (hk : ¬ (time_now > v.1 + CACHE_EXPIRATION)) (l : List CacheEntry)
    (hf : lookup key l = some v) :
    lookup key (expireLoop time_now l).1 = some v := by
  induction l with
  | nil => simp [lookup] at hf
  | cons e rest ih =>
    simp only [expireLoop]
    by_cases he : e.1 = key
    · have hv : e.2 = v := by simpa [lookup, he] using hf
      have hk2 : ¬ (time_now > e.2.1 + CACHE_EXPIRATION) := by rw [hv]; exact hk
      rw [if_neg hk2]
      simp only [lookup, he, if_true, hv]
    · have hf2 : lookup key rest = some v := by simpa [lookup, he] using hf
      by_cases hq : time_now > e.2.1 + CACHE_EXPIRATION
      · simpa [hq] using ih hf2
      · simpa [hq, lookup, he] using ih hf2

theorem lookup_expire_removed (time_now : ptime) (key : String) (v : ptime × PionUser)
    (hk : time_now > v.1 + CACHE_EXPIRATION) (l : List CacheEntry)
    (hn : (l.map Prod.fst).Nodup) (hf : lookup key l = some v) :
    lookup key (expireLoop time_now l).1 = none := by
  induction l with
  | nil => rfl
  | cons e rest ih =>
    have hn2 := List.nodup_cons.mp hn
    simp only [expireLoop]
    by_cases he : e.1 = key
    · have hv : e.2 = v := by simpa [lookup, he] using hf
      have hk2 : time_now > e.2.1 + CACHE_EXPIRATION := by rw [hv]; exact hk
      have hnot : key ∉ ((expireLoop time_now rest).1).map Prod.fst := by
        intro hm
        apply hn2.1
        rw [he]
        exact ((expireLoop time_now rest).2.map Prod.fst).subset hm
      simp only [hk2, if_true]
      exact lookup_none_of_not_mem _ _ hnot
    · have hf2 : lookup key rest = some v := by simpa [lookup, he] using hf
      by_cases hq : time_now > e.2.1 + CACHE_EXPIRATION
      · simpa [hq] using ih hn2.2 hf2
      · simpa [hq, lookup, he] using ih hn2.2 hf2

theorem lookup_touch (key : String) (time_now : ptime) (k : String) (l : List CacheEntry) :
    lookup k (l.map (touchEntry key time_now))
      = if k = key then (lookup k l).map (fun v => (time_now, v.2)) else lookup k l := by
  induction l with
  | nil => simp [lookup]
  | cons e rest ih =>
    by_cases hek : e.1 = key
    · by_cases hk : k = key
      · subst hk
        simp [lookup, touchEntry, hek]
      · have hne : ¬ e.1 = k := by rw [hek]; exact fun h => hk h.symm
        have hne2 : ¬ key = k := fun h => hk h.symm
        simp only [hk, if_false] at ih
        simp [lookup, touchEntry, hek, hk, hne2, ih]
    · by_cases hk : k = key
      · subst hk
        simp only [if_true] at ih
        simp [lookup, touchEntry, hek, ih]
      · simp only [hk, if_false] at ih
        by_cases h4 : e.1 = k
        · simp [lookup, touchEntry, hek, hk, h4]
        · simp [lookup, touchEntry, hek, hk, h4, ih]

theorem touch_keys (c : user_cache_type) (key : String) (time_now : ptime) :
    (c.touch key time_now).entries.map Prod.fst = c.entries.map Prod.fst := by
  simp only [user_cache_type.touch, List.map_map]
  apply List.map_congr_left
  intro e _
  simp only [Function.comp, touchEntry]
  split <;> rfl

theorem lookup_erase_self (key : String) (l : List CacheEntry)
    (hn : (l.map Prod.fst).Nodup) : lookup key (eraseEntry key l).1 = none := by
  induction l with
  | nil => rfl
  | cons e rest ih =>
    have hn2 := List.nodup_cons.mp hn
    simp only [eraseEntry]
    by_cases he : e.1 = key
    · simp only [he, if_true]
      exact lookup_none_of_not_mem rest key (by rw [← he]; exact hn2.1)
    · simpa [he, lookup] using ih hn2.2

theorem lookup_erase_other (key k : String) (hk : k ≠ key) (l : List CacheEntry) :
    lookup k (eraseEntry key l).1 = lookup k l := by
  induction l with
  | nil => rfl
  | cons e rest ih =>
    simp only [eraseEntry]
    by_cases he : e.1 = key
    · have hne : ¬ e.1 = k := by rw [he]; exact fun h => hk h.symm
      have hne2 : ¬ key = k := fun h => hk h.symm
      simp only [he, if_true, lookup, hne2, if_false]
    · by_cases h2 : e.1 = k
      · rw [if_neg he]
        simp only [lookup, h2, if_true]
      · rw [if_neg he]
        simp only [lookup, h2, if_false, ih]

theorem lookup_some_of_mem (l : List CacheEntry) (key : String)
    (h : key ∈ l.map Prod.fst) : (lookup key l).isSome = true := by
  induction l with
  | nil => simp at h
  | cons e rest ih =>
    by_cases he : e.1 = key
    · simp only [lookup, he, if_true, Option.isSome_some]
    · have hm : key ∈ rest.map Prod.fst := by
        rcases List.mem_cons.mp h with h0 | h0
        · exact absurd h0.symm he
        · exact h0
      simp only [lookup, he, if_false]
      exact ih hm

theorem find_insert_fresh (c : user_cache_type) (key : String) (v : ptime × PionUser)
    (h : c.contains key = false) : (c.insert key v).find key = some v := by
  have hn : key ∉ c.entries.map Prod.fst := by
    intro hm
    have := lookup_some_of_mem c.entries key hm
    simp only [user_cache_type.contains, user_cache_type.find] at h
    rw [this] at h
    cases h
  simp only [user_cache_type.insert, hn, dite_false, user_cache_type.find, lookup, if_true]

/-! ## processLogin and handleRequest -/

theorem processLogin_other (env : AuthEnv) (a : cookie_auth) (request : HTTPRequest)
    (time_now : ptime) (h1 : stripTrailingSlash request.resource ≠ a.m_login)
    (h2 : stripTrailingSlash request.resource ≠ a.m_logout) :
    a.processLogin env request time_now = (false, a, none) := by
  simp [cookie_auth.processLogin, h1, h2]

theorem processLogin_cleanup (env : AuthEnv) (a : cookie_auth) (request : HTTPRequest)
    (time_now : ptime) :
    (a.processLogin env request time_now).2.1.m_cache_cleanup_time = a.m_cache_cleanup_time
    ∧ (a.processLogin env request time_now).2.1.m_redirect = a.m_redirect
    ∧ (a.processLogin env request time_now).2.1.m_login = a.m_login
    ∧ (a.processLogin env request time_now).2.1.m_logout = a.m_logout := by
  unfold cookie_auth.processLogin
  simp only []
  split
  · exact ⟨rfl, rfl, rfl, rfl⟩
  · split
    · split
      · exact ⟨rfl, rfl, rfl, rfl⟩
      · exact ⟨rfl, rfl, rfl, rfl⟩
    · split
      · split <;> exact ⟨rfl, rfl, rfl, rfl⟩
      · exact ⟨rfl, rfl, rfl, rfl⟩

theorem expireCache_fields (a : cookie_auth) (time_now : ptime) :
    (a.expireCache time_now).m_login = a.m_login
    ∧ (a.expireCache time_now).m_logout = a.m_logout
    ∧ (a.expireCache time_now).m_redirect = a.m_redirect
    ∧ (a.expireCache time_now).m_random_calls = a.m_random_calls
    ∧ ((a.expireCache time_now).m_cache_cleanup_time = a.m_cache_cleanup_time
        ∨ (a.expireCache time_now).m_cache_cleanup_time = time_now) := by
  unfold cookie_auth.expireCache
  split
  · exact ⟨rfl, rfl, rfl, rfl, Or.inr rfl⟩
  · exact ⟨rfl, rfl, rfl, rfl, Or.inl rfl⟩

theorem handleUnauthorized_congr (a b : cookie_auth) (h : b.m_redirect = a.m_redirect) :
    b.handleUnauthorized = a.handleUnauthorized := by
  simp [cookie_auth.handleUnauthorized, h]

/-- What `handleRequest` does with a request that it decides by its cookie. -/
theorem handleRequest_checksCookie (env : AuthEnv) (a : cookie_auth) (request : HTTPRequest)
    (time_now : ptime) (h : a.checksCookie env request) :
    a.handleRequest env request time_now
      = if request.getCookie AUTH_COOKIE_NAME ≠ "" then
          match (a.expireCache time_now).m_user_cache.find (request.getCookie AUTH_COOKIE_NAME) with
          | some entry =>
            (true,
              { a.expireCache time_now with
                m_user_cache := (a.expireCache time_now).m_user_cache.touch
                  (request.getCookie AUTH_COOKIE_NAME) time_now },
              request.setUser entry.2, none)
          | none => (false, a.expireCache time_now, request, some a.handleUnauthorized)
        else (false, a.expireCache time_now, request, some a.handleUnauthorized) := by
  obtain ⟨h1, h2, h3, h4⟩ := h
  have hu := handleUnauthorized_congr a (a.expireCache time_now) (expireCache_fields a time_now).2.2.1
  unfold cookie_auth.handleRequest
  rw [processLogin_other env a request time_now h1 h2]
  simp only [h3, h4, hu, Bool.false_eq_true, if_false, not_true_eq_false]

theorem handleRequest_cleanup (env : AuthEnv) (a : cookie_auth) (request : HTTPRequest)
    (time_now : ptime) :
    (a.handleRequest env request time_now).2.1.m_cache_cleanup_time = a.m_cache_cleanup_time
    ∨ (a.handleRequest env request time_now).2.1.m_cache_cleanup_time = time_now := by
  unfold cookie_auth.handleRequest
  simp only []
  split
  · exact Or.inl (processLogin_cleanup env a request time_now).1
  · split
    · exact Or.inl rfl
    · split
      · exact Or.inl rfl
      · split
        · split
          · exact (expireCache_fields a time_now).2.2.2.2
          · exact (expireCache_fields a time_now).2.2.2.2
        · exact (expireCache_fields a time_now).2.2.2.2

/-- Under a clock that never runs backwards the cleanup time is never ahead
of the clock. -/
theorem reachable_cleanup_le (env : AuthEnv) (a : cookie_auth) (t : ptime)
    (h : Reachable env a t) : a.m_cache_cleanup_time ≤ t := by
  induction h with
  | create login logout redirect t => exact Nat.le_refl _
  | handleRequest a t t1 request _ hle ih =>
    rcases handleRequest_cleanup env a request t1 with h | h
    · rw [h]; exact Nat.le_trans ih hle
    · rw [h]
  | setOption a a1 t name value _ hs ih =>
    unfold cookie_auth.setOption at hs
    split at hs
    · cases hs; exact ih
    · split at hs
      · cases hs; exact ih
      · split at hs
        · cases hs; exact ih
        · cases hs
  | tick a t t1 _ hle ih => exact Nat.le_trans ih hle

/-- The login branch of `processLogin` when the new cookie is not yet a key of
the cache: twenty random bytes are drawn, the cache maps the new cookie to the
current time and the user, the response is a 204 or a 302 that sets the
cookie, and `handleRequest` returns false. -/
theorem processLogin_login_fresh (env : AuthEnv) (a : cookie_auth) (request : HTTPRequest)
    (time_now : ptime) (user : PionUser)
    (h1 : stripTrailingSlash request.resource = a.m_login)
    (hu : env.getUser (env.url_decode (request.getQuery "user"))
            (env.url_decode (request.getQuery "pass")) = some user)
    (hfresh : a.m_user_cache.contains (env.base64_encode (randomCookieBytes env a)) = false) :
    (randomCookieBytes env a).length = RANDOM_COOKIE_BYTES
    ∧ (a.processLogin env request time_now).2.1.m_user_cache.find
        (env.base64_encode (randomCookieBytes env a)) = some (time_now, user)
    ∧ (∃ response : SentResponse,
        (a.processLogin env request time_now).2.2 = some response
        ∧ (env.base64_encode (randomCookieBytes env a) ≠ "" →
            response.cookie
              = CookieAction.setCookie AUTH_COOKIE_NAME
                  (env.base64_encode (randomCookieBytes env a)))
        ∧ (response.status_code = RESPONSE_CODE_NO_CONTENT
            ∨ response.status_code = RESPONSE_CODE_FOUND))
    ∧ (a.handleRequest env request time_now).1 = false := by
  have hp : (a.processLogin env request time_now).1 = true := by
    simp [cookie_auth.processLogin, h1, hu]
  refine ⟨by simp [randomCookieBytes], ?_, ?_, ?_⟩
  · simp only [cookie_auth.processLogin, h1, hu, ne_eq, not_true_eq_false, false_and,
      if_false, if_true]
    exact find_insert_fresh _ _ _ hfresh
  · simp only [cookie_auth.processLogin, h1, hu, ne_eq, not_true_eq_false, false_and,
      if_false, if_true]
    by_cases hurl : env.url_decode (request.getQuery "url") = ""
    · refine ⟨_, rfl, ?_, Or.inl (by simp [hurl, handleOk])⟩
      intro hne
      simp [hurl, handleOk, hne]
    · refine ⟨_, rfl, ?_, Or.inr (by simp [hurl, handleRedirection])⟩
      intro hne
      simp [hurl, handleRedirection, hne]
  · simp [cookie_auth.handleRequest, hp]

/-! ## The claims about cookie_auth -/

/-- C5: for every request that is not a login or logout request, needs
authentication and does not target the redirect page, `handleRequest` returns
true if and only if the request carries a non-empty `pion_session_id` cookie
that is a key of the user cache after `expireCache` at the current time; when
it returns true no response has been sent, and when it returns false the
unauthorized response has been sent: a 401 that sets no cookie when no
redirect page is configured, and a 302 to the redirect page that sets no
cookie when one is. -/
theorem handleRequest_allows_iff_cached (env : AuthEnv) (a : cookie_auth)
    (request : HTTPRequest) (time_now : ptime) (h : a.checksCookie env request) :
    ((a.handleRequest env request time_now).1 = true ↔
        request.getCookie AUTH_COOKIE_NAME ≠ ""
        ∧ (a.expireCache time_now).m_user_cache.contains
            (request.getCookie AUTH_COOKIE_NAME) = true)
    ∧ ((a.handleRequest env request time_now).1 = false →
        (a.handleRequest env request time_now).2.2.2 = some a.handleUnauthorized)
    ∧ ((a.handleRequest env request time_now).1 = false → a.m_redirect = "" →
        (a.handleRequest env request time_now).2.2.2
          = some { status_code := 401, location := none, cookie := CookieAction.keep })
    ∧ ((a.handleRequest env request time_now).1 = false → a.m_redirect ≠ "" →
        (a.handleRequest env request time_now).2.2.2
          = some { status_code := 302, location := some a.m_redirect,
                   cookie := CookieAction.keep })
    ∧ ((a.handleRequest env request time_now).1 = true →
        (a.handleRequest env request time_now).2.2.2 = none) := by
  have h401 : a.m_redirect = "" →
      a.handleUnauthorized
        = { status_code := 401, location := none, cookie := CookieAction.keep } := by
    intro hr
    simp [cookie_auth.handleUnauthorized, hr, RESPONSE_CODE_UNAUTHORIZED]
  have h302 : a.m_redirect ≠ "" →
      a.handleUnauthorized
        = { status_code := 302, location := some a.m_redirect,
            cookie := CookieAction.keep } := by
    intro hr
    simp [cookie_auth.handleUnauthorized, hr, handleRedirection, RESPONSE_CODE_FOUND]
  have hdeny : (a.handleRequest env request time_now).1 = false →
      (a.handleRequest env request time_now).2.2.2 = some a.handleUnauthorized := by
    rw [handleRequest_checksCookie env a request time_now h]
    by_cases hc : request.getCookie AUTH_COOKIE_NAME = ""
    · simp [hc]
    · cases hf : (a.expireCache time_now).m_user_cache.find (request.getCookie AUTH_COOKIE_NAME)
      · simp [hc]
      · simp [hc]
  refine ⟨?_, hdeny, ?_, ?_, ?_⟩
  · rw [handleRequest_checksCookie env a request time_now h]
    unfold user_cache_type.contains
    by_cases hc : request.getCookie AUTH_COOKIE_NAME = ""
    · simp [hc]
    · cases hf : (a.expireCache time_now).m_user_cache.find (request.getCookie AUTH_COOKIE_NAME)
      · simp [hc]
      · simp [hc]
  · intro hd hr
    rw [hdeny hd, h401 hr]
  · intro hd hr
    rw [hdeny hd, h302 hr]
  · rw [handleRequest_checksCookie env a request time_now h]
    by_cases hc : request.getCookie AUTH_COOKIE_NAME = ""
    · simp [hc]
    · cases hf : (a.expireCache time_now).m_user_cache.find (request.getCookie AUTH_COOKIE_NAME)
      · simp [hc]
      · simp [hc]

/-- C5, on the object after bob's login: a request for `/data` with bob's
cookie is allowed at time 2000 and nothing is sent; the same request without
a cookie is denied with a 401; and once the redirect page `/welcome` is
configured it is denied with a 302 to `/welcome`. -/
theorem handleRequest_allows_iff_cached_witness :
    exampleAuthLoggedIn.checksCookie exampleEnv dataRequest
    ∧ (exampleAuthLoggedIn.handleRequest exampleEnv dataRequest 2000).1 = true
    ∧ (exampleAuthLoggedIn.handleRequest exampleEnv dataRequest 2000).2.2.2 = none
    ∧ (exampleAuthLoggedIn.handleRequest exampleEnv anonymousRequest 2000).1 = false
    ∧ (exampleAuthLoggedIn.handleRequest exampleEnv anonymousRequest 2000).2.2.2
        = some { status_code := 401, location := none, cookie := CookieAction.keep }
    ∧ (redirectAuth.handleRequest exampleEnv anonymousRequest 2000).1 = false
    ∧ (redirectAuth.handleRequest exampleEnv anonymousRequest 2000).2.2.2
        = some { status_code := 302, location := some "/welcome",
                 cookie := CookieAction.keep } :=
  have hd := handleRequest_allows_iff_cached exampleEnv exampleAuthLoggedIn dataRequest 2000
    (by unfold cookie_auth.checksCookie; decide)
  have ha := handleRequest_allows_iff_cached exampleEnv exampleAuthLoggedIn anonymousRequest
    2000 (by unfold cookie_auth.checksCookie; decide)
  have hr := handleRequest_allows_iff_cached exampleEnv redirectAuth anonymousRequest 2000
    (by unfold cookie_auth.checksCookie; decide)
  ⟨by unfold cookie_auth.checksCookie; decide,
   hd.1.mpr ⟨by decide, by decide⟩,
   hd.2.2.2.2 (hd.1.mpr ⟨by decide, by decide⟩),
   by decide,
   ha.2.2.1 (by decide) (by decide),
   by decide,
   hr.2.2.2.1 (by decide) (by decide)⟩

/-- C6: in every state reachable under a non-decreasing clock, when
`handleRequest` has authorised a cookie at time `T`, a second `handleRequest`
with the same cookie made on the resulting state is authorised at every time
`t` with `T ≤ t ≤ T + CACHE_EXPIRATION` and denied at every time
`t > T + CACHE_EXPIRATION`. -/
theorem cookie_cache_ttl (env : AuthEnv) (a : cookie_auth) (t0 T : ptime)
    (request1 request2 : HTTPRequest)
    (hreach : Reachable env a t0) (hclock : t0 ≤ T)
    (h1 : a.checksCookie env request1)
    (hauth : (a.handleRequest env request1 T).1 = true)
    (h2 : (a.handleRequest env request1 T).2.1.checksCookie env request2)
    (hsame : request2.getCookie AUTH_COOKIE_NAME = request1.getCookie AUTH_COOKIE_NAME) :
    (∀ t : ptime, T ≤ t → t ≤ T + CACHE_EXPIRATION →
        ((a.handleRequest env request1 T).2.1.handleRequest env request2 t).1 = true)
    ∧ (∀ t : ptime, T + CACHE_EXPIRATION < t →
        ((a.handleRequest env request1 T).2.1.handleRequest env request2 t).1 = false) := by
  have hcl : a.m_cache_cleanup_time ≤ T := Nat.le_trans (reachable_cleanup_le env a t0 hreach) hclock
  have hcl0 : (a.expireCache T).m_cache_cleanup_time ≤ T := by
    rcases (expireCache_fields a T).2.2.2.2 with h | h
    · rw [h]; exact hcl
    · rw [h]
  rw [handleRequest_checksCookie env a request1 T h1] at hauth h2 ⊢
  by_cases hc : request1.getCookie AUTH_COOKIE_NAME = ""
  · simp [hc] at hauth
  · cases hf : (a.expireCache T).m_user_cache.find (request1.getCookie AUTH_COOKIE_NAME) with
    | none => simp [hc, hf] at hauth
    | some entry =>
      simp only [hc, ne_eq, not_false_eq_true, if_true, hf] at h2 ⊢
      have hc2 : request2.getCookie AUTH_COOKIE_NAME ≠ "" := by rw [hsame]; exact hc
      have hfind : lookup (request2.getCookie AUTH_COOKIE_NAME)
          (((a.expireCache T).m_user_cache.touch (request1.getCookie AUTH_COOKIE_NAME) T).entries)
          = some (T, entry.2) := by
        have := lookup_touch (request1.getCookie AUTH_COOKIE_NAME) T
          (request1.getCookie AUTH_COOKIE_NAME) (a.expireCache T).m_user_cache.entries
        simp only [user_cache_type.find] at hf
        rw [hsame]
        simp only [user_cache_type.touch]
        rw [this, hf]
        simp
      generalize hgen : ({ a.expireCache T with
          m_user_cache := (a.expireCache T).m_user_cache.touch
            (request1.getCookie AUTH_COOKIE_NAME) T } : cookie_auth) = a1 at h2 ⊢
      have hcl1 : a1.m_cache_cleanup_time ≤ T := by rw [← hgen]; exact hcl0
      have hfind1 : lookup (request2.getCookie AUTH_COOKIE_NAME) a1.m_user_cache.entries
          = some (T, entry.2) := by rw [← hgen]; exact hfind
      constructor
      · intro t _ hle2
        have hk : ¬ (t > (T, entry.2).1 + CACHE_EXPIRATION) := Nat.not_lt.mpr hle2
        have hhit : (a1.expireCache t).m_user_cache.find (request2.getCookie AUTH_COOKIE_NAME)
            = some (T, entry.2) := by
          unfold cookie_auth.expireCache
          split
          · simp only [user_cache_type.find, user_cache_type.expire]
            exact lookup_expire_kept t _ _ hk _ hfind1
          · exact hfind1
        rw [handleRequest_checksCookie env a1 request2 t h2]
        simp only [hc2, ne_eq, not_false_eq_true, if_true, hhit]
      · intro t hlt
        have hexp : t > a1.m_cache_cleanup_time + CACHE_EXPIRATION :=
          Nat.lt_of_le_of_lt (Nat.add_le_add_right hcl1 _) hlt
        have hk : t > (T, entry.2).1 + CACHE_EXPIRATION := hlt
        have hmiss : (a1.expireCache t).m_user_cache.find (request2.getCookie AUTH_COOKIE_NAME)
            = none := by
          unfold cookie_auth.expireCache
          rw [if_pos hexp]
          simp only [user_cache_type.find, user_cache_type.expire]
          exact lookup_expire_removed t _ _ hk _ a1.m_user_cache.nodup hfind1
        rw [handleRequest_checksCookie env a1 request2 t h2]
        simp only [hc2, ne_eq, not_false_eq_true, if_true, hmiss]

/-- C6, on the object after bob's login at time 1000: the cookie is authorised
at time 2000; a second request with it is authorised at time 5600 and denied
at time 5601. -/
theorem cookie_cache_ttl_witness :
    Reachable exampleEnv exampleAuthLoggedIn 1000
    ∧ (exampleAuthLoggedIn.handleRequest exampleEnv dataRequest 2000).1 = true
    ∧ ((exampleAuthLoggedIn.handleRequest exampleEnv dataRequest 2000).2.1.handleRequest
          exampleEnv dataRequest 5600).1 = true
    ∧ ((exampleAuthLoggedIn.handleRequest exampleEnv dataRequest 2000).2.1.handleRequest
          exampleEnv dataRequest 5601).1 = false :=
  have hr : Reachable exampleEnv exampleAuthLoggedIn 1000 :=
    Reachable.handleRequest exampleAuth 1000 1000 loginRequest
      (Reachable.create "/login" "/logout" "" 1000) (Nat.le_refl 1000)
  have hw := cookie_cache_ttl exampleEnv exampleAuthLoggedIn 1000 2000 dataRequest dataRequest
    hr (by decide) (by unfold cookie_auth.checksCookie; decide) (by decide)
    (by unfold cookie_auth.checksCookie; decide) rfl
  ⟨hr, by decide, hw.1 5600 (by decide) (by decide), hw.2 5601 (by decide)⟩

/-- C7: `expireCache(now)` equals the reference: the entries and the cleanup
time after the call are those of `expireCache_reference` (when
`now > cleanup_time + CACHE_EXPIRATION` exactly the entries with
`last_access + CACHE_EXPIRATION < now` are removed and the cleanup time
becomes `now`, otherwise both are unchanged), and nothing else changes. -/
theorem expireCache_eq_reference (a : cookie_auth) (time_now : ptime) :
    ((a.expireCache time_now).m_user_cache.entries, (a.expireCache time_now).m_cache_cleanup_time)
      = expireCache_reference a.m_user_cache.entries a.m_cache_cleanup_time time_now
    ∧ (a.expireCache time_now).m_login = a.m_login
    ∧ (a.expireCache time_now).m_logout = a.m_logout
    ∧ (a.expireCache time_now).m_redirect = a.m_redirect
    ∧ (a.expireCache time_now).m_random_calls = a.m_random_calls := by
  obtain ⟨h1, h2, h3, h4, _⟩ := expireCache_fields a time_now
  refine ⟨?_, h1, h2, h3, h4⟩
  unfold cookie_auth.expireCache expireCache_reference
  split
  · simp only [user_cache_type.expire, expireLoop_eq_filter]
  · rfl

/-- C9: on a cache hit in `handleRequest` the hit entry's last-access time
becomes the current time, its user is unchanged and is the user attached to
the request, every other entry that survived eviction keeps its timestamp and
user, and the keys of the cache are the same as after eviction. -/
theorem handleRequest_hit_frame (env : AuthEnv) (a : cookie_auth)
    (request : HTTPRequest) (time_now : ptime) (entry : ptime × PionUser)
    (h : a.checksCookie env request)
    (hc : request.getCookie AUTH_COOKIE_NAME ≠ "")
    (hhit : (a.expireCache time_now).m_user_cache.find (request.getCookie AUTH_COOKIE_NAME)
              = some entry) :
    (a.handleRequest env request time_now).1 = true
    ∧ (a.handleRequest env request time_now).2.2.1.user = some entry.2
    ∧ (a.handleRequest env request time_now).2.1.m_user_cache.find
          (request.getCookie AUTH_COOKIE_NAME) = some (time_now, entry.2)
    ∧ (∀ k : String, k ≠ request.getCookie AUTH_COOKIE_NAME →
          (a.handleRequest env request time_now).2.1.m_user_cache.find k
            = (a.expireCache time_now).m_user_cache.find k)
    ∧ (a.handleRequest env request time_now).2.1.m_user_cache.entries.map Prod.fst
        = (a.expireCache time_now).m_user_cache.entries.map Prod.fst := by
  rw [handleRequest_checksCookie env a request time_now h]
  simp only [hc, ne_eq, not_false_eq_true, if_true, hhit]
  refine ⟨trivial, rfl, ?_, ?_, ?_⟩
  · have := lookup_touch (request.getCookie AUTH_COOKIE_NAME) time_now
      (request.getCookie AUTH_COOKIE_NAME) (a.expireCache time_now).m_user_cache.entries
    simp only [user_cache_type.find, user_cache_type.touch] at hhit ⊢
    rw [this, hhit]
    simp
  · intro k hk
    have := lookup_touch (request.getCookie AUTH_COOKIE_NAME) time_now k
      (a.expireCache time_now).m_user_cache.entries
    simp only [user_cache_type.find, user_cache_type.touch]
    rw [this]
    simp [hk]
  · exact touch_keys _ _ _

/-- C9, on the object after bob's login at time 1000: a request with bob's
cookie at time 2000 hits the entry (1000, bob), which becomes (2000, bob). -/
theorem handleRequest_hit_frame_witness :
    exampleAuthLoggedIn.checksCookie exampleEnv dataRequest
    ∧ dataRequest.getCookie AUTH_COOKIE_NAME ≠ ""
    ∧ (exampleAuthLoggedIn.expireCache 2000).m_user_cache.find
        (dataRequest.getCookie AUTH_COOKIE_NAME) = some (1000, "bob")
    ∧ (exampleAuthLoggedIn.handleRequest exampleEnv dataRequest 2000).2.1.m_user_cache.find
        (dataRequest.getCookie AUTH_COOKIE_NAME) = some (2000, "bob") :=
  ⟨by unfold cookie_auth.checksCookie; decide, by decide, by decide,
   (handleRequest_hit_frame exampleEnv exampleAuthLoggedIn dataRequest 2000 (1000, "bob")
      (by unfold cookie_auth.checksCookie; decide) (by decide) (by decide)).2.2.1⟩

/-- C10, as amended: for every request whose resource, after a trailing slash
is stripped, equals the configured logout resource and not the login
resource: if it presents a non-empty `pion_session_id` cookie, that cookie is
not a key of the cache after `processLogin` and every other key is mapped as
before; if it presents no cookie the cache is unchanged; in both cases the
response (a 204 or a 302) deletes the cookie and `handleRequest` returns
false, leaving the object as `processLogin` left it. -/
theorem processLogin_logout (env : AuthEnv) (a : cookie_auth) (request : HTTPRequest)
    (time_now : ptime)
    (h1 : stripTrailingSlash request.resource = a.m_logout)
    (h2 : a.m_logout ≠ a.m_login) :
    (request.getCookie AUTH_COOKIE_NAME ≠ "" →
        (a.processLogin env request time_now).2.1.m_user_cache.contains
            (request.getCookie AUTH_COOKIE_NAME) = false
        ∧ ∀ k : String, k ≠ request.getCookie AUTH_COOKIE_NAME →
            (a.processLogin env request time_now).2.1.m_user_cache.find k
              = a.m_user_cache.find k)
    ∧ (request.getCookie AUTH_COOKIE_NAME = "" →
        (a.processLogin env request time_now).2.1.m_user_cache.entries = a.m_user_cache.entries)
    ∧ (∃ response : SentResponse,
        (a.processLogin env request time_now).2.2 = some response
        ∧ response.cookie = CookieAction.deleteCookie AUTH_COOKIE_NAME
        ∧ (response.status_code = RESPONSE_CODE_NO_CONTENT
            ∨ response.status_code = RESPONSE_CODE_FOUND))
    ∧ (a.handleRequest env request time_now).1 = false
    ∧ (a.handleRequest env request time_now).2.1.m_user_cache.entries
        = (a.processLogin env request time_now).2.1.m_user_cache.entries
    ∧ (a.handleRequest env request time_now).2.2.2 = (a.processLogin env request time_now).2.2 := by
  have hne : stripTrailingSlash request.resource ≠ a.m_login := by rw [h1]; exact h2
  have hp : (a.processLogin env request time_now).1 = true := by
    simp [cookie_auth.processLogin, h1, h2]
  refine ⟨?_, ?_, ?_, ?_, ?_, ?_⟩
  · intro hc
    simp only [cookie_auth.processLogin, h1, h2, hc, ne_eq, not_true_eq_false, and_false,
      if_false, not_false_eq_true, if_true, user_cache_type.contains]
    cases hf : a.m_user_cache.find (request.getCookie AUTH_COOKIE_NAME) with
    | none =>
      simp only [hf]
      exact ⟨rfl, fun _ _ => trivial⟩
    | some v =>
      simp only [user_cache_type.find, user_cache_type.erase]
      refine ⟨?_, ?_⟩
      · rw [lookup_erase_self _ _ a.m_user_cache.nodup]; rfl
      · intro k hk
        exact lookup_erase_other _ _ hk _
  · intro hc
    simp [cookie_auth.processLogin, h1, h2, hc]
  · simp only [cookie_auth.processLogin, h1, h2, ne_eq, not_true_eq_false, and_false,
      if_false]
    by_cases hu : env.url_decode (request.getQuery "url") = ""
    · exact ⟨_, rfl, by simp [hu, handleOk], Or.inl (by simp [hu, handleOk])⟩
    · exact ⟨_, rfl, by simp [hu, handleRedirection], Or.inr (by simp [hu, handleRedirection])⟩
  · simp [cookie_auth.handleRequest, hp]
  · simp [cookie_auth.handleRequest, hp]
  · simp [cookie_auth.handleRequest, hp]

/-- C10, as amended, on the object after bob's login: a request for `/logout`
with bob's cookie removes the cookie from the cache, and `handleRequest`
returns false. -/
theorem processLogin_logout_witness :
    stripTrailingSlash logoutRequest.resource = exampleAuthLoggedIn.m_logout
    ∧ exampleAuthLoggedIn.m_logout ≠ exampleAuthLoggedIn.m_login
    ∧ logoutRequest.getCookie AUTH_COOKIE_NAME ≠ ""
    ∧ exampleAuthLoggedIn.m_user_cache.contains (logoutRequest.getCookie AUTH_COOKIE_NAME) = true
    ∧ (exampleAuthLoggedIn.processLogin exampleEnv logoutRequest 3000).2.1.m_user_cache.contains
        (logoutRequest.getCookie AUTH_COOKIE_NAME) = false
    ∧ (exampleAuthLoggedIn.handleRequest exampleEnv logoutRequest 3000).1 = false :=
  ⟨by decide, by decide, by decide, by decide,
   ((processLogin_logout exampleEnv exampleAuthLoggedIn logoutRequest 3000 (by decide)
      (by decide)).1 (by decide)).1,
   (processLogin_logout exampleEnv exampleAuthLoggedIn logoutRequest 3000 (by decide)
      (by decide)).2.2.2.1⟩

/-- C10 as stated fails when login and logout are configured with the same
resource: a request for that resource with a cookie that is in the cache is
handled as a login attempt, the cookie is still a key of the cache afterwards
and the response (a 401) does not delete the cookie. -/
theorem processLogin_logout_same_resource :
    stripTrailingSlash authLogoutRequest.resource = sameResourceAuth.m_logout
    ∧ authLogoutRequest.resource = sameResourceAuth.m_logout
    ∧ authLogoutRequest.getCookie AUTH_COOKIE_NAME = exampleCookie
    ∧ exampleCookie ≠ ""
    ∧ sameResourceAuth.m_user_cache.contains exampleCookie = true
    ∧ (sameResourceAuth.processLogin exampleEnv authLogoutRequest 5000).2.1.m_user_cache.contains
        exampleCookie = true
    ∧ (sameResourceAuth.processLogin exampleEnv authLogoutRequest 5000).2.2
        = some { status_code := RESPONSE_CODE_UNAUTHORIZED, location := none,
                 cookie := CookieAction.keep } := by
  decide


/-- C11: for every request that is neither a login nor a logout request and
whose resource equals the configured non-empty redirect page, `handleRequest`
returns true whatever cookie the request carries, sends no response, and leaves
the request and the whole object (user cache and cleanup time included)
unchanged. -/
theorem handleRequest_redirect_page (env : AuthEnv) (a : cookie_auth)
    (request : HTTPRequest) (time_now : ptime)
    (h1 : stripTrailingSlash request.resource ≠ a.m_login)
    (h2 : stripTrailingSlash request.resource ≠ a.m_logout)
    (h3 : a.m_redirect ≠ "")
    (h4 : request.resource = a.m_redirect) :
    (a.handleRequest env request time_now).1 = true
    ∧ (a.handleRequest env request time_now).2.1.m_user_cache.entries = a.m_user_cache.entries
    ∧ (a.handleRequest env request time_now).2.1.m_cache_cleanup_time = a.m_cache_cleanup_time
    ∧ a.handleRequest env request time_now = (true, a, request, none) := by
  have h : a.handleRequest env request time_now = (true, a, request, none) := by
    unfold cookie_auth.handleRequest
    rw [processLogin_other env a request time_now h1 h2]
    by_cases hn : env.needAuthentication request = true
    · simp [hn, h3, h4]
    · simp [hn]
  rw [h]
  exact ⟨rfl, rfl, rfl, rfl⟩

/-- C11, on an object whose redirect page is `/welcome` and whose cache holds
bob's session: a request for `/welcome` without any cookie is allowed at time
9000, long after the cleanup deadline, and the cache still holds the session. -/
theorem handleRequest_redirect_page_witness :
    stripTrailingSlash welcomeRequest.resource ≠ redirectAuth.m_login
    ∧ stripTrailingSlash welcomeRequest.resource ≠ redirectAuth.m_logout
    ∧ redirectAuth.m_redirect ≠ ""
    ∧ welcomeRequest.resource = redirectAuth.m_redirect
    ∧ welcomeRequest.getCookie AUTH_COOKIE_NAME = ""
    ∧ (redirectAuth.handleRequest exampleEnv welcomeRequest 9000).1 = true
    ∧ (redirectAuth.handleRequest exampleEnv welcomeRequest 9000).2.1.m_user_cache.find
        exampleCookie = some (1000, "bob") :=
  ⟨by decide, by decide, by decide, by decide, by decide,
   (handleRequest_redirect_page exampleEnv redirectAuth welcomeRequest 9000
      (by decide) (by decide) (by decide) (by decide)).1,
   by decide⟩


/-! ## The invariant of the user cache -/

theorem mem_of_lookup (key : String) (v : ptime × PionUser) (l : List CacheEntry)
    (h : lookup key l = some v) : (key, v) ∈ l := by
  induction l with
  | nil => simp [lookup] at h
  | cons e rest ih =>
    by_cases he : e.1 = key
    · have hv : e.2 = v := by simpa [lookup, he] using h
      have : e = (key, v) := by rw [← he, ← hv]
      rw [this]
      exact List.mem_cons_self _ _
    · have h2 : lookup key rest = some v := by simpa [lookup, he] using h
      exact List.mem_cons_of_mem _ (ih h2)

theorem expireCache_cacheFresh (a : cookie_auth) (time_now : ptime) (h : a.cacheFresh) :
    (a.expireCache time_now).cacheFresh := by
  unfold cookie_auth.expireCache
  split
  · intro e he
    have hm : e ∈ (expireLoop time_now a.m_user_cache.entries).1 := he
    rw [expireLoop_eq_filter] at hm
    have hk := (List.mem_filter.mp hm).2
    have hk2 : ¬ (e.2.1 + CACHE_EXPIRATION < time_now) := by simpa using hk
    exact Nat.le_of_not_lt hk2
  · exact h

theorem touch_cacheFresh (a : cookie_auth) (key : String) (time_now : ptime)
    (hcl : a.m_cache_cleanup_time ≤ time_now) (h : a.cacheFresh) :
    cookie_auth.cacheFresh { a with m_user_cache := a.m_user_cache.touch key time_now } := by
  intro e he
  have hm : e ∈ a.m_user_cache.entries.map (touchEntry key time_now) := he
  obtain ⟨e0, he0, rfl⟩ := List.mem_map.mp hm
  unfold touchEntry
  split
  · exact Nat.le_trans hcl (Nat.le_add_right _ _)
  · exact h e0 he0

theorem processLogin_cacheFresh (env : AuthEnv) (a : cookie_auth) (request : HTTPRequest)
    (time_now : ptime) (hcl : a.m_cache_cleanup_time ≤ time_now) (h : a.cacheFresh) :
    (a.processLogin env request time_now).2.1.cacheFresh := by
  unfold cookie_auth.processLogin
  simp only []
  split
  · exact h
  · split
    · split
      · exact h
      · intro e he
        simp only [user_cache_type.insert] at he
        split at he
        · exact h e he
        · rcases List.mem_cons.mp he with h0 | h0
          · rw [h0]
            exact Nat.le_trans hcl (Nat.le_add_right _ _)
          · exact h e h0
    · split
      · split
        · intro e he
          exact h e ((eraseEntry _ a.m_user_cache.entries).2.subset he)
        · exact h
      · exact h

theorem handleRequest_cacheFresh (env : AuthEnv) (a : cookie_auth) (request : HTTPRequest)
    (time_now : ptime) (hcl : a.m_cache_cleanup_time ≤ time_now) (h : a.cacheFresh) :
    (a.handleRequest env request time_now).2.1.cacheFresh := by
  have hcl1 : (a.expireCache time_now).m_cache_cleanup_time ≤ time_now := by
    rcases (expireCache_fields a time_now).2.2.2.2 with h1 | h1
    · rw [h1]; exact hcl
    · rw [h1]
  have h1 := expireCache_cacheFresh a time_now h
  unfold cookie_auth.handleRequest
  simp only []
  split
  · exact processLogin_cacheFresh env a request time_now hcl h
  · split
    · exact h
    · split
      · exact h
      · split
        · split
          · exact touch_cacheFresh _ _ _ hcl1 h1
          · exact h1
        · exact h1

/-- In every state reachable under a clock that never runs backwards, every
cache entry was last accessed no more than `CACHE_EXPIRATION` seconds before
the cleanup time. -/
theorem reachable_cacheFresh (env : AuthEnv) (a : cookie_auth) (t : ptime)
    (h : Reachable env a t) : a.cacheFresh := by
  induction h with
  | create login logout redirect t =>
    intro e he
    cases he
  | handleRequest a t t1 request hr hle ih =>
    exact handleRequest_cacheFresh env a request t1
      (Nat.le_trans (reachable_cleanup_le env a t hr) hle) ih
  | setOption a a1 t name value _ hs ih =>
    unfold cookie_auth.setOption at hs
    split at hs
    · cases hs; exact ih
    · split at hs
      · cases hs; exact ih
      · split at hs
        · cases hs; exact ih
        · cases hs
  | tick a t t1 _ _ ih => exact ih

/-- C27: in every state of `cookie_auth` reachable under a clock that never
runs backwards, every cache entry satisfies
`cleanup_time ≤ last_access + CACHE_EXPIRATION`; and therefore, when
`handleRequest` at a later time `t1` authorises the cookie of a request that
it decides by its cookie, the entry of that cookie was last accessed no more
than `2 * CACHE_EXPIRATION` seconds before `t1`. -/
theorem reachable_cache_invariant (env : AuthEnv) (a : cookie_auth) (t : ptime)
    (h : Reachable env a t) :
    (∀ e ∈ a.m_user_cache.entries, a.m_cache_cleanup_time ≤ e.2.1 + CACHE_EXPIRATION)
    ∧ ∀ (t1 : ptime) (request : HTTPRequest) (entry : ptime × PionUser),
        t ≤ t1 → a.checksCookie env request →
        a.m_user_cache.find (request.getCookie AUTH_COOKIE_NAME) = some entry →
        (a.handleRequest env request t1).1 = true →
        t1 ≤ entry.1 + 2 * CACHE_EXPIRATION := by
  have hinv := reachable_cacheFresh env a t h
  refine ⟨hinv, ?_⟩
  intro t1 request entry _ hc hfind hauth
  rw [handleRequest_checksCookie env a request t1 hc] at hauth
  have hmem := mem_of_lookup _ _ _ hfind
  have hfresh : a.m_cache_cleanup_time ≤ entry.1 + CACHE_EXPIRATION := hinv _ hmem
  by_cases hexp : t1 > a.m_cache_cleanup_time + CACHE_EXPIRATION
  · by_cases hold : t1 > entry.1 + CACHE_EXPIRATION
    · have hgone : (a.expireCache t1).m_user_cache.find (request.getCookie AUTH_COOKIE_NAME)
          = none := by
        simp only [cookie_auth.expireCache, hexp, if_true, user_cache_type.find,
          user_cache_type.expire]
        exact lookup_expire_removed t1 _ entry hold _ a.m_user_cache.nodup hfind
      by_cases hck : request.getCookie AUTH_COOKIE_NAME = ""
      · simp [hck] at hauth
      · simp [hck, hgone] at hauth
    · have h1 : t1 ≤ entry.1 + CACHE_EXPIRATION := Nat.le_of_not_lt hold
      have h2 : entry.1 + CACHE_EXPIRATION ≤ entry.1 + 2 * CACHE_EXPIRATION := by
        rw [Nat.two_mul, ← Nat.add_assoc]
        exact Nat.le_add_right _ _
      exact Nat.le_trans h1 h2
  · have h1 : t1 ≤ a.m_cache_cleanup_time + CACHE_EXPIRATION := Nat.le_of_not_lt hexp
    have h2 : a.m_cache_cleanup_time + CACHE_EXPIRATION
        ≤ entry.1 + CACHE_EXPIRATION + CACHE_EXPIRATION := Nat.add_le_add_right hfresh _
    have h3 : entry.1 + CACHE_EXPIRATION + CACHE_EXPIRATION = entry.1 + 2 * CACHE_EXPIRATION := by
      rw [Nat.two_mul, Nat.add_assoc]
    rw [← h3]
    exact Nat.le_trans h1 h2

/-- C27, on the object after bob's login at time 1000: the entry of bob's
cookie was last accessed at 1000, the cleanup time is 1000, and the request
authorised at time 2000 comes no more than 7200 seconds after 1000. -/
theorem reachable_cache_invariant_witness :
    Reachable exampleEnv exampleAuthLoggedIn 1000
    ∧ exampleAuthLoggedIn.m_user_cache.find (dataRequest.getCookie AUTH_COOKIE_NAME)
        = some (1000, "bob")
    ∧ (exampleAuthLoggedIn.handleRequest exampleEnv dataRequest 2000).1 = true
    ∧ exampleAuthLoggedIn.m_cache_cleanup_time ≤ 1000 + CACHE_EXPIRATION
    ∧ 2000 ≤ 1000 + 2 * CACHE_EXPIRATION :=
  have hr : Reachable exampleEnv exampleAuthLoggedIn 1000 :=
    Reachable.handleRequest exampleAuth 1000 1000 loginRequest
      (Reachable.create "/login" "/logout" "" 1000) (Nat.le_refl 1000)
  have hw := reachable_cache_invariant exampleEnv exampleAuthLoggedIn 1000 hr
  ⟨hr, by decide, by decide,
    hw.1 (exampleCookie, (1000, "bob")) (by decide),
    hw.2 2000 dataRequest (1000, "bob") (by decide)
      (by unfold cookie_auth.checksCookie; decide) (by decide) (by decide)⟩

/-- C28: for every login request whose user and password the user manager
rejects, `processLogin` returns true after sending the unauthorized response
and leaves the whole object, user cache included, as it was; the response
sets no cookie and is a 302 to the redirect page when one is configured and
a 401 otherwise; and `handleRequest` returns false with the same response. -/
theorem processLogin_rejected (env : AuthEnv) (a : cookie_auth) (request : HTTPRequest)
    (time_now : ptime)
    (h1 : stripTrailingSlash request.resource = a.m_login)
    (hu : env.getUser (env.url_decode (request.getQuery "user"))
            (env.url_decode (request.getQuery "pass")) = none) :
    a.processLogin env request time_now = (true, a, some a.handleUnauthorized)
    ∧ a.handleRequest env request time_now = (false, a, request, some a.handleUnauthorized)
    ∧ a.handleUnauthorized.cookie = CookieAction.keep
    ∧ (a.m_redirect ≠ "" →
        a.handleUnauthorized
          = { status_code := RESPONSE_CODE_FOUND, location := some a.m_redirect,
              cookie := CookieAction.keep })
    ∧ (a.m_redirect = "" →
        a.handleUnauthorized
          = { status_code := RESPONSE_CODE_UNAUTHORIZED, location := none,
              cookie := CookieAction.keep }) := by
  have hp : a.processLogin env request time_now = (true, a, some a.handleUnauthorized) := by
    simp [cookie_auth.processLogin, h1, hu]
  refine ⟨hp, ?_, ?_, ?_, ?_⟩
  · simp [cookie_auth.handleRequest, hp]
  · by_cases hr : a.m_redirect = ""
    · simp [cookie_auth.handleUnauthorized, hr]
    · simp [cookie_auth.handleUnauthorized, hr, handleRedirection]
  · intro hr
    simp [cookie_auth.handleUnauthorized, hr, handleRedirection]
  · intro hr
    simp [cookie_auth.handleUnauthorized, hr]

/-- C28, on a login request with a wrong password: without a redirect page
the response is a 401 and the cache stays empty; with the redirect page
`/welcome` and bob's session in the cache the response is a 302 to
`/welcome` and the cache still holds exactly bob's session. -/
theorem processLogin_rejected_witness :
    (exampleAuth.handleRequest exampleEnv badLoginRequest 1000).1 = false
    ∧ (exampleAuth.handleRequest exampleEnv badLoginRequest 1000).2.1.m_user_cache.entries = []
    ∧ (exampleAuth.handleRequest exampleEnv badLoginRequest 1000).2.2.2
        = some { status_code := 401, location := none, cookie := CookieAction.keep }
    ∧ (redirectAuth.handleRequest exampleEnv badLoginRequest 2000).1 = false
    ∧ (redirectAuth.handleRequest exampleEnv badLoginRequest 2000).2.1.m_user_cache.entries
        = [(exampleCookie, (1000, "bob"))]
    ∧ (redirectAuth.handleRequest exampleEnv badLoginRequest 2000).2.2.2
        = some { status_code := 302, location := some "/welcome",
                 cookie := CookieAction.keep } :=
  have h := processLogin_rejected exampleEnv exampleAuth badLoginRequest 1000
    (by decide) (by decide)
  have h2 := processLogin_rejected exampleEnv redirectAuth badLoginRequest 2000
    (by decide) (by decide)
  ⟨by rw [h.2.1], by rw [h.2.1]; decide, by rw [h.2.1, h.2.2.2.2 (by decide)]; decide,
    by rw [h2.2.1], by rw [h2.2.1]; decide,
    by rw [h2.2.1, h2.2.2.2.1 (by decide)]; decide⟩

end http

namespace plugins

set_option maxRecDepth 100000


/-! ## HTTPProtocol -/

theorem lookupTerm_storeTerm (t t' : TermRef) (v : EventValue)
    (l : List (TermRef × EventValue)) :
    lookupTerm t' (storeTerm t v l) = if t' = t then some v else lookupTerm t' l := by
  induction l with
  | nil =>
    by_cases h : t' = t
    · simp [storeTerm, lookupTerm, h]
    · have h' : ¬ t = t' := fun e => h e.symm
      simp [storeTerm, lookupTerm, h, h']
  | cons kv rest ih =>
    by_cases hk : kv.1 = t
    · by_cases h : t' = t
      · simp [storeTerm, lookupTerm, hk, h]
      · have h' : ¬ t = t' := fun e => h e.symm
        simp [storeTerm, lookupTerm, hk, h, h']
    · by_cases hk' : kv.1 = t'
      · have h : ¬ t' = t := fun e => hk (hk'.trans e)
        simp [storeTerm, lookupTerm, hk, hk', h]
      · simp [storeTerm, lookupTerm, hk, hk', ih]

theorem get_setUInt (e : Event) (t t' : TermRef) (n : Nat) :
    (e.setUInt t n).get t' = if t' = t then some (EventValue.uint n) else e.get t' := by
  simp [Event.setUInt, Event.get, lookupTerm_storeTerm]

theorem get_setString (e : Event) (t t' : TermRef) (s : String) :
    (e.setString t s).get t'
      = if t' = t then some (EventValue.string s) else e.get t' := by
  simp [Event.setString, Event.get, lookupTerm_storeTerm]

theorem get_checkContentExtraction (env : ProtocolEnv) (e : Event) (rule : ExtractionRule)
    (msg : net.HTTPMessage) (t t' : TermRef) (h : t' ≠ t) :
    (checkContentExtraction env e rule msg t).get t' = e.get t' := by
  unfold checkContentExtraction
  split
  · rw [get_setString, if_neg h]
  · rfl

/-- The five terms of an event populated by `generateEvent`. -/
theorem populateEvent_terms {σ : Type} (P : MessageParser σ) (env : ProtocolEnv)
    (st : HTTPProtocol σ) (e0 : Event) :
    (populateEvent P env st e0).get VOCAB_CLICKSTREAM_STATUS
        = some (EventValue.uint st.m_response.getStatusCode)
    ∧ (populateEvent P env st e0).get VOCAB_CLICKSTREAM_CS_BYTES
        = some (EventValue.uint (P.getTotalBytesRead st.requestParser))
    ∧ (populateEvent P env st e0).get VOCAB_CLICKSTREAM_SC_BYTES
        = some (EventValue.uint (P.getTotalBytesRead st.responseParser))
    ∧ (populateEvent P env st e0).get VOCAB_CLICKSTREAM_BYTES
        = some (EventValue.uint
            ((P.getTotalBytesRead st.requestParser + P.getTotalBytesRead st.responseParser)
              % net.SIZE_T_MODULUS))
    ∧ (populateEvent P env st e0).get VOCAB_CLICKSTREAM_CACHED
        = some (EventValue.uint
            (if st.m_response.getStatusCode = RESPONSE_CODE_NOT_MODIFIED then 1 else 0)) := by
  refine ⟨?_, ?_, ?_, ?_, ?_⟩ <;>
  · simp only [populateEvent]
    rw [get_checkContentExtraction _ _ _ _ _ _ (by decide),
      get_checkContentExtraction _ _ _ _ _ _ (by decide)]
    simp only [get_setUInt, get_setString]
    repeat (first | rw [if_pos True.intro] | rw [if_neg (by decide)])


/-- C16: in the request direction `readNext` never returns true and leaves the
event pointer as it was.  When the request parser accepts, the result is
indeterminate and the stored response is updated with the request's
information; otherwise the parser's result is returned and the stored
response is unchanged.  In the response direction `readNext` returns true
exactly when the response parser accepts; then the event pointer is assigned
by `generateEvent`, and otherwise it is left as it was. -/
theorem readNext_request_direction {σ : Type} (P : MessageParser σ) (env : ProtocolEnv)
    (st : HTTPProtocol σ) (buf : List net.Byte) (ev : Option Event) :
    (st.readNext P env true buf ev).1 ≠ net.tribool.true_value
    ∧ (st.readNext P env true buf ev).2.2 = ev
    ∧ ((P.parseRequest (P.setReadBuffer st.requestParser buf) st.m_request).1
          = net.tribool.true_value →
        (st.readNext P env true buf ev).1 = net.tribool.indeterminate_value
        ∧ (st.readNext P env true buf ev).2.1.m_request
            = (P.parseRequest (P.setReadBuffer st.requestParser buf) st.m_request).2.2
        ∧ (st.readNext P env true buf ev).2.1.m_response
            = updateRequestInfo st.m_response
                (P.parseRequest (P.setReadBuffer st.requestParser buf) st.m_request).2.2)
    ∧ ((P.parseRequest (P.setReadBuffer st.requestParser buf) st.m_request).1
          ≠ net.tribool.true_value →
        (st.readNext P env true buf ev).1
            = (P.parseRequest (P.setReadBuffer st.requestParser buf) st.m_request).1
        ∧ (st.readNext P env true buf ev).2.1.m_response = st.m_response)
    ∧ ((st.readNext P env false buf ev).1 = net.tribool.true_value
        ↔ (P.parseResponse (P.setReadBuffer st.responseParser buf) st.m_response).1
            = net.tribool.true_value)
    ∧ ((P.parseResponse (P.setReadBuffer st.responseParser buf) st.m_response).1
          = net.tribool.true_value →
        (st.readNext P env false buf ev).2.2
          = (st.readNext P env false buf ev).2.1.generateEvent P env)
    ∧ ((P.parseResponse (P.setReadBuffer st.responseParser buf) st.m_response).1
          ≠ net.tribool.true_value →
        (st.readNext P env false buf ev).2.2 = ev) := by
  refine ⟨?_, ?_, ?_, ?_, ?_, ?_, ?_⟩
  · by_cases h : (P.parseRequest (P.setReadBuffer st.requestParser buf) st.m_request).1
        = net.tribool.true_value
    · simp [HTTPProtocol.readNext, h]
    · simp [HTTPProtocol.readNext, h]
  · by_cases h : (P.parseRequest (P.setReadBuffer st.requestParser buf) st.m_request).1
        = net.tribool.true_value
    · simp [HTTPProtocol.readNext, h]
    · simp [HTTPProtocol.readNext, h]
  · intro h
    simp [HTTPProtocol.readNext, h]
  · intro h
    simp [HTTPProtocol.readNext, h]
  · by_cases h : (P.parseResponse (P.setReadBuffer st.responseParser buf) st.m_response).1
        = net.tribool.true_value
    · simp [HTTPProtocol.readNext, h]
    · simp [HTTPProtocol.readNext, h]
  · intro h
    simp [HTTPProtocol.readNext, h]
  · intro h
    simp [HTTPProtocol.readNext, h]

/-- The request bytes read in the request direction give indeterminate, no
event, and a stored response that knows the method `GET`; the response bytes
read afterwards in the response direction give true and an event. -/
theorem readNext_request_direction_witness :
    (freshProtocol.readNext (replayParser replayRequest 200 "OK") replayEnv true
        replayRequestBytes none).1 = net.tribool.indeterminate_value
    ∧ (freshProtocol.readNext (replayParser replayRequest 200 "OK") replayEnv true
        replayRequestBytes none).2.2 = none
    ∧ (freshProtocol.readNext (replayParser replayRequest 200 "OK") replayEnv true
        replayRequestBytes none).2.1.m_response.toHTTPMessage.request_method = "GET"
    ∧ ((protocolAfterRequest 200 "OK").readNext (replayParser replayRequest 200 "OK")
        replayEnv false replayResponse200Bytes none).1 = net.tribool.true_value
    ∧ ((protocolAfterRequest 200 "OK").readNext (replayParser replayRequest 200 "OK")
        replayEnv false replayResponse200Bytes none).2.2 ≠ none :=
  have h := readNext_request_direction (replayParser replayRequest 200 "OK") replayEnv
    freshProtocol replayRequestBytes none
  have h2 := readNext_request_direction (replayParser replayRequest 200 "OK") replayEnv
    (protocolAfterRequest 200 "OK") replayResponse200Bytes none
  ⟨(h.2.2.1 (by decide)).1, h.2.1,
    by rw [(h.2.2.1 (by decide)).2.2]; decide,
    h2.2.2.2.2.1.2 (by decide),
    by rw [h2.2.2.2.2.2.1 (by decide)]; decide⟩

/-- C17: when the response parser accepts in `readNext` (and the factory
creates an event), the event has status = the status code of the parsed
response, cs-bytes and sc-bytes = the totals read by the request parser and
by the response parser, bytes = their sum as computed in `std::size_t` (the
exact sum whenever it is below 2^64), and cached = 1 for status 304 and 0
for any other status. -/
theorem readNext_event_fields {σ : Type} (P : MessageParser σ) (env : ProtocolEnv)
    (st : HTTPProtocol σ) (buf : List net.Byte) (ev : Option Event) (e0 : Event)
    (hacc : (P.parseResponse (P.setReadBuffer st.responseParser buf) st.m_response).1
      = net.tribool.true_value)
    (hcreate : env.create st.m_event_type = some e0) :
    ∃ e : Event,
      (st.readNext P env false buf ev).2.2 = some e
      ∧ (st.readNext P env false buf ev).2.1.m_response
          = (P.parseResponse (P.setReadBuffer st.responseParser buf) st.m_response).2.2
      ∧ (st.readNext P env false buf ev).2.1.requestParser = st.requestParser
      ∧ (st.readNext P env false buf ev).2.1.responseParser
          = (P.parseResponse (P.setReadBuffer st.responseParser buf) st.m_response).2.1
      ∧ e.get VOCAB_CLICKSTREAM_STATUS
          = some (EventValue.uint
              (st.readNext P env false buf ev).2.1.m_response.getStatusCode)
      ∧ e.get VOCAB_CLICKSTREAM_CS_BYTES
          = some (EventValue.uint
              (P.getTotalBytesRead (st.readNext P env false buf ev).2.1.requestParser))
      ∧ e.get VOCAB_CLICKSTREAM_SC_BYTES
          = some (EventValue.uint
              (P.getTotalBytesRead (st.readNext P env false buf ev).2.1.responseParser))
      ∧ e.get VOCAB_CLICKSTREAM_BYTES
          = some (EventValue.uint
              ((P.getTotalBytesRead (st.readNext P env false buf ev).2.1.requestParser
                + P.getTotalBytesRead (st.readNext P env false buf ev).2.1.responseParser)
                % net.SIZE_T_MODULUS))
      ∧ (P.getTotalBytesRead (st.readNext P env false buf ev).2.1.requestParser
            + P.getTotalBytesRead (st.readNext P env false buf ev).2.1.responseParser
            < net.SIZE_T_MODULUS →
          e.get VOCAB_CLICKSTREAM_BYTES
            = some (EventValue.uint
                (P.getTotalBytesRead (st.readNext P env false buf ev).2.1.requestParser
                  + P.getTotalBytesRead
                      (st.readNext P env false buf ev).2.1.responseParser)))
      ∧ ((st.readNext P env false buf ev).2.1.m_response.getStatusCode = 304 →
          e.get VOCAB_CLICKSTREAM_CACHED = some (EventValue.uint 1))
      ∧ ((st.readNext P env false buf ev).2.1.m_response.getStatusCode ≠ 304 →
          e.get VOCAB_CLICKSTREAM_CACHED = some (EventValue.uint 0)) := by
  have hst : (st.readNext P env false buf ev).2.1
      = { st with
          responseParser :=
            (P.parseResponse (P.setReadBuffer st.responseParser buf) st.m_response).2.1,
          m_response :=
            (P.parseResponse (P.setReadBuffer st.responseParser buf) st.m_response).2.2 } := by
    simp [HTTPProtocol.readNext, hacc]
  have hev : (st.readNext P env false buf ev).2.2
      = some (populateEvent P env (st.readNext P env false buf ev).2.1 e0) := by
    rw [hst]
    simp [HTTPProtocol.readNext, hacc, HTTPProtocol.generateEvent, hcreate]
  have hterms := populateEvent_terms P env (st.readNext P env false buf ev).2.1 e0
  refine ⟨_, hev, ?_, ?_, ?_, hterms.1, hterms.2.1, hterms.2.2.1, hterms.2.2.2.1, ?_, ?_, ?_⟩
  · rw [hst]
  · rw [hst]
  · rw [hst]
  · intro hlt
    rw [hterms.2.2.2.1, Nat.mod_eq_of_lt hlt]
  · intro h304
    rw [hterms.2.2.2.2, if_pos (show _ = RESPONSE_CODE_NOT_MODIFIED from h304)]
  · intro h304
    rw [hterms.2.2.2.2, if_neg (show ¬ _ = RESPONSE_CODE_NOT_MODIFIED from h304)]

/-- The replay of the request (47 bytes) and of a 304 response (29 bytes)
gives an event with status 304, cs-bytes 47, sc-bytes 29, bytes 76 and
cached 1. -/
theorem readNext_event_fields_witness :
    ((replayParser replayRequest 304 "Not Modified").parseResponse
        ((replayParser replayRequest 304 "Not Modified").setReadBuffer
          (protocolAfterRequest 304 "Not Modified").responseParser replayResponse304Bytes)
        (protocolAfterRequest 304 "Not Modified").m_response).1 = net.tribool.true_value
    ∧ replayEnv.create (protocolAfterRequest 304 "Not Modified").m_event_type
        = some { event_type := "urn:vocab:clickstream#http-event", values := [] }
    ∧ ∃ e : Event,
        ((protocolAfterRequest 304 "Not Modified").readNext
          (replayParser replayRequest 304 "Not Modified") replayEnv false
          replayResponse304Bytes none).2.2 = some e
        ∧ e.get VOCAB_CLICKSTREAM_STATUS = some (EventValue.uint 304)
        ∧ e.get VOCAB_CLICKSTREAM_CS_BYTES = some (EventValue.uint 47)
        ∧ e.get VOCAB_CLICKSTREAM_SC_BYTES = some (EventValue.uint 29)
        ∧ e.get VOCAB_CLICKSTREAM_BYTES = some (EventValue.uint 76)
        ∧ e.get VOCAB_CLICKSTREAM_CACHED = some (EventValue.uint 1) :=
  have h := readNext_event_fields (replayParser replayRequest 304 "Not Modified") replayEnv
    (protocolAfterRequest 304 "Not Modified") replayResponse304Bytes none
    { event_type := "urn:vocab:clickstream#http-event", values := [] }
    (by decide) (by decide)
  ⟨by decide, by decide,
    h.elim (fun e he =>
      ⟨e, he.1,
        he.2.2.2.2.1.trans (by decide),
        he.2.2.2.2.2.1.trans (by decide),
        he.2.2.2.2.2.2.1.trans (by decide),
        (he.2.2.2.2.2.2.2.2.1 (by decide)).trans (by decide),
        he.2.2.2.2.2.2.2.2.2.1 (by decide)⟩)⟩

/-! ## LogOutputReactor -/

theorem fsRead_fsRemove (fs : FileSystem) (p q : String) :
    fsRead (fsRemove fs p) q = if q = p then none else fsRead fs q := by
  induction fs with
  | nil => simp [fsRemove, fsRead]
  | cons f rest ih =>
    unfold fsRemove at ih
    by_cases hf : f.1 = p
    · by_cases hq : q = p
      · simpa [fsRemove, fsRead, hf, hq] using ih
      · have hfq : ¬ f.1 = q := fun e => hq (e.symm.trans hf)
        have hpq : ¬ p = q := fun e => hq e.symm
        simpa [fsRemove, fsRead, hf, hq, hfq, hpq] using ih
    · by_cases hfq : f.1 = q
      · have hq : ¬ q = p := fun e => hf (hfq.trans e)
        simp [fsRemove, fsRead, hf, hq, hfq]
      · simpa [fsRemove, fsRead, hf, hfq] using ih

theorem fsRead_fsWrite (fs : FileSystem) (p q : String) (bytes : List net.Byte) :
    fsRead (fsWrite fs p bytes) q = if q = p then some bytes else fsRead fs q := by
  by_cases hq : q = p
  · simp [fsWrite, fsRead, hq]
  · have hpq : ¬ p = q := fun e => hq e.symm
    simp [fsWrite, fsRead, hq, hpq, fsRead_fsRemove]

theorem fsRead_fsRename (fs : FileSystem) (a b q : String) (bytes : List net.Byte)
    (h : fsRead fs a = some bytes) (hne : a ≠ b) :
    fsRead (fsRename fs a b) q
      = if q = b then some bytes else if q = a then none else fsRead fs q := by
  simp [fsRename, h, hne, fsRead_fsWrite, fsRead_fsRemove]

theorem fsExists_eq_false (fs : FileSystem) (p : String) :
    fsExists fs p = false ↔ fsRead fs p = none := by
  simp [fsExists]

theorem fsExists_eq_true (fs : FileSystem) (p : String) :
    fsExists fs p = true ↔ ∃ bytes, fsRead fs p = some bytes := by
  simp [fsExists, Option.isSome_iff_exists]

/-- C19: when the reactor is not running, `operator()` changes nothing: no
byte is written, the counter of incoming events keeps its value and no event
is delivered.  When it is running and the write succeeds, the counter of
incoming events grows by exactly one, the bytes of the event are written to
the log file, and the event is delivered downstream after the write. -/
theorem call_running_or_not (env : LogEnv) (r : LogOutputReactor) (e : Event) :
    (r.m_is_running = false → r.call env e = (none, r))
    ∧ (r.m_is_running = true → r.stream_open = true → r.stream_fail = false →
        ∀ bytes, env.codec_write e = some bytes →
          (r.call env e).1 = none
          ∧ (r.call env e).2.m_events_in = r.m_events_in + 1
          ∧ (r.call env e).2.m_events_out = r.m_events_out + 1
          ∧ (r.call env e).2.trace = r.trace ++ [Action.wrote bytes, Action.delivered e]
          ∧ fsRead (r.call env e).2.fs r.m_log_filename
              = some ((fsRead r.fs r.m_log_filename).getD [] ++ bytes)) := by
  constructor
  · intro h
    simp [LogOutputReactor.call, LogOutputReactor.isRunning, h]
  · intro h ho hf bytes hw
    simp [LogOutputReactor.call, LogOutputReactor.isRunning, h, streamWrite,
      LogOutputReactor.incrementEventsIn, ho, hf, hw, LogOutputReactor.deliverEvent,
      fsRead_fsWrite]

/-- The reactor that was never started ignores the event; the started reactor
counts it, writes the line `1` to the empty log file and then delivers it. -/
theorem call_running_or_not_witness :
    stoppedReactor.call lineEnv statusEvent = (none, stoppedReactor)
    ∧ (runningReactor.call lineEnv statusEvent).1 = none
    ∧ (runningReactor.call lineEnv statusEvent).2.m_events_in = 1
    ∧ (runningReactor.call lineEnv statusEvent).2.trace
        = [Action.wrote [49, 10], Action.delivered statusEvent]
    ∧ fsRead (runningReactor.call lineEnv statusEvent).2.fs "/var/log/pion.log"
        = some [49, 10] :=
  have h := call_running_or_not lineEnv stoppedReactor statusEvent
  have h2 := (call_running_or_not lineEnv runningReactor statusEvent).2
    (by decide) (by decide) (by decide) [49, 10] (by decide)
  ⟨h.1 (by decide), h2.1, h2.2.1, h2.2.2.2.1, h2.2.2.2.2⟩

/-- C20 (amended): at a rotation for which no file exists yet at the
timestamped path `<directory>/<basename><timestamp><extension>`: a reactor
that is not running renames an existing log file to that path, empty or not,
and does nothing else to the files; a running reactor with its log file open
first appends the codec's closing bytes and closes the file, and then the
file is removed with no timestamped file produced if it is empty, and is
renamed to the timestamped path otherwise; in both running cases a new empty
log file is opened when it can be. -/
theorem query_rotate (env : LogEnv) (r : LogOutputReactor) (branches : List String)
    (now : SystemTime) (hb : branches.length > 2) (hr : branches.get? 2 = some "rotate")
    (hfree : fsExists r.fs (timestampedPath r.m_log_filename now) = false) :
    (r.m_is_running = false →
        (r.query env branches now).1 = none
        ∧ (∀ content, fsRead r.fs r.m_log_filename = some content →
            fsRead (r.query env branches now).2.fs (timestampedPath r.m_log_filename now)
                = some content
            ∧ fsRead (r.query env branches now).2.fs r.m_log_filename = none)
        ∧ (fsRead r.fs r.m_log_filename = none → (r.query env branches now).2.fs = r.fs)
        ∧ (∀ q, q ≠ r.m_log_filename → q ≠ timestampedPath r.m_log_filename now →
            fsRead (r.query env branches now).2.fs q = fsRead r.fs q))
    ∧ (r.m_is_running = true → r.stream_open = true → r.stream_fail = false →
        ∀ content, fsRead r.fs r.m_log_filename = some content →
          (content ++ env.codec_finish = [] →
            fsRead (r.query env branches now).2.fs (timestampedPath r.m_log_filename now)
              = none)
          ∧ (content ++ env.codec_finish ≠ [] →
              fsRead (r.query env branches now).2.fs (timestampedPath r.m_log_filename now)
                = some (content ++ env.codec_finish))
          ∧ (env.can_open r.m_log_filename = true →
              (r.query env branches now).1 = none
              ∧ (r.query env branches now).2.stream_open = true
              ∧ fsRead (r.query env branches now).2.fs r.m_log_filename = some [])
          ∧ (∀ q, q ≠ r.m_log_filename → q ≠ timestampedPath r.m_log_filename now →
              fsRead (r.query env branches now).2.fs q = fsRead r.fs q)) := by
  have hfree' : fsRead r.fs (timestampedPath r.m_log_filename now) = none :=
    (fsExists_eq_false _ _).1 hfree
  constructor
  · intro hrun
    have hq : r.query env branches now
        = (none,
            if fsExists r.fs r.m_log_filename then
              { reactorQuery r with
                fs := fsRename r.fs r.m_log_filename (timestampedPath r.m_log_filename now) }
            else reactorQuery r) := by
      simp only [LogOutputReactor.query]
      rw [if_pos ⟨hb, hr⟩]
      simp only [reactorQuery, LogOutputReactor.isRunning, hrun, hfree]
      by_cases hex : fsExists r.fs r.m_log_filename = true
      · simp [hex]
      · simp [hex]
    rw [hq]
    refine ⟨rfl, ?_, ?_, ?_⟩
    · intro content hc
      have hne : r.m_log_filename ≠ timestampedPath r.m_log_filename now := by
        intro e
        rw [← e, hc] at hfree'
        cases hfree'
      have hex : fsExists r.fs r.m_log_filename = true := (fsExists_eq_true _ _).2 ⟨_, hc⟩
      simp only [hex, if_true]
      constructor
      · rw [fsRead_fsRename _ _ _ _ _ hc hne, if_pos rfl]
      · rw [fsRead_fsRename _ _ _ _ _ hc hne, if_neg hne, if_pos rfl]
    · intro hc
      have hex : fsExists r.fs r.m_log_filename = false := (fsExists_eq_false _ _).2 hc
      simp [hex, reactorQuery]
    · intro q hq1 hq2
      cases hc : fsRead r.fs r.m_log_filename with
      | none =>
        have hex : fsExists r.fs r.m_log_filename = false := (fsExists_eq_false _ _).2 hc
        simp [hex, reactorQuery]
      | some content =>
        have hne : r.m_log_filename ≠ timestampedPath r.m_log_filename now := by
          intro e
          rw [← e, hc] at hfree'
          cases hfree'
        have hex : fsExists r.fs r.m_log_filename = true := (fsExists_eq_true _ _).2 ⟨_, hc⟩
        simp only [hex, if_true]
        rw [fsRead_fsRename _ _ _ _ _ hc hne, if_neg hq2, if_neg hq1]
  · intro hrun ho hf content hc
    have hne : r.m_log_filename ≠ timestampedPath r.m_log_filename now := by
      intro e
      rw [← e, hc] at hfree'
      cases hfree'
    have hne' : timestampedPath r.m_log_filename now ≠ r.m_log_filename := fun e => hne e.symm
    by_cases hempty : content ++ env.codec_finish = []
    · have hq : r.query env branches now
          = LogOutputReactor.openLogFileNoLock env
              { reactorQuery r with
                stream_open := false,
                fs := fsRemove (fsWrite r.fs r.m_log_filename (content ++ env.codec_finish))
                        r.m_log_filename,
                trace := r.trace ++ [Action.queried] ++ [Action.wrote env.codec_finish] } := by
        simp only [LogOutputReactor.query]
        rw [if_pos ⟨hb, hr⟩]
        simp [reactorQuery, LogOutputReactor.isRunning, hrun, hfree,
          LogOutputReactor.closeLogFileNoLock, ho, hf, streamWrite, hc, fsFileSize,
          fsRead_fsWrite, fsExists, fsRead_fsRemove, hempty, hfree']
      rw [hq]
      refine ⟨?_, fun h => absurd hempty h, ?_, ?_⟩
      · intro _
        by_cases hcan : env.can_open r.m_log_filename = true
        · simp [LogOutputReactor.openLogFileNoLock, reactorQuery, hcan, fsExists,
            fsRead_fsRemove, fsRead_fsWrite, hne', hfree']
        · simp [LogOutputReactor.openLogFileNoLock, reactorQuery, hcan,
            fsRead_fsRemove, fsRead_fsWrite, hne', hfree']
      · intro hcan
        simp [LogOutputReactor.openLogFileNoLock, reactorQuery, hcan, fsExists,
          fsRead_fsRemove, fsRead_fsWrite]
      · intro q hq1 hq2
        by_cases hcan : env.can_open r.m_log_filename = true
        · simp [LogOutputReactor.openLogFileNoLock, reactorQuery, hcan, fsExists,
            fsRead_fsRemove, fsRead_fsWrite, hq1]
        · simp [LogOutputReactor.openLogFileNoLock, reactorQuery, hcan,
            fsRead_fsRemove, fsRead_fsWrite, hq1]
    · have hw : fsRead (fsWrite r.fs r.m_log_filename (content ++ env.codec_finish))
          r.m_log_filename = some (content ++ env.codec_finish) := by
        rw [fsRead_fsWrite, if_pos rfl]
      have hlen : (content ++ env.codec_finish).length ≠ 0 := by
        intro h0
        exact hempty (List.length_eq_zero.1 h0)
      have hq : r.query env branches now
          = LogOutputReactor.openLogFileNoLock env
              { reactorQuery r with
                stream_open := false,
                fs := fsRename (fsWrite r.fs r.m_log_filename (content ++ env.codec_finish))
                        r.m_log_filename (timestampedPath r.m_log_filename now),
                trace := r.trace ++ [Action.queried] ++ [Action.wrote env.codec_finish] } := by
        simp only [LogOutputReactor.query]
        rw [if_pos ⟨hb, hr⟩]
        simp only [List.length_append] at hlen
        simp [reactorQuery, LogOutputReactor.isRunning, hrun, hfree,
          LogOutputReactor.closeLogFileNoLock, ho, hf, streamWrite, hc, fsFileSize,
          fsRead_fsWrite, fsExists, hlen, hfree']
      rw [hq]
      refine ⟨fun h => absurd h hempty, ?_, ?_, ?_⟩
      · intro _
        by_cases hcan : env.can_open r.m_log_filename = true
        · simp [LogOutputReactor.openLogFileNoLock, reactorQuery, hcan, fsExists,
            fsRead_fsRename _ _ _ _ _ hw hne, fsRead_fsWrite, hne, hne']
        · simp [LogOutputReactor.openLogFileNoLock, reactorQuery, hcan,
            fsRead_fsRename _ _ _ _ _ hw hne, hne, hne']
      · intro hcan
        simp [LogOutputReactor.openLogFileNoLock, reactorQuery, hcan, fsExists,
          fsRead_fsRename _ _ _ _ _ hw hne, fsRead_fsWrite, hne, hne']
      · intro q hq1 hq2
        by_cases hcan : env.can_open r.m_log_filename = true
        · simp [LogOutputReactor.openLogFileNoLock, reactorQuery, hcan, fsExists,
            fsRead_fsRename _ _ _ _ _ hw hne, fsRead_fsWrite, hne, hne', hq1, hq2]
        · simp [LogOutputReactor.openLogFileNoLock, reactorQuery, hcan,
            fsRead_fsRename _ _ _ _ _ hw hne, fsRead_fsWrite, hne, hne', hq1, hq2]

/-- At 2008-03-07 09:05:03 the timestamped path of `/var/log/pion.log` is
`/var/log/pion-20080307-090503.log`.  A running reactor with one line in its
log file renames the file to that path and opens a new empty log file; a
running reactor with an empty log file produces no timestamped file; a
stopped reactor with one line in its log file renames it. -/
theorem query_rotate_witness :
    rotateBranches.length > 2 ∧ rotateBranches.get? 2 = some "rotate"
    ∧ fsExists runningReactorOneEvent.fs
        (timestampedPath runningReactorOneEvent.m_log_filename rotationTime) = false
    ∧ timestampedPath runningReactorOneEvent.m_log_filename rotationTime
        = "/var/log/pion-20080307-090503.log"
    ∧ fsRead (runningReactorOneEvent.query lineEnv rotateBranches rotationTime).2.fs
        (timestampedPath runningReactorOneEvent.m_log_filename rotationTime) = some [49, 10]
    ∧ fsRead (runningReactorOneEvent.query lineEnv rotateBranches rotationTime).2.fs
        runningReactorOneEvent.m_log_filename = some []
    ∧ fsRead (runningReactor.query lineEnv rotateBranches rotationTime).2.fs
        (timestampedPath runningReactor.m_log_filename rotationTime) = none
    ∧ fsRead (stoppedReactorOneEvent.query lineEnv rotateBranches rotationTime).2.fs
        (timestampedPath stoppedReactorOneEvent.m_log_filename rotationTime) = some [49, 10]
    ∧ fsRead (stoppedReactorOneEvent.query lineEnv rotateBranches rotationTime).2.fs
        stoppedReactorOneEvent.m_log_filename = none :=
  have h1 := (query_rotate lineEnv runningReactorOneEvent rotateBranches rotationTime
    (by decide) (by decide) (by decide)).2 (by decide) (by decide) (by decide)
    [49, 10] (by decide)
  have h2 := (query_rotate lineEnv runningReactor rotateBranches rotationTime
    (by decide) (by decide) (by decide)).2 (by decide) (by decide) (by decide)
    [] (by decide)
  have h3 := (query_rotate lineEnv stoppedReactorOneEvent rotateBranches rotationTime
    (by decide) (by decide) (by decide)).1 (by decide)
  ⟨by decide, by decide, by decide, by decide,
    (h1.2.1 (by decide)).trans (by decide), (h1.2.2.1 (by decide)).2.2,
    h2.1 (by decide),
    (h3.2.1 [49, 10] (by decide)).1, (h3.2.1 [49, 10] (by decide)).2⟩

/-- C20, counterexample: a reactor that is not running and whose log file
exists and is empty does not remove the file at a rotation: the empty file
is renamed, so an empty timestamped file is produced. -/
theorem query_rotate_stopped_empty_file :
    stoppedReactor.m_is_running = false
    ∧ fsRead stoppedReactor.fs stoppedReactor.m_log_filename = some []
    ∧ fsExists stoppedReactor.fs "/var/log/pion-20080307-090503.log" = false
    ∧ (stoppedReactor.query lineEnv rotateBranches rotationTime).1 = none
    ∧ fsRead (stoppedReactor.query lineEnv rotateBranches rotationTime).2.fs
        "/var/log/pion-20080307-090503.log" = some []
    ∧ fsRead (stoppedReactor.query lineEnv rotateBranches rotationTime).2.fs
        stoppedReactor.m_log_filename = none := by
  decide


/-! ## The assertion at the end of `HTTPProtocol::readNext` -/

/-- The asserted expression converts to true exactly when the event pointer
is not null or the result is the value false. -/
theorem readNextAssertion_passes_iff (rc : net.tribool) (event_ptr_ref : Option Event) :
    tribool_to_bool (readNextAssertion rc event_ptr_ref) = true
      ↔ event_ptr_ref.isSome = true ∨ rc = net.tribool.false_value := by
  cases rc <;> cases event_ptr_ref <;>
    simp [readNextAssertion, tribool_or, tribool_ne, tribool_of_bool, tribool_to_bool]

/-- What the assertion is meant to say holds of every call of `readNext` when
the event factory never yields a null event: on return the event pointer is
not null or the result is not the value true. -/
theorem readNext_event_or_not_true {σ : Type} (P : MessageParser σ) (env : ProtocolEnv)
    (st : HTTPProtocol σ) (request : Bool) (buf : List net.Byte) (ev : Option Event)
    (hcreate : ∀ t : TermRef, (env.create t).isSome = true) :
    (st.readNext P env request buf ev).2.2.isSome = true
    ∨ (st.readNext P env request buf ev).1 ≠ net.tribool.true_value := by
  cases request
  · by_cases h : (P.parseResponse (P.setReadBuffer st.responseParser buf) st.m_response).1
        = net.tribool.true_value
    · left
      simp [HTTPProtocol.readNext, h, HTTPProtocol.generateEvent, hcreate]
    · right
      simp [HTTPProtocol.readNext, h]
  · right
    by_cases h : (P.parseRequest (P.setReadBuffer st.requestParser buf) st.m_request).1
        = net.tribool.true_value
    · simp [HTTPProtocol.readNext, h]
    · simp [HTTPProtocol.readNext, h]

/-- With a null event pointer on entry, the assertion passes in the request
direction only when the request parser rejects the bytes. -/
theorem readNext_request_assertion {σ : Type} (P : MessageParser σ) (env : ProtocolEnv)
    (st : HTTPProtocol σ) (buf : List net.Byte) :
    assertionPasses (st.readNext P env true buf none) = true
      ↔ (P.parseRequest (P.setReadBuffer st.requestParser buf) st.m_request).1
          = net.tribool.false_value := by
  unfold assertionPasses
  rw [readNextAssertion_passes_iff]
  by_cases h : (P.parseRequest (P.setReadBuffer st.requestParser buf) st.m_request).1
      = net.tribool.true_value
  · simp [HTTPProtocol.readNext, h]
  · simp [HTTPProtocol.readNext, h]

/-- C29 fails on the code: the event factory of the example never yields a
null event, and both for the first bytes of a request (the parser needs more
bytes) and for a whole request (the parser accepts) `readNext` in the request
direction returns indeterminate with the event pointer still null, which is
what the assertion is meant to allow; but the asserted expression
`(event_ptr_ref.get() != NULL) || (rc != true)` then has the value
indeterminate, which is not true in a condition, so the assertion does not
pass. -/
theorem readNext_assertion_indeterminate :
    (∀ t : TermRef, (replayEnv.create t).isSome = true)
    ∧ (freshProtocol.readNext (replayParser replayRequest 200 "OK") replayEnv true
        partialRequestBytes none).1 = net.tribool.indeterminate_value
    ∧ (freshProtocol.readNext (replayParser replayRequest 200 "OK") replayEnv true
        partialRequestBytes none).2.2 = none
    ∧ readNextAssertion net.tribool.indeterminate_value none
        = net.tribool.indeterminate_value
    ∧ assertionPasses (freshProtocol.readNext (replayParser replayRequest 200 "OK")
        replayEnv true partialRequestBytes none) = false
    ∧ (freshProtocol.readNext (replayParser replayRequest 200 "OK") replayEnv true
        replayRequestBytes none).1 = net.tribool.indeterminate_value
    ∧ assertionPasses (freshProtocol.readNext (replayParser replayRequest 200 "OK")
        replayEnv true replayRequestBytes none) = false
    ∧ assertionPasses ((protocolAfterRequest 200 "OK").readNext
        (replayParser replayRequest 200 "OK") replayEnv false replayResponse200Bytes none)
        = true := by
  refine ⟨fun t => rfl, ?_, ?_, ?_, ?_, ?_, ?_, ?_⟩ <;> decide

end plugins

namespace services

set_option maxRecDepth 100000

/-! ## LogServiceAppender -/

theorem uint_decrement (n : Nat) (h1 : 0 < n) (h2 : n < UINT_MODULUS) :
    (n + UINT_MODULUS - 1) % UINT_MODULUS = n - 1 := by
  have h : n + UINT_MODULUS - 1 = (n - 1) + UINT_MODULUS := by omega
  rw [h, Nat.add_mod_right]
  exact Nat.mod_eq_of_lt (by omega)

/-- The loop with enough fuel, on a state whose counter is the length of the
list: it drops the first `m_num_events - m_max_events` strings. -/
theorem eraseLoop_eq (fuel : Nat) :
    ∀ a : LogServiceAppender, a.m_num_events = a.m_log_events.length →
      a.m_num_events < UINT_MODULUS → a.m_num_events ≤ fuel →
      eraseLoop fuel a
        = { a with m_log_events := a.m_log_events.drop (a.m_num_events - a.m_max_events)
                   m_num_events := min a.m_num_events a.m_max_events } := by
  induction fuel with
  | zero =>
    intro a hn _ hf
    have h0 : a.m_num_events = 0 := Nat.le_zero.mp hf
    cases a with
    | mk mx n l =>
      simp only at h0 hn ⊢
      subst h0
      simp [eraseLoop]
  | succ fuel ih =>
    intro a hn hlt hf
    cases a with
    | mk mx n l =>
      simp only at hn hlt hf ⊢
      simp only [eraseLoop]
      by_cases hgt : n > mx
      · have hpos : 0 < n := by omega
        have hdec := uint_decrement n hpos hlt
        rw [if_pos hgt, hdec]
        have hl : n - 1 = (l.drop 1).length := by rw [List.length_drop, ← hn]
        have h2 : n - 1 < UINT_MODULUS := by omega
        have h3 : n - 1 ≤ fuel := by omega
        rw [ih { m_max_events := mx, m_num_events := n - 1, m_log_events := l.drop 1 } hl h2 h3]
        simp only [List.drop_drop]
        have e1 : n - 1 - mx + 1 = n - mx := by omega
        have e3 : 1 + (n - 1 - mx) = n - mx := by omega
        have e2 : min (n - 1) mx = min n mx := by omega
        simp [e1, e2, e3]
      · rw [if_neg hgt]
        have e1 : n - mx = 0 := by omega
        have e2 : min n mx = n := by omega
        simp [e1, e2]

/-- C30: starting from a state where `m_num_events` is the length of the
stored list (a list of fewer than 2^32 - 1 strings, so that the `unsigned
int` counter does not wrap), after `addLogString(s)` the stored list is the
longest suffix of the previous list followed by `s` that has at most
`m_max_events` strings, in the same order; `m_num_events` is again its
length; the list never holds more than `m_max_events` strings and holds none
when `m_max_events = 0`; and the loop has ended because its condition is
false. -/
theorem addLogString_bounded_fifo (a : LogServiceAppender) (s : String)
    (hnum : a.m_num_events = a.m_log_events.length)
    (hlen : a.m_log_events.length + 1 < UINT_MODULUS) :
    (a.addLogString s).m_log_events
        = (a.m_log_events ++ [s]).drop (a.m_log_events.length + 1 - a.m_max_events)
    ∧ (a.addLogString s).m_log_events <:+ a.m_log_events ++ [s]
    ∧ (a.addLogString s).m_log_events.length = min (a.m_log_events.length + 1) a.m_max_events
    ∧ (a.addLogString s).m_num_events = (a.addLogString s).m_log_events.length
    ∧ (a.addLogString s).m_log_events.length ≤ a.m_max_events
    ∧ (a.m_max_events = 0 → (a.addLogString s).m_log_events = [])
    ∧ (a.addLogString s).m_max_events = a.m_max_events
    ∧ ¬ ((a.addLogString s).m_num_events > (a.addLogString s).m_max_events) := by
  cases a with
  | mk mx n l =>
    simp only at hnum hlen ⊢
    have hinc : (n + 1) % UINT_MODULUS = n + 1 := Nat.mod_eq_of_lt (by omega)
    have hl : n + 1 = (l ++ [s]).length := by simp [hnum]
    have hloop := eraseLoop_eq (n + 1)
      { m_max_events := mx, m_num_events := n + 1, m_log_events := l ++ [s] }
      hl (by show n + 1 < UINT_MODULUS; omega) (Nat.le_refl _)
    have hres : LogServiceAppender.addLogString
        { m_max_events := mx, m_num_events := n, m_log_events := l } s
        = { m_max_events := mx, m_num_events := min (n + 1) mx,
            m_log_events := (l ++ [s]).drop (n + 1 - mx) } := by
      simp only [LogServiceAppender.addLogString, hinc]
      exact hloop
    rw [hres]
    simp only
    have hlen2 : ((l ++ [s]).drop (n + 1 - mx)).length = min (n + 1) mx := by
      rw [List.length_drop, ← hl]
      omega
    refine ⟨by rw [hnum], List.drop_suffix _ _, by rw [hlen2, hnum], hlen2.symm,
      by rw [hlen2]; exact Nat.min_le_right _ _, ?_, trivial, ?_⟩
    · intro h0
      apply List.eq_nil_of_length_eq_zero
      rw [hlen2, h0]
      exact Nat.min_zero _
    · exact Nat.not_lt.mpr (Nat.min_le_right _ _)

/-- C30, on an appender that keeps at most three strings and holds `a`, `b`,
`c`: adding `d` leaves `b`, `c`, `d`; and an appender with `m_max_events = 0`
holds nothing after a string is added. -/
theorem addLogString_bounded_fifo_witness :
    fullAppender.m_num_events = fullAppender.m_log_events.length
    ∧ (fullAppender.addLogString "d").m_log_events = ["b", "c", "d"]
    ∧ (fullAppender.addLogString "d").m_num_events = 3
    ∧ (zeroAppender.addLogString "x").m_log_events = []
    ∧ (LogServiceAppender.create.addLogString "x").m_log_events = ["x"] :=
  have h := addLogString_bounded_fifo fullAppender "d" (by decide) (by decide)
  have h0 := addLogString_bounded_fifo zeroAppender "x" (by decide) (by decide)
  have h1 := addLogString_bounded_fifo LogServiceAppender.create "x" (by decide) (by decide)
  ⟨by decide, h.1.trans (by decide), h.2.2.2.1.trans (h.2.2.1.trans (by decide)),
    h0.2.2.2.2.2.1 (by decide), h1.1.trans (by decide)⟩

end services

namespace common

set_option maxRecDepth 100000

/-! ## PluginManager -/

/-- C21: for every state of the plug-in manager and every id: when a plug-in
is loaded under the id, `load` with that id and any name fails with
`DuplicatePlugin`, changes nothing, and `get` still returns the loaded
plug-in; when no plug-in is loaded under the id, `get` returns null, and
`remove` and `run` fail with `PluginNotFound` and change nothing. -/
theorem plugin_manager_errors (search : String → Option PluginLibrary) (m : PluginManager)
    (plugin_id plugin_name : String) (f : Nat → PluginManager → PluginManager) :
    (∀ obj : Nat, m.get plugin_id = some obj →
        (m.load search plugin_id plugin_name).1
            = some (PluginException.DuplicatePlugin plugin_id)
        ∧ (m.load search plugin_id plugin_name).2.1 = m
        ∧ (m.load search plugin_id plugin_name).2.1.get plugin_id = some obj)
    ∧ (plugin_id ∉ m.m_plugin_map.map Prod.fst →
        m.get plugin_id = none
        ∧ m.remove plugin_id = (some (PluginException.PluginNotFound plugin_id), m)
        ∧ m.run plugin_id f = (some (PluginException.PluginNotFound plugin_id), m)) := by
  constructor
  · intro obj hget
    unfold PluginManager.get at hget
    cases hf : findPlugin plugin_id m.m_plugin_map with
    | none => rw [hf] at hget; cases hget
    | some entry =>
      have hl : m.load search plugin_id plugin_name
          = (some (PluginException.DuplicatePlugin plugin_id), m, none) := by
        simp [PluginManager.load, hf]
      rw [hl]
      refine ⟨rfl, rfl, ?_⟩
      simp only [PluginManager.get]
      exact hget
  · intro hnot
    have hf : findPlugin plugin_id m.m_plugin_map = none := by
      generalize m.m_plugin_map = l at hnot
      induction l with
      | nil => rfl
      | cons kv rest ih =>
        have h1 : ¬ kv.1 = plugin_id := fun he => hnot (by simp [he])
        have h2 : plugin_id ∉ rest.map Prod.fst :=
          fun hm => hnot (by simp at hm ⊢; exact Or.inr hm)
        simp [findPlugin, h1, ih h2]
    refine ⟨?_, ?_, ?_⟩
    · simp [PluginManager.get, hf]
    · simp [PluginManager.remove, hf]
    · simp [PluginManager.run, hf]

/-- C21, on the fixtures of the tests: with `urn:id_1` loaded, loading it
again fails with `DuplicatePlugin` and `get("urn:id_1")` is still the loaded
object; on a new manager `get("urn:id_2")` is null and `remove("urn:id_1")`
and `run("urn:id_3", f)` fail with `PluginNotFound`. -/
theorem plugin_manager_errors_witness :
    managerWithPluginLoaded.get "urn:id_1" = some 100
    ∧ (managerWithPluginLoaded.load testPlugins "urn:id_1" "hasCreateAndDestroy").1
        = some (PluginException.DuplicatePlugin "urn:id_1")
    ∧ (managerWithPluginLoaded.load testPlugins "urn:id_1" "hasCreateAndDestroy").2.1.get
        "urn:id_1" = some 100
    ∧ PluginManager.create.get "urn:id_2" = none
    ∧ (PluginManager.create.remove "urn:id_1").1
        = some (PluginException.PluginNotFound "urn:id_1")
    ∧ (PluginManager.create.run "urn:id_3" noRunFunction).1
        = some (PluginException.PluginNotFound "urn:id_3") :=
  have h := (plugin_manager_errors testPlugins managerWithPluginLoaded "urn:id_1"
    "hasCreateAndDestroy" noRunFunction).1 100 (by decide)
  have h2 := (plugin_manager_errors testPlugins PluginManager.create "urn:id_2"
    "hasCreateAndDestroy" noRunFunction).2 (by decide)
  have h1 := (plugin_manager_errors testPlugins PluginManager.create "urn:id_1"
    "hasCreateAndDestroy" noRunFunction).2 (by decide)
  have h3 := (plugin_manager_errors testPlugins PluginManager.create "urn:id_3"
    "hasCreateAndDestroy" noRunFunction).2 (by decide)
  ⟨by decide, h.1, h.2.2, h2.1, by rw [h1.2.1], by rw [h3.2.2]⟩

/-! ## PionScheduler -/

theorem run_append (t1 t2 : List SchedulerEvent) :
    ∀ s : PionScheduler, s.run (t1 ++ t2) = (s.run t1).bind (fun s1 => s1.run t2) := by
  induction t1 with
  | nil => intro s; rfl
  | cons e rest ih =>
    intro s
    simp only [List.cons_append, PionScheduler.run]
    cases s.step e with
    | none => rfl
    | some s1 => exact ih s1

/-- One event keeps the account of the active users: the counter plus the
removals is the earlier counter plus the additions; and while `shutdown()`
joins the threads there is no active user. -/
theorem step_users (s s1 : PionScheduler) (e : SchedulerEvent)
    (hj : s.shutdown_progress = ShutdownProgress.joining_threads → s.m_active_users = 0)
    (h : s.step e = some s1) :
    s1.m_active_users + [e].count SchedulerEvent.removeActiveUser
        = s.m_active_users + [e].count SchedulerEvent.addActiveUser
    ∧ (s1.shutdown_progress = ShutdownProgress.joining_threads → s1.m_active_users = 0) := by
  cases e <;> simp only [PionScheduler.step] at h
  · split at h
    · cases h; exact ⟨by simp, hj⟩
    · split at h
      · rename_i h0
        cases h
        exact ⟨by simp, fun hc => by simp [h0.1] at hc⟩
      · cases h
  · split at h
    · cases h
    · rename_i h0
      cases h
      exact ⟨by simp, fun hc => absurd hc h0⟩
  · split at h
    · cases h
    · rename_i h0
      cases h
      have hpos : s.m_active_users ≠ 0 := fun hz => h0 (Or.inr hz)
      refine ⟨?_, fun hc => absurd (Or.inl hc) h0⟩
      simp
      omega
  · split at h
    · cases h
      exact ⟨by simp, fun hc => by simp at hc⟩
    · cases h
  · split at h
    · rename_i h0
      cases h
      exact ⟨by simp, fun _ => h0.2⟩
    · cases h
  · split at h
    · cases h; exact ⟨by simp, hj⟩
    · cases h
  · split at h
    · cases h
      exact ⟨by simp, fun hc => by simp at hc⟩
    · cases h

theorem run_users (trace : List SchedulerEvent) :
    ∀ s s1 : PionScheduler,
      (s.shutdown_progress = ShutdownProgress.joining_threads → s.m_active_users = 0) →
      s.run trace = some s1 →
      s1.m_active_users + trace.count SchedulerEvent.removeActiveUser
          = s.m_active_users + trace.count SchedulerEvent.addActiveUser
      ∧ (s1.shutdown_progress = ShutdownProgress.joining_threads → s1.m_active_users = 0) := by
  induction trace with
  | nil =>
    intro s s1 hj h
    simp only [PionScheduler.run, Option.some.injEq] at h
    subst h
    exact ⟨by simp, hj⟩
  | cons e rest ih =>
    intro s s1 hj h
    simp only [PionScheduler.run] at h
    cases hs : s.step e with
    | none => rw [hs] at h; cases h
    | some s2 =>
      rw [hs] at h
      obtain ⟨h1, h2⟩ := step_users s s2 e hj hs
      obtain ⟨h3, h4⟩ := ih s2 s1 h2 h
      refine ⟨?_, h4⟩
      have c1 : (e :: rest).count SchedulerEvent.removeActiveUser
          = [e].count SchedulerEvent.removeActiveUser
            + rest.count SchedulerEvent.removeActiveUser := by
        rw [← List.count_append]; rfl
      have c2 : (e :: rest).count SchedulerEvent.addActiveUser
          = [e].count SchedulerEvent.addActiveUser
            + rest.count SchedulerEvent.addActiveUser := by
        rw [← List.count_append]; rfl
      omega

theorem run_replicate_add (N : Nat) :
    ∀ s : PionScheduler, s.shutdown_progress ≠ ShutdownProgress.joining_threads →
      s.run (List.replicate N SchedulerEvent.addActiveUser)
        = some { s with m_active_users := s.m_active_users + N } := by
  induction N with
  | zero => intro s _; rfl
  | succ N ih =>
    intro s hs
    simp only [List.replicate, PionScheduler.run, PionScheduler.step, hs, if_false]
    rw [ih { s with m_active_users := s.m_active_users + 1 } hs]
    simp [Nat.add_assoc, Nat.add_comm 1 N]

/-- When `shutdown()` returns at the end of a sequence of events that started
in a state where it had not been called, every active user has been removed:
the removals in the sequence are the users of the first state plus the
additions in the sequence; and no worker thread is running. -/
theorem run_shutdown_returns (s s1 : PionScheduler) (trace : List SchedulerEvent)
    (h0 : s.shutdown_progress ≠ ShutdownProgress.joining_threads)
    (hrun : s.run (trace ++ [SchedulerEvent.shutdownReturns]) = some s1) :
    s.m_active_users + trace.count SchedulerEvent.addActiveUser
        = trace.count SchedulerEvent.removeActiveUser
    ∧ s1.m_active_users = 0 ∧ s1.m_running_threads = 0 := by
  rw [run_append] at hrun
  cases hm : s.run trace with
  | none => rw [hm] at hrun; cases hrun
  | some s2 =>
    rw [hm] at hrun
    obtain ⟨h1, h2⟩ := run_users trace s s2 (fun hc => absurd hc h0) hm
    simp only [Option.bind, PionScheduler.run, PionScheduler.step] at hrun
    split at hrun
    · cases hrun
    · rename_i s3 hstep
      split at hstep
      · rename_i hj
        cases hstep
        cases hrun
        have hz := h2 hj.1
        refine ⟨?_, hz, hj.2⟩
        omega
      · cases hstep

/-- C23: for every N and every number of worker threads, after `startup()`
and N calls of `addActiveUser()`, whenever a call of `shutdown()` returns,
the events since then contain a `removeActiveUser()` for each of the N users
(and for each user added meanwhile), so at least N of them; and on return no
worker thread is running and there is no active user. -/
theorem shutdown_waits_for_users (num_threads N : Nat) (trace : List SchedulerEvent)
    (s1 : PionScheduler)
    (hrun : (PionScheduler.create num_threads).run
        (SchedulerEvent.startup :: List.replicate N SchedulerEvent.addActiveUser
          ++ trace ++ [SchedulerEvent.shutdownReturns])
        = some s1) :
    N + trace.count SchedulerEvent.addActiveUser = trace.count SchedulerEvent.removeActiveUser
    ∧ N ≤ trace.count SchedulerEvent.removeActiveUser
    ∧ s1.m_active_users = 0
    ∧ s1.m_running_threads = 0 := by
  have hstart : (PionScheduler.create num_threads).run
      (SchedulerEvent.startup :: List.replicate N SchedulerEvent.addActiveUser)
      = some { m_running_threads := num_threads, m_num_threads := num_threads,
               m_active_users := N, m_is_running := true,
               shutdown_progress := ShutdownProgress.not_called } := by
    simp only [PionScheduler.run, PionScheduler.step, PionScheduler.create]
    simp only [Bool.false_eq_true, if_false, and_self, if_true]
    rw [run_replicate_add N _ (by simp)]
    simp
  have hsplit : SchedulerEvent.startup :: List.replicate N SchedulerEvent.addActiveUser
        ++ trace ++ [SchedulerEvent.shutdownReturns]
      = (SchedulerEvent.startup :: List.replicate N SchedulerEvent.addActiveUser)
        ++ (trace ++ [SchedulerEvent.shutdownReturns]) := by
    simp
  rw [hsplit, run_append, hstart] at hrun
  simp only [Option.bind] at hrun
  obtain ⟨h1, h2, h3⟩ := run_shutdown_returns _ s1 trace (by simp) hrun
  have h4 : N + trace.count SchedulerEvent.addActiveUser
      = trace.count SchedulerEvent.removeActiveUser := h1
  exact ⟨h4, by omega, h2, h3⟩

/-- C23, with two worker threads and three active users: `shutdown()` returns
after three calls of `removeActiveUser()`, one of them made before
`shutdown()` was called, and after both workers have left; and it cannot
return after only two calls of `removeActiveUser()`. -/
theorem shutdown_waits_for_users_witness :
    (PionScheduler.create 2).run
        (SchedulerEvent.startup :: List.replicate 3 SchedulerEvent.addActiveUser
          ++ [SchedulerEvent.removeActiveUser, SchedulerEvent.shutdownCalled,
              SchedulerEvent.workerExits, SchedulerEvent.removeActiveUser,
              SchedulerEvent.removeActiveUser, SchedulerEvent.noMoreActiveUsers,
              SchedulerEvent.workerExits]
          ++ [SchedulerEvent.shutdownReturns])
      = some { m_running_threads := 0, m_num_threads := 2, m_active_users := 0,
               m_is_running := false, shutdown_progress := ShutdownProgress.not_called }
    ∧ 3 ≤ [SchedulerEvent.removeActiveUser, SchedulerEvent.shutdownCalled,
            SchedulerEvent.workerExits, SchedulerEvent.removeActiveUser,
            SchedulerEvent.removeActiveUser, SchedulerEvent.noMoreActiveUsers,
            SchedulerEvent.workerExits].count SchedulerEvent.removeActiveUser
    ∧ (PionScheduler.create 2).run
        (SchedulerEvent.startup :: List.replicate 3 SchedulerEvent.addActiveUser
          ++ [SchedulerEvent.shutdownCalled, SchedulerEvent.removeActiveUser,
              SchedulerEvent.removeActiveUser, SchedulerEvent.workerExits,
              SchedulerEvent.workerExits]
          ++ [SchedulerEvent.shutdownReturns])
      = none :=
  have h := shutdown_waits_for_users 2 3
    [SchedulerEvent.removeActiveUser, SchedulerEvent.shutdownCalled,
     SchedulerEvent.workerExits, SchedulerEvent.removeActiveUser,
     SchedulerEvent.removeActiveUser, SchedulerEvent.noMoreActiveUsers,
     SchedulerEvent.workerExits]
    { m_running_threads := 0, m_num_threads := 2, m_active_users := 0,
      m_is_running := false, shutdown_progress := ShutdownProgress.not_called }
    (by decide)
  ⟨by decide, h.2.1, by decide⟩

end common

end pion
